import Mathlib

/-!
# Open Firmware disk subsystem (grub-core/disk/ieee1275/ofdisk.c)

A shallow embedding of the path registry, the comma escaping of exposed
names, the single-slot firmware handle cache, the retry-timeout
classification and the retry wrappers, the block-size probe, the disk
iteration, the scanner with its enumerators, the boot scope and
`grub_ofdisk_open_real` of `ofdisk.c`, with the properties proved about
them.

Conventions of the embedding.

* A C string is the list of its characters before the terminating NUL
  (`CStr`).  `grub_strlen` is `List.length`, `grub_strcmp (a, b) == 0` is
  `a = b`.
* A bucket of the hash table `ofdisk_hash` is the list of the entries
  linked through `next`, head first.  A pointer to an entry is the pair of
  its bucket and the number of entries linked after it (`EntPtr`); entries
  are only ever linked in at the head, so this pair never changes.
* A NULL pointer is `none`.  Dereferencing NULL is undefined in C; the
  functions that can do so return `Option`, and `none` stands for that fault.
* A string is held by value.  Where the source keeps a pointer to a block it
  has passed to `grub_free` (the `devpath` of an entry made by
  `grub_ofdisk_open_real`), the state lists the entry as freed and what the
  block holds at a later read is a parameter (`heap`).
* Library functions of GRUB that live outside the translated file
  (`grub_strstr`, `grub_strrchr`, `grub_strncmp`, `grub_strtoul`,
  `grub_snprintf`, the allocator, the firmware calls) are either modelled by
  their documented behaviour or taken as parameters; each such place says so.
* An enumerator of the scanner is given by the list of what it does that is
  visible outside it (`ScanEvent`): the opens and closes of firmware handles,
  the `call-method` requests and the calls of `dev_iterate_real`.
-/

namespace Ofdisk

/-! ## Strings and error codes -/

/-- A C string without its terminator. -/
abbrev CStr := List Char

/-- The values of `grub_err_t` (grub/err.h) that this file uses. -/
inductive grub_err_t where
  | GRUB_ERR_NONE
  | GRUB_ERR_OUT_OF_MEMORY
  | GRUB_ERR_BAD_NUMBER
  | GRUB_ERR_OUT_OF_RANGE
  | GRUB_ERR_UNKNOWN_DEVICE
  | GRUB_ERR_BAD_DEVICE
  | GRUB_ERR_READ_ERROR
  | GRUB_ERR_WRITE_ERROR
  deriving DecidableEq, Repr

open grub_err_t

/-- Modelled from the spec: `grub_strrchr` (grub/misc.h) is not part of the
translated file.  It returns the suffix of `s` that starts at the last
occurrence of `c`, or NULL when `c` does not occur ("last path-segment"). -/
def grub_strrchr : CStr → Char → Option CStr
  | [], _ => none
  | x :: rest, c =>
    match grub_strrchr rest c with
    | some r => some r
    | none => if x = c then some (x :: rest) else none

/-- Modelled from the spec: `grub_strncmp (s1, s2, n) == 0` (grub/misc.h, not
part of the translated file): the first `n` characters of the two strings,
or all of them when a string ends earlier, are the same ("begins with"). -/
def grub_strncmp_eq (s1 s2 : CStr) (n : Nat) : Bool :=
  s1.take n == s2.take n

/-! ## The registry: `struct ofdisk_hash_ent` and `ofdisk_hash` -/

/-- One entry, `struct ofdisk_hash_ent`.  The field `next` is the rest of the
bucket list.  `shortest` and `grub_shortest` point at the `devpath` and
`grub_devpath` strings of an entry; those strings are never written after
the entry is created, so the pointer is represented by the string. -/
structure ofdisk_hash_ent where
  devpath : CStr
  open_path : CStr
  grub_devpath : CStr
  is_boot : Bool
  is_removable : Bool
  block_size_fails : Nat
  shortest : Option CStr
  grub_shortest : Option CStr
  deriving DecidableEq, Repr

/-- The macro `OFDISK_HASH_SZ`, defined as 8. -/
def OFDISK_HASH_SZ : Nat := 8

/-- The process-wide state the registry functions read and write: the table
`ofdisk_hash` (bucket `i` for `i < OFDISK_HASH_SZ`) and `grub_errno`. -/
structure Registry where
  ofdisk_hash : Nat → List ofdisk_hash_ent
  grub_errno : grub_err_t

/-- The state at start-up: every bucket empty, no error pending. -/
def Registry.empty : Registry :=
  { ofdisk_hash := fun _ => [], grub_errno := GRUB_ERR_NONE }

/-- A pointer to an entry: its bucket and the number of entries linked after
it in that bucket. -/
structure EntPtr where
  bucket : Nat
  depth : Nat
  deriving DecidableEq, Repr

/-- The function `ofdisk_hash_fn`: exclusive-or of the characters, masked to the table
size.  Only the low three bits survive the mask, so the signedness of `char`
does not matter. -/
def ofdisk_hash_fn (devpath : CStr) : Nat :=
  (devpath.foldl (fun hash c => hash ^^^ c.toNat) 0) &&& (OFDISK_HASH_SZ - 1)

/-- The loop of `ofdisk_hash_find` over one bucket: the first entry whose
`devpath` compares equal, as the number of entries linked after it. -/
def chain_find (devpath : CStr) : List ofdisk_hash_ent → Option Nat
  | [] => none
  | p :: next => if p.devpath = devpath then some next.length else chain_find devpath next

/-- Read through an entry pointer inside one bucket. -/
def chain_get : List ofdisk_hash_ent → Nat → Option ofdisk_hash_ent
  | [], _ => none
  | p :: next, d => if d = next.length then some p else chain_get next d

/-- Write through an entry pointer inside one bucket. -/
def chain_modify (f : ofdisk_hash_ent → ofdisk_hash_ent) :
    List ofdisk_hash_ent → Nat → List ofdisk_hash_ent
  | [], _ => []
  | p :: next, d => if d = next.length then f p :: next else p :: chain_modify f next d

/-- The function `ofdisk_hash_find`: the bucket of `devpath` is searched. -/
def ofdisk_hash_find (s : Registry) (devpath : CStr) : Option EntPtr :=
  (chain_find devpath (s.ofdisk_hash (ofdisk_hash_fn devpath))).map
    (fun d => { bucket := ofdisk_hash_fn devpath, depth := d })

/-- The entry a pointer points at (`*p`). -/
def deref (s : Registry) (p : EntPtr) : Option ofdisk_hash_ent :=
  chain_get (s.ofdisk_hash p.bucket) p.depth

/-- An assignment to fields of `*p`. -/
def store (s : Registry) (p : EntPtr) (f : ofdisk_hash_ent → ofdisk_hash_ent) : Registry :=
  { s with ofdisk_hash := fun i =>
      if i = p.bucket then chain_modify f (s.ofdisk_hash i) p.depth else s.ofdisk_hash i }

/-- The outcomes of the three allocations of `ofdisk_hash_add_real`, in the
order of the source: the entry, `grub_devpath`, `open_path`.  `true` is
success. -/
structure Allocs where
  ent : Bool
  grub_devpath : Bool
  open_path : Bool
  deriving DecidableEq, Repr

/-- Every allocation succeeds. -/
def Allocs.ok : Allocs := { ent := true, grub_devpath := true, open_path := true }

/-- The copy loop of `ofdisk_hash_add_real` (lines 136-141): `iptr` is what
is left to read, `out` what has been written through `optr` so far. -/
def escape_loop : CStr → CStr → CStr
  | [], out => out
  | c :: iptr, out =>
    escape_loop iptr (if c = ',' then (out ++ ['\\']) ++ [c] else out ++ [c])

/-- The string `grub_devpath` that `ofdisk_hash_add_real` builds. -/
def make_grub_devpath (devpath : CStr) : CStr :=
  escape_loop devpath "ieee1275/".toList

/-- The string `open_path` that `ofdisk_hash_add_real` builds;
`no_partition_0` is `grub_ieee1275_test_flag (GRUB_IEEE1275_FLAG_NO_PARTITION_0)`. -/
def make_open_path (no_partition_0 : Bool) (devpath : CStr) : CStr :=
  if no_partition_0 then devpath else devpath ++ [':', '0']

/-- The allocations `ofdisk_hash_add_real` makes all succeed; `open_path` is
only allocated when the flag is clear. -/
def Allocs.succeeds (no_partition_0 : Bool) (mem : Allocs) : Bool :=
  mem.ent && mem.grub_devpath && (no_partition_0 || mem.open_path)

/-- The entry `ofdisk_hash_add_real` fills in: `grub_zalloc` clears every
field, then `devpath`, `grub_devpath` and `open_path` are set. -/
def new_ent (no_partition_0 : Bool) (devpath : CStr) : ofdisk_hash_ent :=
  { devpath := devpath
    open_path := make_open_path no_partition_0 devpath
    grub_devpath := make_grub_devpath devpath
    is_boot := false
    is_removable := false
    block_size_fails := 0
    shortest := none
    grub_shortest := none }

/-- Lines 144-145 of `ofdisk_hash_add_real`: `p->next = *head; *head = p`. -/
def link_head (s : Registry) (p : ofdisk_hash_ent) : Registry :=
  { s with ofdisk_hash := fun i =>
      if i = ofdisk_hash_fn p.devpath then p :: s.ofdisk_hash i else s.ofdisk_hash i }

/-- The function `ofdisk_hash_add_real`.  A failed allocation returns NULL and leaves the
table alone; the allocator has then set `grub_errno`. -/
def ofdisk_hash_add_real (no_partition_0 : Bool) (mem : Allocs) (s : Registry)
    (devpath : CStr) : Registry × Option EntPtr :=
  if !mem.ent then
    ({ s with grub_errno := GRUB_ERR_OUT_OF_MEMORY }, none)
  else if !mem.grub_devpath then
    ({ s with grub_errno := GRUB_ERR_OUT_OF_MEMORY }, none)
  else if !no_partition_0 && !mem.open_path then
    ({ s with grub_errno := GRUB_ERR_OUT_OF_MEMORY }, none)
  else
    (link_head s (new_ent no_partition_0 devpath),
     some { bucket := ofdisk_hash_fn devpath,
            depth := (s.ofdisk_hash (ofdisk_hash_fn devpath)).length })

/-- The function `check_string_removable`: the part after the last slash
begins with `cdrom` or with `fd`. -/
def check_string_removable (str : CStr) : Bool :=
  let ptr := match grub_strrchr str '/' with
    | some r => r.drop 1
    | none => str
  grub_strncmp_eq ptr "cdrom".toList 5 || grub_strncmp_eq ptr "fd".toList 2

/-- The assignment `p->is_removable = 1`. -/
def mark_removable (e : ofdisk_hash_ent) : ofdisk_hash_ent :=
  { e with is_removable := true }

/-- The assignments `pcan->shortest = p->devpath` and
`pcan->grub_shortest = p->grub_devpath`, `e` being `*p`. -/
def set_shortest (e : ofdisk_hash_ent) (c : ofdisk_hash_ent) : ofdisk_hash_ent :=
  { c with shortest := some e.devpath, grub_shortest := some e.grub_devpath }

/-- Lines 192-197 of `ofdisk_hash_add`, reached with `pcan` not NULL: when
`pcan` has no `shortest` yet, or it is strictly longer than `devpath`, it is
replaced by the strings of `*p`. -/
def reassign_shortest (s : Registry) (p : Option EntPtr) (pcan : EntPtr)
    (devpath : CStr) : Option Registry :=
  match deref s pcan with
  | none => none
  | some ecan =>
    if (match ecan.shortest with
        | none => true
        | some sh => decide (sh.length > devpath.length)) then
      match p.bind (deref s) with
      | none => none
      | some e => some (store s pcan (set_shortest e))
    else some s

/-- The function `ofdisk_hash_add`.  `mem` are the allocation outcomes of the entry for
`devpath`, `mem_can` those of the entry for `curcan` when it has to be
created.  The result is `none` when the function dereferences a NULL
pointer.  (On the path where `curcan` is found the source frees it and then
still reads it in `check_string_removable`; the model reads the string it
held.) -/
def ofdisk_hash_add (no_partition_0 : Bool) (mem mem_can : Allocs) (s : Registry)
    (devpath : CStr) (curcan : Option CStr) : Option (Registry × Option EntPtr) :=
  let (s1, p) := ofdisk_hash_add_real no_partition_0 mem s devpath
  match curcan with
  | none =>
    match p with
    | none => none
    | some pp =>
      let s2 := store s1 pp (fun e => set_shortest e e)
      let s3 := if check_string_removable devpath then store s2 pp mark_removable else s2
      some (s3, p)
  | some can =>
    let (s2, pcan) := match ofdisk_hash_find s1 can with
      | none => ofdisk_hash_add_real no_partition_0 mem_can s1 can
      | some q => (s1, some q)
    let removable := check_string_removable devpath || check_string_removable can
    match pcan with
    | none =>
      if removable then none
      else some ({ s2 with grub_errno := GRUB_ERR_NONE }, p)
    | some q =>
      let s3 := if removable then store s2 q mark_removable else s2
      (reassign_shortest s3 p q devpath).map (fun s4 => (s4, p))

/-- The designee of the group of `devpath`: the `shortest` field of the entry
`ofdisk_hash_find` returns for it. -/
def designee (s : Registry) (devpath : CStr) : Option CStr :=
  ((ofdisk_hash_find s devpath).bind (deref s)).bind (fun e => e.shortest)

/-- Every entry of the table, bucket by bucket, as `grub_ofdisk_iterate`
walks it. -/
def all_entries (s : Registry) : List ofdisk_hash_ent :=
  (List.range OFDISK_HASH_SZ).flatMap s.ofdisk_hash

/-! ## Un-escaping: `compute_dev_path` -/

/-- The loop of `compute_dev_path` (lines 822-831): a backslash directly
followed by a comma is written as a comma, every other character is
copied. -/
def unescape_loop : CStr → CStr
  | [] => []
  | [c] => [c]
  | c :: d :: name =>
    if c = '\\' ∧ d = ',' then ',' :: unescape_loop name
    else c :: unescape_loop (d :: name)

/-- The function `compute_dev_path`; `alloc_ok` is the outcome of its `grub_malloc`, and
the result is NULL when that fails. -/
def compute_dev_path (alloc_ok : Bool) (name : CStr) : Option CStr :=
  if alloc_ok then some (unescape_loop name) else none

/-- The exposed name as the specification words it: the tag `ieee1275/`
followed by `devpath` in which each comma is replaced by a backslash and a
comma, every other character kept. -/
def exposed_name_spec (devpath : CStr) : CStr :=
  "ieee1275/".toList ++ devpath.flatMap (fun c => if c = ',' then ['\\', ','] else [c])

/-- The first path of minimal length in a list of paths given in insertion
order. -/
def first_shortest : List CStr → Option CStr
  | [] => none
  | x :: rest =>
    match first_shortest rest with
    | none => some x
    | some y => if y.length < x.length then some y else some x

/-- The registry after two successive `ofdisk_hash_add` calls under the same
hint, every allocation succeeding; `none` if a call faults. -/
def add_two_under_hint (no_partition_0 : Bool) (s : Registry) (A B C : CStr) :
    Option Registry :=
  ((ofdisk_hash_add no_partition_0 Allocs.ok Allocs.ok s A (some C)).bind
    (fun r => ofdisk_hash_add no_partition_0 Allocs.ok Allocs.ok r.1 B (some C))).map
    (fun r => r.1)

/-- The registry after `ofdisk_hash_add (P, NULL)` followed by
`ofdisk_hash_add (Q, P)` from the empty table, every allocation succeeding. -/
def add_plain_then_alias (no_partition_0 : Bool) (P Q : CStr) : Option Registry :=
  ((ofdisk_hash_add no_partition_0 Allocs.ok Allocs.ok Registry.empty P none).bind
    (fun r => ofdisk_hash_add no_partition_0 Allocs.ok Allocs.ok r.1 Q (some P))).map
    (fun r => r.1)

/-- The exposed names `grub_ofdisk_iterate` can hand out: `grub_shortest` of
every entry that has a `shortest`. -/
def group_names (s : Registry) : List (Option CStr) :=
  ((all_entries s).filter (fun e => e.shortest.isSome)).map (fun e => e.grub_shortest)

/-! ## The handle cache: `last_devpath` and `last_ihandle` -/

/-- A `char *` that is not NULL: the address it holds and the string found
there.  `==` on two pointers compares `addr`, `grub_strcmp` compares `str`. -/
structure StrPtr where
  addr : Nat
  str : CStr
  deriving DecidableEq, Repr

/-- A call into the firmware together with what the firmware answered.
`fw_open path h`: `grub_ieee1275_open`, `h` the ihandle it stored (0 when
the open failed).  `fw_close h`: `grub_ieee1275_close`. -/
inductive FwCall where
  | fw_open (path : Option CStr) (ihandle : Nat)
  | fw_close (ihandle : Nat)
  | fw_seek (ihandle : Nat) (pos : Nat) (status : Int)
  | fw_read (ihandle : Nat) (len : Nat) (actual : Int)
  | fw_write (ihandle : Nat) (len : Nat) (actual : Int)
  deriving DecidableEq, Repr

/-- The two statics of the cache.  `last_ihandle = 0` means no handle. -/
structure HandleCache where
  last_devpath : Option StrPtr
  last_ihandle : Nat
  deriving DecidableEq, Repr

/-- The cache before anything was opened (zero-initialised statics). -/
def HandleCache.empty : HandleCache := { last_devpath := none, last_ihandle := 0 }

/-- How the cache step of a function ended: the cached handle was kept, a
new one was opened, or the function returned the error. -/
inductive CacheStep where
  | hit
  | opened
  | error (err : grub_err_t)
  deriving DecidableEq, Repr

/-- Pointer comparison `a == b` of two `char *`, NULL included. -/
def same_pointer (a b : Option StrPtr) : Bool :=
  a.map (fun p => p.addr) == b.map (fun p => p.addr)

/-- Lines 876-885 and 999-1007, the same in `grub_ofdisk_open_real` and
`grub_ofdisk_prepare`: close the held handle if there is one, clear the
cache, open `target`; `fw_result` is the ihandle the firmware stores. -/
def reopen (c : HandleCache) (target : Option StrPtr) (fw_result : Nat) :
    HandleCache × List FwCall × CacheStep :=
  let closes := if c.last_ihandle ≠ 0 then [FwCall.fw_close c.last_ihandle] else []
  let calls := closes ++ [FwCall.fw_open (target.map (fun p => p.str)) fw_result]
  if fw_result = 0 then
    ({ last_devpath := none, last_ihandle := 0 }, calls,
     CacheStep.error GRUB_ERR_UNKNOWN_DEVICE)
  else
    ({ last_devpath := target, last_ihandle := fw_result }, calls, CacheStep.opened)

/-- Lines 997-1008 of `grub_ofdisk_prepare`; `data` is `disk->data`.  The
result is the cache afterwards, the firmware calls issued, in order, and how
the step ended. -/
def prepare_ensure (c : HandleCache) (data : Option StrPtr) (fw_result : Nat) :
    HandleCache × List FwCall × CacheStep :=
  if !same_pointer data c.last_devpath then reopen c data fw_result
  else (c, [], CacheStep.hit)

/-- Lines 868-886 of `grub_ofdisk_open_real`; `open_path` is `op->open_path`.
`CacheStep.hit` is the `goto finish`. -/
def open_real_ensure (c : HandleCache) (open_path : StrPtr) (fw_result : Nat) :
    HandleCache × List FwCall × CacheStep :=
  match c.last_devpath with
  | some last =>
    if open_path.str = last.str then (c, [], CacheStep.hit)
    else reopen c (some open_path) fw_result
  | none => reopen c (some open_path) fw_result

/-- The function `grub_ofdisk_prepare`: the cache step, then the seek to
`sector << disk->log_sector_size` (an `unsigned long long`); `seek_status` is
what the firmware stores in `status`. -/
def grub_ofdisk_prepare (c : HandleCache) (data : Option StrPtr)
    (log_sector_size sector : Nat) (fw_result : Nat) (seek_status : Int) :
    HandleCache × List FwCall × grub_err_t :=
  match prepare_ensure c data fw_result with
  | (c1, calls, CacheStep.error err) => (c1, calls, err)
  | (c1, calls, _) =>
    let pos := (sector <<< log_sector_size) % 2 ^ 64
    let calls1 := calls ++ [FwCall.fw_seek c1.last_ihandle pos seek_status]
    if seek_status < 0 then (c1, calls1, GRUB_ERR_READ_ERROR)
    else (c1, calls1, GRUB_ERR_NONE)

/-- The function `grub_ofdisk_read_real`; `actual` is what the firmware read stores.  The
transfer length is a `grub_size_t`, compared after conversion to
`grub_ssize_t`; `size_bits` is the width of those two types. -/
def grub_ofdisk_read_real (size_bits : Nat) (c : HandleCache) (data : Option StrPtr)
    (log_sector_size sector size : Nat) (fw_result : Nat) (seek_status actual : Int) :
    HandleCache × List FwCall × grub_err_t :=
  match grub_ofdisk_prepare c data log_sector_size sector fw_result seek_status with
  | (c1, calls, GRUB_ERR_NONE) =>
    let len := (size <<< log_sector_size) % 2 ^ size_bits
    let calls1 := calls ++ [FwCall.fw_read c1.last_ihandle len actual]
    if actual ≠ Int.bmod len (2 ^ size_bits) then (c1, calls1, GRUB_ERR_READ_ERROR)
    else (c1, calls1, GRUB_ERR_NONE)
  | (c1, calls, err) => (c1, calls, err)

/-- The function `grub_ofdisk_write`, shaped as `grub_ofdisk_read_real`. -/
def grub_ofdisk_write (size_bits : Nat) (c : HandleCache) (data : Option StrPtr)
    (log_sector_size sector size : Nat) (fw_result : Nat) (seek_status actual : Int) :
    HandleCache × List FwCall × grub_err_t :=
  match grub_ofdisk_prepare c data log_sector_size sector fw_result seek_status with
  | (c1, calls, GRUB_ERR_NONE) =>
    let len := (size <<< log_sector_size) % 2 ^ size_bits
    let calls1 := calls ++ [FwCall.fw_write c1.last_ihandle len actual]
    if actual ≠ Int.bmod len (2 ^ size_bits) then (c1, calls1, GRUB_ERR_WRITE_ERROR)
    else (c1, calls1, GRUB_ERR_NONE)
  | (c1, calls, err) => (c1, calls, err)

/-- The cache part of `grub_ofdisk_fini` (lines 1228-1231). -/
def grub_ofdisk_fini (c : HandleCache) : HandleCache × List FwCall :=
  ({ last_devpath := none, last_ihandle := 0 },
   if c.last_ihandle ≠ 0 then [FwCall.fw_close c.last_ihandle] else [])

/-- One operation of the disk driver on the cache, with the answers of the
firmware it meets.  `open_real none` is a `grub_ofdisk_open_real` that
returns before line 868 (bad name, failed allocation); `open_real (some p)`
one that reaches it with `op->open_path = p`.  The statements of
`grub_ofdisk_open_real` after line 886 neither open nor close a handle and
do not assign the two statics. -/
inductive CacheOp where
  | open_real (open_path : Option StrPtr) (fw_result : Nat)
  | read_real (data : Option StrPtr) (log_sector_size sector size : Nat)
      (fw_result : Nat) (seek_status actual : Int)
  | write (data : Option StrPtr) (log_sector_size sector size : Nat)
      (fw_result : Nat) (seek_status actual : Int)
  | close
  | fini
  deriving Repr

/-- The cache and the firmware calls issued so far, oldest first. -/
structure CacheState where
  cache : HandleCache
  calls : List FwCall
  deriving Repr

/-- The state at subsystem init. -/
def CacheState.init : CacheState := { cache := HandleCache.empty, calls := [] }

/-- One operation. -/
def cache_step (size_bits : Nat) (st : CacheState) : CacheOp → CacheState
  | CacheOp.open_real none _ => st
  | CacheOp.open_real (some p) fw_result =>
    let r := open_real_ensure st.cache p fw_result
    { cache := r.1, calls := st.calls ++ r.2.1 }
  | CacheOp.read_real data lss sector size fw_result seek_status actual =>
    let r := grub_ofdisk_read_real size_bits st.cache data lss sector size fw_result
      seek_status actual
    { cache := r.1, calls := st.calls ++ r.2.1 }
  | CacheOp.write data lss sector size fw_result seek_status actual =>
    let r := grub_ofdisk_write size_bits st.cache data lss sector size fw_result
      seek_status actual
    { cache := r.1, calls := st.calls ++ r.2.1 }
  | CacheOp.close => st
  | CacheOp.fini =>
    let r := grub_ofdisk_fini st.cache
    { cache := r.1, calls := st.calls ++ r.2 }

/-- A sequence of operations from a state. -/
def cache_run (size_bits : Nat) (st : CacheState) (ops : List CacheOp) : CacheState :=
  ops.foldl (cache_step size_bits) st

/-- The effect of one firmware call on the handles that are open: a
successful open adds its handle, a close removes it. -/
def track_handle (live : List Nat) : FwCall → List Nat
  | FwCall.fw_open _ h => if h = 0 then live else h :: live
  | FwCall.fw_close h => live.erase h
  | _ => live

/-- The handles opened and not yet closed after the calls `calls`. -/
def open_handles (calls : List FwCall) : List Nat :=
  calls.foldl track_handle []

/-! ## The retry timeout: `grub_ofdisk_disk_timeout` -/

/-- Modelled from the spec: `grub_strstr` (grub/misc.h) is not part of the
translated file.  It returns the suffix of `haystack` that starts at the
first occurrence of `needle`, or NULL when there is none ("contains a marker
substring"). -/
def grub_strstr : CStr → CStr → Option CStr
  | [], needle => if needle = [] then some [] else none
  | c :: rest, needle =>
    if needle.isPrefixOf (c :: rest) then some (c :: rest) else grub_strstr rest needle

/-- The macro `RETRY_DEFAULT_TIMEOUT`, defined as 15. -/
def RETRY_DEFAULT_TIMEOUT : Nat := 15

/-- What a call of `grub_strtoul` (grub/misc.h, not part of the translated
file) does: it returns the parsed value and leaves `grub_errno` alone, or it
reports an error through `grub_error`, which sets `grub_errno` to a code
other than `GRUB_ERR_NONE`. -/
inductive Strtoul where
  | value (n : Nat)
  | bad_number
  | out_of_range
  deriving DecidableEq, Repr

/-- The value of `grub_errno` after a call of `grub_strtoul`. -/
def Strtoul.errno (r : Strtoul) (grub_errno : grub_err_t) : grub_err_t :=
  match r with
  | Strtoul.value _ => grub_errno
  | Strtoul.bad_number => GRUB_ERR_BAD_NUMBER
  | Strtoul.out_of_range => GRUB_ERR_OUT_OF_RANGE

/-- The value returned by a call of `grub_strtoul`; after an error the caller
here does not look at it. -/
def Strtoul.ret (r : Strtoul) : Nat :=
  match r with
  | Strtoul.value n => n
  | _ => 0

/-- The function `grub_ofdisk_disk_timeout`.  `name` is `disk->name`, `env_timeout` the
result of `grub_env_get ("ofdisk_retry_timeout")`, `grub_errno` the error
flag on entry, `grub_strtoul` the parser, taken as a parameter.  The result
is the returned timeout and the error flag afterwards. -/
def grub_ofdisk_disk_timeout (grub_strtoul : CStr → Strtoul) (env_timeout : Option CStr)
    (grub_errno : grub_err_t) (name : CStr) : Nat × grub_err_t :=
  if !((grub_strstr name "fibre-channel@".toList).isSome ||
       (grub_strstr name "vfc-client".toList).isSome) ||
     (grub_strstr name "nvme-of".toList).isSome then
    (0, grub_errno)
  else
    match env_timeout with
    | some timeout =>
      let r := grub_strtoul timeout
      let retry := r.ret
      let errno1 := r.errno grub_errno
      if errno1 ≠ GRUB_ERR_NONE then (RETRY_DEFAULT_TIMEOUT, GRUB_ERR_NONE)
      else if retry ≠ 0 then (retry, errno1)
      else (RETRY_DEFAULT_TIMEOUT, errno1)
    | none => (RETRY_DEFAULT_TIMEOUT, grub_errno)

/-- The classification of the specification: the name contains a
fibre-channel or virtual-FC-client marker and no NVMe-oF marker. -/
def retryable (name : CStr) : Prop :=
  ("fibre-channel@".toList <:+: name ∨ "vfc-client".toList <:+: name) ∧
    ¬ "nvme-of".toList <:+: name

/-- The handles that are open are exactly the one the cache holds. -/
def cache_inv (st : CacheState) : Prop :=
  open_handles st.calls =
    if st.cache.last_ihandle = 0 then [] else [st.cache.last_ihandle]

instance retryable_decidable (name : CStr) : Decidable (retryable name) := by
  unfold retryable; infer_instance

/-! ## The retry wrappers: `grub_ofdisk_open` and `grub_ofdisk_read` -/

/-- What one call of the wrapped operation does: the error it returns, the
value of `grub_errno` it leaves, and the milliseconds it takes. -/
structure Attempt where
  err : grub_err_t
  errno : grub_err_t
  ms : Nat
  deriving DecidableEq, Repr

/-- What a retry wrapper did: the error it returned, `grub_errno` at that
point, the number of calls of the wrapped operation, the number of
`grub_millisleep (1000)` calls, and the clock when it returned. -/
structure RetryResult where
  err : grub_err_t
  grub_errno : grub_err_t
  attempts : Nat
  sleeps : Nat
  now : Nat
  deriving DecidableEq, Repr

/-- The deadline both wrappers compute,
`grub_get_time_ms () + (grub_ofdisk_disk_timeout (disk) * 1000)`, in
`grub_uint64_t` arithmetic. -/
def retry_deadline (now seconds : Nat) : Nat :=
  (now + (seconds * 1000) % 2 ^ 64) % 2 ^ 64

/-- The `do ... while (cont)` loop of `grub_ofdisk_open` and
`grub_ofdisk_read`.  `op k errno` is the `k`-th call of the wrapped
operation (counted from 0), entered with `grub_errno = errno`; `timeout` is
the deadline; `now` is the monotonic millisecond clock, which the operation
advances by the time it takes and `grub_millisleep (1000)` by exactly 1000.
The first argument bounds the number of iterations; `none` means it was too
small. -/
def retry_loop (op : Nat → grub_err_t → Attempt) (timeout : Nat) :
    Nat → Nat → Nat → grub_err_t → Option RetryResult
  | 0, _, _, _ => none
  | fuel + 1, k, now, errno =>
    let a := op k errno
    let now1 := now + a.ms
    let cont := decide (now1 < timeout)
    if a.err = GRUB_ERR_UNKNOWN_DEVICE ∧ cont = true then
      retry_loop op timeout fuel (k + 1) (now1 + 1000) GRUB_ERR_NONE
    else
      some { err := a.err, grub_errno := a.errno, attempts := k + 1, sleeps := k,
             now := now1 }

/-- The function `grub_ofdisk_open`: `open_real k errno` is the `k`-th call of
`grub_ofdisk_open_real (name, disk)`; `name` is `disk->name`. -/
def grub_ofdisk_open (grub_strtoul : CStr → Strtoul) (env_timeout : Option CStr)
    (name : CStr) (open_real : Nat → grub_err_t → Attempt) (fuel now : Nat)
    (grub_errno : grub_err_t) : Option RetryResult :=
  let t := grub_ofdisk_disk_timeout grub_strtoul env_timeout grub_errno name
  retry_loop open_real (retry_deadline now t.1) fuel 0 now t.2

/-- The function `grub_ofdisk_read`: `read_real k errno` is the `k`-th call of
`grub_ofdisk_read_real (disk, sector, size, buf)`; `name` is `disk->name`. -/
def grub_ofdisk_read (grub_strtoul : CStr → Strtoul) (env_timeout : Option CStr)
    (name : CStr) (read_real : Nat → grub_err_t → Attempt) (fuel now : Nat)
    (grub_errno : grub_err_t) : Option RetryResult :=
  let t := grub_ofdisk_disk_timeout grub_strtoul env_timeout grub_errno name
  retry_loop read_real (retry_deadline now t.1) fuel 0 now t.2

/-! ## The block-size probe: `grub_ofdisk_get_block_size` -/

/-- The answer of the firmware to the `block-size` call-method: whether
`IEEE1275_CALL_ENTRY_FN` returned -1, and the cells `result` (the catch
result) and `size1` it filled in. -/
structure BlockSizeReply where
  call_failed : Bool
  result : Nat
  size1 : Nat
  deriving DecidableEq, Repr

/-- What a probe did: the error returned, the value stored in `*block_size`,
the entry afterwards, and whether the firmware was called. -/
structure ProbeResult where
  err : grub_err_t
  block_size : Nat
  ent : ofdisk_hash_ent
  fw_called : Bool
  deriving DecidableEq, Repr

/-- The test of line 1320-1322 on the reported size. -/
def block_size_acceptable (size1 : Nat) : Bool :=
  size1 != 0 && (size1 &&& (size1 - 1)) == 0 && decide (size1 ≥ 512) &&
    decide (size1 ≤ 16384)

/-- The function `grub_ofdisk_get_block_size`; `op` is the entry and `reply`
what the firmware answers if it is called. -/
def grub_ofdisk_get_block_size (op : ofdisk_hash_ent) (reply : BlockSizeReply) :
    ProbeResult :=
  if op.block_size_fails ≥ 2 then
    { err := GRUB_ERR_NONE, block_size := 0, ent := op, fw_called := false }
  else if reply.call_failed then
    { err := GRUB_ERR_NONE, block_size := 0,
      ent := { op with block_size_fails := op.block_size_fails + 1 }, fw_called := true }
  else if reply.result ≠ 0 then
    { err := GRUB_ERR_NONE, block_size := 0,
      ent := { op with block_size_fails := op.block_size_fails + 1 }, fw_called := true }
  else if block_size_acceptable reply.size1 then
    { err := GRUB_ERR_NONE, block_size := reply.size1,
      ent := { op with block_size_fails := 0 }, fw_called := true }
  else
    { err := GRUB_ERR_NONE, block_size := 0, ent := op, fw_called := true }

/-- The sizes the specification accepts: a power of two within
[512, 16384]. -/
def valid_block_size (s : Nat) : Prop :=
  (∃ k, s = 2 ^ k) ∧ 512 ≤ s ∧ s ≤ 16384

/-- Modelled from the spec: `grub_log2ull` (grub/misc.h) is not part of the
translated file.  It is the position of the highest set bit, so that a
512-byte sector has "log2 = 9". -/
def grub_log2ull (n : Nat) : Nat := Nat.log2 n

/-- Lines 919-929 of `grub_ofdisk_open_real`: the probe, then
`disk->log_sector_size`.  The result is the error returned at line 923, if
any, or else the sector size chosen, with the probe's result. -/
def open_real_sector_size (op : ofdisk_hash_ent) (reply : BlockSizeReply) :
    Except grub_err_t Nat × ProbeResult :=
  let r := grub_ofdisk_get_block_size op reply
  if r.err ≠ GRUB_ERR_NONE then (Except.error r.err, r)
  else if r.block_size ≠ 0 then (Except.ok (grub_log2ull r.block_size), r)
  else (Except.ok 9, r)

/-- Three probes in a row on one entry; the results of each. -/
def probe_thrice (op : ofdisk_hash_ent) (r1 r2 r3 : BlockSizeReply) :
    ProbeResult × ProbeResult × ProbeResult :=
  let p1 := grub_ofdisk_get_block_size op r1
  let p2 := grub_ofdisk_get_block_size p1.ent r2
  let p3 := grub_ofdisk_get_block_size p2.ent r3
  (p1, p2, p3)

/-! ## Disk iteration: `grub_ofdisk_iterate` -/

/-- Modelled from the spec: the value `GRUB_DISK_PULL_NONE` of
`grub_disk_pull_t` (grub/disk.h, not part of the translated file), the first
enumerator, the "none" pull. -/
def GRUB_DISK_PULL_NONE : Nat := 0

/-- Modelled from the spec: the value `GRUB_DISK_PULL_REMOVABLE` of
`grub_disk_pull_t` (grub/disk.h, not part of the translated file), the second
enumerator, the "removable" pull; the classes above it are not served. -/
def GRUB_DISK_PULL_REMOVABLE : Nat := 1

/-- One call of the visitor `hook`: the entry at hand, the name passed, and
whether the visitor returned non-zero. -/
structure HookCall where
  ent : ofdisk_hash_ent
  name : Option CStr
  stop : Bool
  deriving DecidableEq, Repr

/-- The SD-card filter of lines 769-793: with the flag
`GRUB_IEEE1275_FLAG_OFDISK_SDCARD_ONLY` set, an entry passes only if its
device is found and has the property `iconname` equal to `sdmmc`.
`iconname devpath` is what the two firmware queries give, `none` when either
fails. -/
def sdcard_filter_skips (sdcard_only : Bool) (iconname : CStr → Option CStr)
    (ent : ofdisk_hash_ent) : Bool :=
  sdcard_only &&
    (match iconname ent.devpath with
     | none => true
     | some tmp => tmp != "sdmmc".toList)

/-- The two nested loops of `grub_ofdisk_iterate` (lines 762-807) over the
entries in table order.  `hook st name` is the visitor with its `hook_data`
in state `st`; it gives the new state and whether it returned non-zero.  The
result is the value returned (1 from inside the loop, 0 after it), the state
of the visitor, and the calls made to it, in order. -/
def iterate_entries {σ : Type} (sdcard_only : Bool) (iconname : CStr → Option CStr)
    (pull : Nat) (hook : σ → Option CStr → σ × Bool) :
    List ofdisk_hash_ent → σ → Nat × σ × List HookCall
  | [], st => (0, st, [])
  | ent :: rest, st =>
    if ent.shortest.isNone then
      iterate_entries sdcard_only iconname pull hook rest st
    else if sdcard_filter_skips sdcard_only iconname ent then
      iterate_entries sdcard_only iconname pull hook rest st
    else if !ent.is_boot && ent.is_removable then
      iterate_entries sdcard_only iconname pull hook rest st
    else if pull == GRUB_DISK_PULL_NONE && !ent.is_boot then
      iterate_entries sdcard_only iconname pull hook rest st
    else if pull == GRUB_DISK_PULL_REMOVABLE && ent.is_boot then
      iterate_entries sdcard_only iconname pull hook rest st
    else
      let r := hook st ent.grub_shortest
      if r.2 then
        (1, r.1, [{ ent := ent, name := ent.grub_shortest, stop := true }])
      else
        let t := iterate_entries sdcard_only iconname pull hook rest r.1
        (t.1, t.2.1, { ent := ent, name := ent.grub_shortest, stop := false } :: t.2.2)

/-- What `grub_ofdisk_iterate` did: the value returned, the registry
afterwards, whether `scan ()` ran, the state of the visitor, and the calls
made to it. -/
structure IterateResult (σ : Type) where
  ret : Nat
  registry : Registry
  scanned : Bool
  hook_state : σ
  calls : List HookCall

/-- The function `grub_ofdisk_iterate`.  `scan` is the effect of `scan ()`
on the registry, taken as a parameter; the visitor does not touch the
registry. -/
def grub_ofdisk_iterate {σ : Type} (scan : Registry → Registry) (sdcard_only : Bool)
    (iconname : CStr → Option CStr) (hook : σ → Option CStr → σ × Bool) (st : σ)
    (pull : Nat) (s : Registry) : IterateResult σ :=
  if pull > GRUB_DISK_PULL_REMOVABLE then
    { ret := 0, registry := s, scanned := false, hook_state := st, calls := [] }
  else
    let s1 := if pull = GRUB_DISK_PULL_REMOVABLE then scan s else s
    let r := iterate_entries sdcard_only iconname pull hook (all_entries s1) st
    { ret := r.1, registry := s1, scanned := decide (pull = GRUB_DISK_PULL_REMOVABLE),
      hook_state := r.2.1, calls := r.2.2 }

/-! ## The callers of `ofdisk_hash_add` -/

/-- The function `dev_iterate_real`.  `dup_name_ok` and `dup_path_ok` are the
outcomes of the two `grub_strdup` calls, `mem` and `mem_can` the allocation
outcomes inside `ofdisk_hash_add`.  The result is `none` when
`ofdisk_hash_add` dereferences NULL. -/
def dev_iterate_real (no_partition_0 : Bool) (dup_name_ok dup_path_ok : Bool)
    (mem mem_can : Allocs) (s : Registry) (name path : CStr) : Option Registry :=
  match ofdisk_hash_find s path with
  | some _ => some s
  | none =>
    if !dup_name_ok || !dup_path_ok then
      some { s with grub_errno := GRUB_ERR_NONE }
    else
      (ofdisk_hash_add no_partition_0 mem mem_can s name (some path)).map (fun r => r.1)

/-- Lines 1211-1213 of `insert_bootpath`: the boot device, `device` being
the result of `grub_ieee1275_get_devname (bootpath)`, is added without hint
and marked `is_boot`. -/
def insert_bootpath_entry (no_partition_0 : Bool) (mem : Allocs) (s : Registry)
    (device : CStr) : Option Registry :=
  match ofdisk_hash_add no_partition_0 mem Allocs.ok s device none with
  | some (s1, some op) => some (store s1 op (fun e => { e with is_boot := true }))
  | _ => none

/-- Lines 859-866 of `grub_ofdisk_open_real`: the entry for `devpath` is
looked up and, when there is none, added without hint. -/
def open_real_lookup (no_partition_0 : Bool) (mem : Allocs) (s : Registry)
    (devpath : CStr) : Option (Registry × Option EntPtr) :=
  match ofdisk_hash_find s devpath with
  | some op => some (s, some op)
  | none => ofdisk_hash_add no_partition_0 mem Allocs.ok s devpath none

/-- The segment of a path after its last slash, all of it when it has none,
as the specification words it. -/
def last_segment (str : CStr) : CStr :=
  (str.reverse.takeWhile (fun c => c != '/')).reverse

/-- The registry after the boot device `device` is inserted at start-up and
the scanner then registers the alias `name` of `path`, every allocation
succeeding. -/
def boot_then_alias (no_partition_0 : Bool) (device name path : CStr) : Option Registry :=
  (insert_bootpath_entry no_partition_0 Allocs.ok Registry.empty device).bind
    (fun s => dev_iterate_real no_partition_0 true true Allocs.ok Allocs.ok s name path)

/-! ## The boot scope, probe sequences and scans -/

/-- The function `get_parent_devname`.  `strdup_ok` is whether
`grub_strdup (devname)` succeeds.  The result is the string returned, `none`
for `NULL`, and the value stored through `is_nvmeof` (when the caller passed
a pointer).  `*pptr = '\0'` cuts the copy where the match starts. -/
def get_parent_devname (strdup_ok : Bool) (devname : CStr) : Option CStr × Nat :=
  if !strdup_ok then (none, 0)
  else
    match grub_strstr devname "/disk@".toList with
    | some pptr => (some (devname.take (devname.length - pptr.length)), 0)
    | none =>
      match grub_strstr devname "/nvme-of/controller@".toList with
      | some pptr => (some (devname.take (devname.length - pptr.length)), 1)
      | none => (some devname, 0)

/-- The part of `p` before the first occurrence of `needle`, as the
specification words it: `pre` is followed by `needle` in `p`, and no
occurrence of `needle` starts earlier. -/
def before_first (needle p pre : CStr) : Prop :=
  (∃ post, p = pre ++ needle ++ post) ∧
    ∀ pre1 post1, p = pre1 ++ needle ++ post1 → pre.length ≤ pre1.length

/-- A sequence of block-size probes on one entry, one firmware answer per
probe: the results, in order, and the entry afterwards. -/
def probe_run : ofdisk_hash_ent → List BlockSizeReply → List ProbeResult × ofdisk_hash_ent
  | op, [] => ([], op)
  | op, reply :: rest =>
    let r := grub_ofdisk_get_block_size op reply
    let t := probe_run r.ent rest
    (r :: t.1, t.2)

/-- A scan seen from the registry: the calls `dev_iterate_real (name, path)`
it makes, in order, every allocation succeeding. -/
def scan_registrations (no_partition_0 : Bool) :
    Registry → List (CStr × CStr) → Option Registry
  | s, [] => some s
  | s, (name, path) :: rest =>
    (dev_iterate_real no_partition_0 true true Allocs.ok Allocs.ok s name path).bind
      (fun s1 => scan_registrations no_partition_0 s1 rest)

/-! ## The scanner: `dev_iterate` and its enumerators -/

/-- Modelled from the spec: the conversions `%llx` and `%x` of
`grub_snprintf` (grub/misc.h, not part of the translated file) write the
value in "lowercase hex", without prefix or padding. -/
def format_hex (v : Nat) : CStr := Nat.toDigits 16 v

/-- Modelled from the spec: `grub_snprintf (str, n, fmt, ...)` (grub/misc.h,
not part of the translated file); `text` is the formatted text.  At most
`n - 1` characters and the terminator are written; the model gives the
characters written ("short enough not to be truncated" is
`text.length < n`).  The value returned is the length of what was written. -/
def grub_snprintf (n : Nat) (text : CStr) : CStr := text.take (n - 1)

/-- What an enumerator does that is visible outside it, in order: a call of
`grub_ieee1275_open` or `grub_ieee1275_close`, a `call-method` request, or a
call `dev_iterate_real (name, path)`. -/
inductive ScanEvent where
  | fw (call : FwCall)
  | call_method (method : CStr) (ihandle : Nat)
  | register (name path : CStr)
  deriving DecidableEq, Repr

/-- One row of the table `nvme-controllers` returns,
`struct nvme_controllers_table_entry_`: the controller id, the transport
address and the subsystem NQN. -/
structure nvme_controllers_table_entry where
  id : Nat
  wwpn : CStr
  nqn : CStr
  deriving DecidableEq, Repr

/-- The answers of the firmware to the scanner.  `ihandle_of path` is the
ihandle `grub_ieee1275_open (path, &ihandle)` stores, 0 when the open fails.
The other fields are the tables the `call-method` requests return on the
node opened at the given path, `none` when the request fails: the rows of
`vscsi-report-luns` (each a zero-terminated run of ids), the ids of
`get-sas-children`, the rows of `fcp-targets`, the rows of `fcp-luns` for a
WWPN, the ids of `nvme-discovery-controllers`, the rows of
`nvme-controllers`, and the ids of `get-namespace-list`. -/
structure ScanFirmware where
  ihandle_of : CStr → Nat
  vscsi_report_luns : CStr → Option (List (List Nat))
  get_sas_children : CStr → Option (List Nat)
  fcp_targets : CStr → Option (List (List Nat))
  fcp_luns : CStr → Nat → Option (List (List Nat))
  nvme_discovery_controllers : CStr → Option (List Nat)
  nvme_controllers : CStr → Option (List nvme_controllers_table_entry)
  get_namespace_list : CStr → Option (List Nat)

/-- The firmware calls among the events of an enumerator. -/
def scan_fw_calls (events : List ScanEvent) : List FwCall :=
  events.filterMap (fun e => match e with
    | ScanEvent.fw call => some call
    | _ => none)

/-- The calls `dev_iterate_real (name, path)` among the events of an
enumerator. -/
def scan_registered (events : List ScanEvent) : List (CStr × CStr) :=
  events.filterMap (fun e => match e with
    | ScanEvent.register name path => some (name, path)
    | _ => none)

/-- The `vscsi` branch of `dev_iterate` (lines 574-634); `buf_ok` is the
outcome of `grub_malloc` for `buf`.  The branch always returns from
`dev_iterate`.  A failed request is `IEEE1275_CALL_ENTRY_FN` returning -1 or
a non-zero `catch_result`. -/
def dev_iterate_vscsi (fw : ScanFirmware) (buf_ok : Bool) (path : CStr) : List ScanEvent :=
  let ihandle := fw.ihandle_of path
  if ihandle = 0 then [ScanEvent.fw (FwCall.fw_open (some path) 0)]
  else
    match fw.vscsi_report_luns path with
    | none =>
      [ScanEvent.fw (FwCall.fw_open (some path) ihandle),
       ScanEvent.call_method "vscsi-report-luns".toList ihandle,
       ScanEvent.fw (FwCall.fw_close ihandle)]
    | some table =>
      if !buf_ok then
        [ScanEvent.fw (FwCall.fw_open (some path) ihandle),
         ScanEvent.call_method "vscsi-report-luns".toList ihandle]
      else
        [ScanEvent.fw (FwCall.fw_open (some path) ihandle),
         ScanEvent.call_method "vscsi-report-luns".toList ihandle] ++
        table.flatMap (fun row =>
          (row.takeWhile (fun id => id % 2 ^ 64 != 0)).map (fun id =>
            let buf := path ++ grub_snprintf 32 ("/disk@".toList ++ format_hex (id % 2 ^ 64))
            ScanEvent.register buf buf)) ++
        [ScanEvent.fw (FwCall.fw_close ihandle)]

/-- The `sas_ioa` branch of `dev_iterate` (lines 635-717); `buf_ok` and
`table_ok` are the outcomes of `grub_malloc` for `buf` and `grub_calloc` for
`table`.  The second component tells whether the branch ran to its end, in
which case `dev_iterate` goes on after it, or returned from `dev_iterate`.
`sizeof ("/disk@7766554433221100")` is 23. -/
def dev_iterate_sas_ioa (fw : ScanFirmware) (buf_ok table_ok : Bool) (path : CStr) :
    List ScanEvent × Bool :=
  if !buf_ok then ([], false)
  else if !table_ok then ([], false)
  else
    let ihandle := fw.ihandle_of path
    if ihandle = 0 then ([ScanEvent.fw (FwCall.fw_open (some path) 0)], false)
    else
      match fw.get_sas_children path with
      | none =>
        ([ScanEvent.fw (FwCall.fw_open (some path) ihandle),
          ScanEvent.call_method "get-sas-children".toList ihandle,
          ScanEvent.fw (FwCall.fw_close ihandle)], false)
      | some table =>
        ([ScanEvent.fw (FwCall.fw_open (some path) ihandle),
          ScanEvent.call_method "get-sas-children".toList ihandle] ++
         table.map (fun id =>
           let buf := path ++ grub_snprintf 23 ("/disk@".toList ++ format_hex (id % 2 ^ 64))
           ScanEvent.register buf buf) ++
         [ScanEvent.fw (FwCall.fw_close ihandle)], true)

/-- The loops of `dev_iterate_fcp_disks` over the WWPNs (lines 303-337), the
rows of `fcp-targets` laid end to end.  The second component tells whether
the loops ran to their end; they stop, after closing the handle, at the
first `fcp-luns` request that fails. -/
def fcp_disks_targets (fw : ScanFirmware) (path : CStr) (ihandle : Nat) :
    List Nat → List ScanEvent × Bool
  | [] => ([], true)
  | wwpn :: rest =>
    let target := grub_snprintf 32 ("/disk@".toList ++ format_hex (wwpn % 2 ^ 64))
    match fw.fcp_luns path (wwpn % 2 ^ 64) with
    | none =>
      ([ScanEvent.call_method "fcp-luns".toList ihandle,
        ScanEvent.fw (FwCall.fw_close ihandle)], false)
    | some luns_table =>
      let r := fcp_disks_targets fw path ihandle rest
      (ScanEvent.call_method "fcp-luns".toList ihandle ::
        luns_table.flatten.map (fun lun =>
          let buf := path ++ target ++
            grub_snprintf 30 (",".toList ++ format_hex (lun % 2 ^ 64))
          ScanEvent.register buf buf) ++ r.1, r.2)

/-- The function `dev_iterate_fcp_disks`; `buf_ok` is the outcome of
`grub_malloc` for `buf`. -/
def dev_iterate_fcp_disks (fw : ScanFirmware) (buf_ok : Bool) (path : CStr) :
    List ScanEvent :=
  let ihandle := fw.ihandle_of path
  if ihandle = 0 then [ScanEvent.fw (FwCall.fw_open (some path) 0)]
  else
    match fw.fcp_targets path with
    | none =>
      [ScanEvent.fw (FwCall.fw_open (some path) ihandle),
       ScanEvent.call_method "fcp-targets".toList ihandle,
       ScanEvent.fw (FwCall.fw_close ihandle)]
    | some targets_table =>
      if !buf_ok then
        [ScanEvent.fw (FwCall.fw_open (some path) ihandle),
         ScanEvent.call_method "fcp-targets".toList ihandle,
         ScanEvent.fw (FwCall.fw_close ihandle)]
      else
        let r := fcp_disks_targets fw path ihandle targets_table.flatten
        [ScanEvent.fw (FwCall.fw_open (some path) ihandle),
         ScanEvent.call_method "fcp-targets".toList ihandle] ++ r.1 ++
        (if r.2 then [ScanEvent.fw (FwCall.fw_close ihandle)] else [])

/-- The text `dev_iterate_fcp_nvmeof` writes after `alias->path` for the
discovery controller `id` (line 454). -/
def nvmeof_discovery_suffix (id : Nat) : CStr :=
  grub_snprintf 64 ("/nvme-of/controller@".toList ++ format_hex (id % 2 ^ 64) ++ ",ffff".toList)

/-- The text `dev_iterate_fcp_nvmeof` writes after `alias->path` for a
controller (line 502); its length is `bufptr_pos2`. -/
def nvmeof_controller_suffix (wwpn nqn : CStr) : CStr :=
  grub_snprintf 512 ("/nvme-of/controller@".toList ++ wwpn ++ ",ffff:nqn=".toList ++ nqn)

/-- The text written at `bufptr + bufptr_pos2` for the namespace `id`
(line 531). -/
def nvmeof_namespace_suffix (id : Nat) : CStr :=
  grub_snprintf 512 ("/namespace@".toList ++ format_hex (id % 2 ^ 32))

/-- Lines 530-536 of `dev_iterate_fcp_nvmeof`: the loop over the namespaces,
then the call `dev_iterate_real (buf, buf)` after it.  `base` is the content
of `buf` up to `bufptr + bufptr_pos2`, which the loop keeps; the second
argument is the content of `buf` when the line is reached.  The capacity of
`buf` (512 bytes after the node path) is not tracked: the namespace text is
taken to fit, which it does when the controller text has at most 492
characters. -/
def nvmeof_namespaces (base : CStr) : CStr → List Nat → List ScanEvent
  | buf, [] => [ScanEvent.register buf buf]
  | _, id :: rest =>
    let buf := base ++ nvmeof_namespace_suffix id
    ScanEvent.register buf buf :: nvmeof_namespaces base buf rest

/-- The loop of `dev_iterate_fcp_nvmeof` over the controllers (lines
497-537).  The namespace table is read after the handle is closed. -/
def nvmeof_controllers (fw : ScanFirmware) (path : CStr) :
    List nvme_controllers_table_entry → List ScanEvent
  | [] => []
  | c :: rest =>
    let buf := path ++ nvmeof_controller_suffix c.wwpn c.nqn
    let ihandle := fw.ihandle_of buf
    (if ihandle = 0 then [ScanEvent.fw (FwCall.fw_open (some buf) 0)]
     else
      match fw.get_namespace_list buf with
      | none =>
        [ScanEvent.fw (FwCall.fw_open (some buf) ihandle),
         ScanEvent.call_method "get-namespace-list".toList ihandle,
         ScanEvent.fw (FwCall.fw_close ihandle)]
      | some namespaces =>
        [ScanEvent.fw (FwCall.fw_open (some buf) ihandle),
         ScanEvent.call_method "get-namespace-list".toList ihandle,
         ScanEvent.fw (FwCall.fw_close ihandle)] ++ nvmeof_namespaces buf buf namespaces) ++
    nvmeof_controllers fw path rest

/-- The loop of `dev_iterate_fcp_nvmeof` over the discovery controllers
(lines 451-538).  `table_ok` is the outcome of `grub_malloc` for
`nvme_controllers_table`, which is not tested: copying a row into it when it
is NULL is a NULL dereference, `none`. -/
def nvmeof_discovery (fw : ScanFirmware) (table_ok : Bool) (path : CStr) :
    List Nat → Option (List ScanEvent)
  | [] => some []
  | id :: rest =>
    let buf := path ++ nvmeof_discovery_suffix id
    let ihandle := fw.ihandle_of buf
    let here : Option (List ScanEvent) :=
      if ihandle = 0 then some [ScanEvent.fw (FwCall.fw_open (some buf) 0)]
      else
        match fw.nvme_controllers buf with
        | none =>
          some [ScanEvent.fw (FwCall.fw_open (some buf) ihandle),
                ScanEvent.call_method "nvme-controllers".toList ihandle,
                ScanEvent.fw (FwCall.fw_close ihandle)]
        | some entries =>
          if !table_ok && !entries.isEmpty then none
          else
            some ([ScanEvent.fw (FwCall.fw_open (some buf) ihandle),
                   ScanEvent.call_method "nvme-controllers".toList ihandle,
                   ScanEvent.fw (FwCall.fw_close ihandle)] ++
                  nvmeof_controllers fw path entries)
    here.bind (fun events =>
      (nvmeof_discovery fw table_ok path rest).map (fun more => events ++ more))

/-- The function `dev_iterate_fcp_nvmeof`.  `table_ok` and `buf_ok` are the
outcomes of the two `grub_malloc`; `stack_ihandle` is the value the
uninitialised local `ihandle` holds, which line 402 passes to
`grub_ieee1275_close` when `buf` is NULL.  The result is `none` when a NULL
pointer is dereferenced.  The tables of the firmware are taken to have at
most 256 rows, the size of the two copies. -/
def dev_iterate_fcp_nvmeof (fw : ScanFirmware) (table_ok buf_ok : Bool) (stack_ihandle : Nat)
    (path : CStr) : Option (List ScanEvent) :=
  if !buf_ok then some [ScanEvent.fw (FwCall.fw_close stack_ihandle)]
  else
    let buf := path ++ grub_snprintf 32 "/nvme-of".toList
    let ihandle := fw.ihandle_of buf
    if ihandle = 0 then some [ScanEvent.fw (FwCall.fw_open (some buf) 0)]
    else
      match fw.nvme_discovery_controllers buf with
      | none =>
        some [ScanEvent.fw (FwCall.fw_open (some buf) ihandle),
              ScanEvent.call_method "nvme-discovery-controllers".toList ihandle,
              ScanEvent.fw (FwCall.fw_close ihandle)]
      | some table =>
        (nvmeof_discovery fw table_ok path table).map (fun events =>
          [ScanEvent.fw (FwCall.fw_open (some buf) ihandle),
           ScanEvent.call_method "nvme-discovery-controllers".toList ihandle,
           ScanEvent.fw (FwCall.fw_close ihandle)] ++ events)

/-- The body of `dev_iterate` for one node of type `type` at `path`, the
enumerators being given: what it does, and whether it reaches
`iter_children`, where `dev_iterate` is called on every child of the node.
`boot_parent` and `is_boot_nvmeof` are the statics of that name (the latter
compared with 0); `no_tree_scanning` is
`grub_ieee1275_test_flag (GRUB_IEEE1275_FLAG_NO_TREE_SCANNING_FOR_DISKS)`;
`boot_type` only selects a debug message.  After the `fcp` branch, and after
the `sas_ioa` branch when it runs to its end, control passes the test of
line 719, which fails for these types, and reaches `iter_children`.  The
result is `none` when an enumerator dereferences a NULL pointer. -/
def dev_iterate_node (boot_parent : Option CStr) (is_boot_nvmeof no_tree_scanning : Bool)
    (fcp_nvmeof : CStr → Option (List ScanEvent)) (fcp_disks vscsi : CStr → List ScanEvent)
    (sas_ioa : CStr → List ScanEvent × Bool) (type path : CStr) :
    Option (List ScanEvent × Bool) :=
  if type = "fcp".toList then
    match boot_parent with
    | some parent =>
      if parent ≠ path then some ([], true)
      else if is_boot_nvmeof then (fcp_nvmeof path).map (fun events => (events, true))
      else some (fcp_disks path, true)
    | none => (fcp_nvmeof path).map (fun events => (events ++ fcp_disks path, true))
  else if type = "vscsi".toList then some (vscsi path, false)
  else if type = "sas_ioa".toList then some (sas_ioa path)
  else if !no_tree_scanning && type = "block".toList then
    some ([ScanEvent.register path path], false)
  else some ([], true)

/-- A sample firmware: every open succeeds with handle 7; the node
`/fc/nvme-of` lists the discovery controller 0x10, which lists one
controller with address `abcd` and NQN `nqn.test`, whose namespaces are
`namespaces`; no other request is answered. -/
def nvme_test_firmware (namespaces : List Nat) : ScanFirmware :=
  { ihandle_of := fun _ => 7
    vscsi_report_luns := fun _ => none
    get_sas_children := fun _ => none
    fcp_targets := fun _ => none
    fcp_luns := fun _ _ => none
    nvme_discovery_controllers := fun p =>
      if p = "/fc/nvme-of".toList then some [16] else none
    nvme_controllers := fun p =>
      if p = "/fc/nvme-of/controller@10,ffff".toList then
        some [{ id := 1, wwpn := "abcd".toList, nqn := "nqn.test".toList }]
      else none
    get_namespace_list := fun p =>
      if p = "/fc/nvme-of/controller@abcd,ffff:nqn=nqn.test".toList then some namespaces
      else none }

/-- The handles open after the events `events` of an enumerator, `live`
being those open before. -/
def run_handles (live : List Nat) (events : List ScanEvent) : List Nat :=
  (scan_fw_calls events).foldl track_handle live

/-- A sample firmware: the node `/vdevice/v-scsi@1` opens with handle 7
and `vscsi-report-luns` returns one row with the ids 0x8100000000000000 and
0x8200000000000000; no other request is answered. -/
def vscsi_test_firmware : ScanFirmware :=
  { ihandle_of := fun _ => 7
    vscsi_report_luns := fun p =>
      if p = "/vdevice/v-scsi@1".toList then some [[0x8100000000000000, 0x8200000000000000, 0]]
      else none
    get_sas_children := fun _ => none
    fcp_targets := fun _ => none
    fcp_luns := fun _ _ => none
    nvme_discovery_controllers := fun _ => none
    nvme_controllers := fun _ => none
    get_namespace_list := fun _ => none }

/-- The registry and the handle cache together, with the entries whose
`devpath` block has been freed.  `grub_ofdisk_open_real` hands the block
`compute_dev_path` allocated to `ofdisk_hash_add`, which stores the pointer
in the new entry (line 107), and then passes it to `grub_free` (lines
890-931): the entry keeps a pointer into freed memory.  `freed` lists these
entries; what their `devpath` reads as is whatever the allocator has put
there since. -/
structure OfdiskState where
  registry : Registry
  cache : HandleCache
  freed : List EntPtr

/-- What the firmware answers during one `grub_ofdisk_open_real`: the ihandle
`grub_ieee1275_open` stores (0 when the open fails), whether
`grub_ieee1275_finddevice` succeeds, the value of the property `device_type`
(`none` when `grub_ieee1275_get_property` fails), and the answer to the
`block-size` request. -/
structure OpenFirmware where
  fw_result : Nat
  finddevice_ok : Bool
  device_type : Option CStr
  reply : BlockSizeReply
  deriving DecidableEq, Repr

/-- Modelled from the spec: the macro `GRUB_DISK_SIZE_UNKNOWN` (grub/disk.h,
not part of the translated file), the all-ones 64-bit value that stands for
a sector count that is not known. -/
def GRUB_DISK_SIZE_UNKNOWN : Nat := 2 ^ 64 - 1

/-- The fields of `struct grub_disk` that `grub_ofdisk_open_real` writes. -/
structure grub_disk where
  total_sectors : Nat
  id : Option EntPtr
  data : Option StrPtr
  log_sector_size : Nat
  deriving DecidableEq, Repr

/-- What `grub_ofdisk_open_real` did: the state afterwards, the firmware
calls on handles, the error returned, the fields of `*disk` afterwards, and
whether the `block-size` request was made. -/
structure OpenResult where
  state : OfdiskState
  calls : List FwCall
  err : grub_err_t
  disk : grub_disk
  probed : Bool

/-- The pointer `op->open_path`: the string of the entry `op` points at, at
an address of its own. -/
def open_path_ptr (op : EntPtr) (e : ofdisk_hash_ent) : StrPtr :=
  { addr := Nat.pair op.bucket op.depth, str := e.open_path }

/-- An entry whose `devpath` block was freed, read when the block holds
`content`: `devpath` reads as `content`; so does `open_path` when the flag
`GRUB_IEEE1275_FLAG_NO_PARTITION_0` is set, because line 133 made it the
same pointer; so does `shortest` when it is the pointer line 172 stored (it
held the entry's own `devpath`). -/
def reread_entry (no_partition_0 : Bool) (content : CStr) (e : ofdisk_hash_ent) :
    ofdisk_hash_ent :=
  { e with devpath := content
           open_path := if no_partition_0 then content else e.open_path
           shortest := if e.shortest = some e.devpath then some content else e.shortest }

/-- The table as it reads when the freed `devpath` block of each entry `q` of
`freed` holds `heap q`. -/
def reread_freed (no_partition_0 : Bool) (heap : EntPtr → CStr) (freed : List EntPtr)
    (s : Registry) : Registry :=
  freed.foldl (fun s1 q => store s1 q (reread_entry no_partition_0 (heap q))) s

/-- The string `last_devpath` reads as: with the flag set it may be the
`open_path` of an entry of `freed`, which is that entry's freed `devpath`
block. -/
def reread_cache (no_partition_0 : Bool) (heap : EntPtr → CStr) (freed : List EntPtr)
    (c : HandleCache) : HandleCache :=
  match c.last_devpath with
  | none => c
  | some last =>
    if no_partition_0 then
      match freed.find? (fun q => Nat.pair q.bucket q.depth == last.addr) with
      | some q => { c with last_devpath := some { last with str := heap q } }
      | none => c
    else c

/-- The call `grub_error (err, ...)`: `grub_errno` is set to `err`, which is
also returned. -/
def open_real_fail (s : Registry) (c : HandleCache) (freed : List EntPtr) (calls : List FwCall)
    (disk : grub_disk) (err : grub_err_t) : OpenResult :=
  { state := { registry := { s with grub_errno := err }, cache := c, freed := freed },
    calls := calls, err := err, disk := disk, probed := false }

/-- The label `finish` of `grub_ofdisk_open_real` (lines 909-932); `e` is
`*op`, `freed` the freed entries after the `grub_free (devpath)` of line 922
or 931. -/
def open_real_finish (s : Registry) (c : HandleCache) (freed : List EntPtr)
    (calls : List FwCall) (disk : grub_disk) (op : EntPtr) (e : ofdisk_hash_ent)
    (reply : BlockSizeReply) : OpenResult :=
  let r := open_real_sector_size e reply
  let s1 := store s op (fun _ => r.2.ent)
  let disk1 := { disk with total_sectors := GRUB_DISK_SIZE_UNKNOWN, id := some op,
                           data := some (open_path_ptr op e) }
  match r.1 with
  | Except.error err =>
    { state := { registry := s1, cache := c, freed := freed }, calls := calls, err := err,
      disk := disk1, probed := r.2.fw_called }
  | Except.ok log_sector_size =>
    { state := { registry := s1, cache := c, freed := freed }, calls := calls,
      err := GRUB_ERR_NONE, disk := { disk1 with log_sector_size := log_sector_size },
      probed := r.2.fw_called }

/-- The function `grub_ofdisk_open_real`.  `alloc_ok` is the outcome of the
`grub_malloc` of `compute_dev_path`, `mem` are the outcomes of the
allocations of `ofdisk_hash_add`.  `heap q` is what the freed `devpath`
block of the entry `q` holds when `ofdisk_hash_find` walks the table, after
`compute_dev_path` has allocated and written its block (which the allocator
may have placed on a freed one); `heap_add q` is what it holds after the
allocations of `ofdisk_hash_add`, when there are any.  The result is `none`
when a NULL pointer is dereferenced.

The block of `devpath` is freed on every return after the handle step
(lines 890, 898, 904, 922, 931) and not on the return of line 884; when the
entry was made by this call, it is added to `freed`.  The table of the
state afterwards holds the freed strings as this call read them. -/
def grub_ofdisk_open_real (no_partition_0 alloc_ok : Bool) (mem : Allocs)
    (heap heap_add : EntPtr → CStr) (st : OfdiskState) (name : CStr) (disk : grub_disk)
    (fw : OpenFirmware) : Option OpenResult :=
  if !grub_strncmp_eq name "ieee1275/".toList 9 then
    some (open_real_fail st.registry st.cache st.freed [] disk GRUB_ERR_UNKNOWN_DEVICE)
  else
    match compute_dev_path alloc_ok (name.drop 9) with
    | none =>
      some (open_real_fail st.registry st.cache st.freed [] disk GRUB_ERR_OUT_OF_MEMORY)
    | some devpath =>
      let s0 := reread_freed no_partition_0 heap st.freed st.registry
      let found := (ofdisk_hash_find s0 devpath).isSome
      match open_real_lookup no_partition_0 mem s0 devpath with
      | none => none
      | some (s1, none) => some (open_real_fail s1 st.cache st.freed [] disk s1.grub_errno)
      | some (s1, some op) =>
        match deref s1 op with
        | none => none
        | some e =>
          let c0 := reread_cache no_partition_0 (if found then heap else heap_add) st.freed
            st.cache
          let freed1 := if found then st.freed else op :: st.freed
          match open_real_ensure c0 (open_path_ptr op e) fw.fw_result with
          | (c1, calls, CacheStep.error err) =>
            some (open_real_fail s1 c1 st.freed calls disk err)
          | (c1, calls, CacheStep.hit) =>
            some (open_real_finish s1 c1 freed1 calls disk op e fw.reply)
          | (c1, calls, CacheStep.opened) =>
            if !fw.finddevice_ok then
              some (open_real_fail s1 c1 freed1 calls disk GRUB_ERR_UNKNOWN_DEVICE)
            else
              match fw.device_type with
              | none => some (open_real_fail s1 c1 freed1 calls disk GRUB_ERR_UNKNOWN_DEVICE)
              | some prop =>
                if prop ≠ "block".toList then
                  some (open_real_fail s1 c1 freed1 calls disk GRUB_ERR_UNKNOWN_DEVICE)
                else some (open_real_finish s1 c1 freed1 calls disk op e fw.reply)

/-- A disk structure before it is opened, every field zero. -/
def grub_disk.zero : grub_disk :=
  { total_sectors := 0, id := none, data := none, log_sector_size := 0 }

/-- The state at start-up: the empty table, nothing cached, nothing freed. -/
def OfdiskState.init : OfdiskState :=
  { registry := Registry.empty, cache := HandleCache.empty, freed := [] }

/-- Two calls of `grub_ofdisk_open_real (name, disk)` in a row, each on a
fresh disk structure, every allocation succeeding: the errors returned, and
the firmware calls of each.  `heap1`, `heap_add1` and `heap2`, `heap_add2`
are the contents of the freed blocks during the first and the second call. -/
def open_real_twice (no_partition_0 : Bool) (heap1 heap_add1 heap2 heap_add2 : EntPtr → CStr)
    (st : OfdiskState) (name : CStr) (fw1 fw2 : OpenFirmware) :
    Option ((grub_err_t × List FwCall) × (grub_err_t × List FwCall)) :=
  (grub_ofdisk_open_real no_partition_0 true Allocs.ok heap1 heap_add1 st name grub_disk.zero
    fw1).bind (fun r1 =>
      (grub_ofdisk_open_real no_partition_0 true Allocs.ok heap2 heap_add2 r1.state name
        grub_disk.zero fw2).map (fun r2 => ((r1.err, r1.calls), (r2.err, r2.calls))))

/-- Two disks opened one after the other, from the state at start-up, each
a block device, every allocation succeeding; `heap2` is what the freed
`devpath` block of the first entry holds during the second call.  The
result is the error of the first call, the number of entries it left with
a freed `devpath`, the error of the second call, its firmware calls, and
the string `disk->data` of the second disk points at. -/
def open_two_disks (name1 name2 : CStr) (heap2 : EntPtr → CStr) :
    Option ((grub_err_t × Nat) × (grub_err_t × List FwCall × Option CStr)) :=
  (grub_ofdisk_open_real false true Allocs.ok (fun _ => []) (fun _ => []) OfdiskState.init
    name1 grub_disk.zero
    { fw_result := 5, finddevice_ok := true, device_type := some "block".toList,
      reply := { call_failed := true, result := 0, size1 := 0 } }).bind
    (fun r1 =>
      (grub_ofdisk_open_real false true Allocs.ok heap2 heap2 r1.state name2 grub_disk.zero
        { fw_result := 6, finddevice_ok := true, device_type := some "block".toList,
          reply := { call_failed := true, result := 0, size1 := 0 } }).map
        (fun r2 => ((r1.err, r1.state.freed.length),
          (r2.err, r2.calls, r2.disk.data.map (fun p => p.str)))))

/-! ## Lemmas on buckets and entry pointers -/

theorem chain_get_lt {l : List ofdisk_hash_ent} {d : Nat} {e : ofdisk_hash_ent}
    (h : chain_get l d = some e) : d < l.length := by
  induction l with
  | nil => simp [chain_get] at h
  | cons p next ih =>
    simp only [chain_get] at h
    by_cases hd : d = next.length
    · simp [hd]
    · simp only [hd, if_false] at h
      have := ih h
      simp only [List.length_cons]
      omega

theorem chain_modify_length (f : ofdisk_hash_ent → ofdisk_hash_ent)
    (l : List ofdisk_hash_ent) (d : Nat) : (chain_modify f l d).length = l.length := by
  induction l with
  | nil => simp [chain_modify]
  | cons p next ih =>
    simp only [chain_modify]
    split <;> simp [ih]

theorem chain_get_modify (f : ofdisk_hash_ent → ofdisk_hash_ent)
    (l : List ofdisk_hash_ent) (d d' : Nat) :
    chain_get (chain_modify f l d) d' =
      if d' = d then (chain_get l d).map f else chain_get l d' := by
  induction l with
  | nil => simp [chain_modify, chain_get]
  | cons p next ih =>
    by_cases hd : d = next.length
    · by_cases hd' : d' = next.length
      · simp [chain_modify, chain_get, hd, hd']
      · have hne : ¬ d' = d := by omega
        simp [chain_modify, chain_get, hd, hd']
    · by_cases hd' : d' = next.length
      · have hne : ¬ next.length = d := by omega
        simp [chain_modify, chain_get, hd, hd', hne, chain_modify_length]
      · simp [chain_modify, chain_get, hd, hd', chain_modify_length, ih]

theorem chain_find_modify (f : ofdisk_hash_ent → ofdisk_hash_ent)
    (hf : ∀ e, (f e).devpath = e.devpath) (devpath : CStr)
    (l : List ofdisk_hash_ent) (d : Nat) :
    chain_find devpath (chain_modify f l d) = chain_find devpath l := by
  induction l with
  | nil => simp [chain_modify]
  | cons p next ih =>
    simp only [chain_modify]
    split
    · simp [chain_find, hf]
    · simp [chain_find, ih, chain_modify_length]

theorem chain_find_get {devpath : CStr} {l : List ofdisk_hash_ent} {d : Nat}
    (h : chain_find devpath l = some d) :
    ∃ e, chain_get l d = some e ∧ e.devpath = devpath := by
  induction l with
  | nil => simp [chain_find] at h
  | cons p next ih =>
    simp only [chain_find] at h
    by_cases hp : p.devpath = devpath
    · simp only [hp, if_true, Option.some.injEq] at h
      exact ⟨p, by simp [chain_get, h], hp⟩
    · simp only [hp, if_false] at h
      obtain ⟨e, he, hdev⟩ := ih h
      have hlt := chain_get_lt he
      refine ⟨e, ?_, hdev⟩
      have hne : ¬ d = next.length := by omega
      simp [chain_get, hne, he]

/-! ## Lemmas on the registry operations -/

theorem find_link_head_same (s : Registry) (p : ofdisk_hash_ent) :
    ofdisk_hash_find (link_head s p) p.devpath =
      some { bucket := ofdisk_hash_fn p.devpath,
             depth := (s.ofdisk_hash (ofdisk_hash_fn p.devpath)).length } := by
  simp [ofdisk_hash_find, link_head, chain_find]

theorem find_link_head_ne (s : Registry) (p : ofdisk_hash_ent) (devpath : CStr)
    (h : p.devpath ≠ devpath) :
    ofdisk_hash_find (link_head s p) devpath = ofdisk_hash_find s devpath := by
  unfold ofdisk_hash_find link_head
  by_cases hb : ofdisk_hash_fn devpath = ofdisk_hash_fn p.devpath
  · simp [hb, chain_find, h]
  · simp [hb]

theorem deref_link_head_new (s : Registry) (p : ofdisk_hash_ent) :
    deref (link_head s p)
      { bucket := ofdisk_hash_fn p.devpath,
        depth := (s.ofdisk_hash (ofdisk_hash_fn p.devpath)).length } = some p := by
  simp [deref, link_head, chain_get]

theorem deref_link_head_old (s : Registry) (p : ofdisk_hash_ent) (q : EntPtr)
    (e : ofdisk_hash_ent) (h : deref s q = some e) :
    deref (link_head s p) q = some e := by
  unfold deref at h
  have hlt := chain_get_lt h
  unfold deref link_head
  by_cases hb : q.bucket = ofdisk_hash_fn p.devpath
  · have hne : ¬ q.depth = (s.ofdisk_hash (ofdisk_hash_fn p.devpath)).length := by
      rw [hb] at hlt; omega
    simp only [hb, if_true, chain_get, hne, if_false]
    rw [← hb]; exact h
  · simp [hb, h]

theorem find_store (s : Registry) (q : EntPtr) (f : ofdisk_hash_ent → ofdisk_hash_ent)
    (hf : ∀ e, (f e).devpath = e.devpath) (devpath : CStr) :
    ofdisk_hash_find (store s q f) devpath = ofdisk_hash_find s devpath := by
  unfold ofdisk_hash_find store
  by_cases hb : ofdisk_hash_fn devpath = q.bucket
  · simp [hb, chain_find_modify f hf]
  · simp [hb]

theorem deref_store_same (s : Registry) (q : EntPtr) (f : ofdisk_hash_ent → ofdisk_hash_ent) :
    deref (store s q f) q = (deref s q).map f := by
  simp [deref, store, chain_get_modify]

theorem find_valid {s : Registry} {devpath : CStr} {q : EntPtr}
    (h : ofdisk_hash_find s devpath = some q) :
    ∃ e, deref s q = some e ∧ e.devpath = devpath := by
  unfold ofdisk_hash_find at h
  cases hc : chain_find devpath (s.ofdisk_hash (ofdisk_hash_fn devpath)) with
  | none => simp [hc] at h
  | some d =>
    simp only [hc, Option.map_some', Option.some.injEq] at h
    subst h
    exact chain_find_get hc

theorem add_real_ok (no_partition_0 : Bool) (mem : Allocs) (s : Registry) (devpath : CStr)
    (h : mem.succeeds no_partition_0 = true) :
    ofdisk_hash_add_real no_partition_0 mem s devpath =
      (link_head s (new_ent no_partition_0 devpath),
       some { bucket := ofdisk_hash_fn devpath,
              depth := (s.ofdisk_hash (ofdisk_hash_fn devpath)).length }) := by
  unfold Allocs.succeeds at h
  simp only [Bool.and_eq_true, Bool.or_eq_true] at h
  obtain ⟨⟨h1, h2⟩, h3⟩ := h
  unfold ofdisk_hash_add_real
  rcases h3 with h3 | h3 <;> simp [h1, h2, h3]

theorem add_real_fail (no_partition_0 : Bool) (mem : Allocs) (s : Registry) (devpath : CStr)
    (h : mem.succeeds no_partition_0 = false) :
    ofdisk_hash_add_real no_partition_0 mem s devpath =
      ({ s with grub_errno := GRUB_ERR_OUT_OF_MEMORY }, none) := by
  unfold Allocs.succeeds at h
  unfold ofdisk_hash_add_real
  cases h1 : mem.ent <;> cases h2 : mem.grub_devpath <;> cases h3 : mem.open_path <;>
    cases no_partition_0 <;> simp_all

theorem deref_store (s : Registry) (q p : EntPtr) (f : ofdisk_hash_ent → ofdisk_hash_ent) :
    deref (store s q f) p = if p = q then (deref s q).map f else deref s p := by
  by_cases hpq : p = q
  · subst hpq; simp [deref_store_same]
  · simp only [hpq, if_false]
    unfold deref store
    by_cases hb : p.bucket = q.bucket
    · have hd : ¬ p.depth = q.depth := by
        intro hd; apply hpq
        cases p; cases q; simp_all
      simp [hb, chain_get_modify, hd]
    · simp [hb]

theorem deref_store_keeps (s : Registry) (q p : EntPtr) (f : ofdisk_hash_ent → ofdisk_hash_ent)
    (e : ofdisk_hash_ent) (h : deref s p = some e) :
    deref (store s q f) p = some (if p = q then f e else e) := by
  rw [deref_store]
  by_cases hpq : p = q
  · subst hpq; simp [h]
  · simp [hpq, h]

@[simp] theorem mark_removable_devpath (e : ofdisk_hash_ent) :
    (mark_removable e).devpath = e.devpath := rfl

@[simp] theorem mark_removable_grub_devpath (e : ofdisk_hash_ent) :
    (mark_removable e).grub_devpath = e.grub_devpath := rfl

@[simp] theorem mark_removable_shortest (e : ofdisk_hash_ent) :
    (mark_removable e).shortest = e.shortest := rfl

@[simp] theorem set_shortest_devpath (e c : ofdisk_hash_ent) :
    (set_shortest e c).devpath = c.devpath := rfl

@[simp] theorem set_shortest_shortest (e c : ofdisk_hash_ent) :
    (set_shortest e c).shortest = some e.devpath := rfl

@[simp] theorem set_shortest_grub_shortest (e c : ofdisk_hash_ent) :
    (set_shortest e c).grub_shortest = some e.grub_devpath := rfl

/-- The designee after `reassign_shortest` when the canonical entry has none
yet: it becomes the new path. -/
theorem reassign_shortest_fresh (s : Registry) (pA q : EntPtr) (A C : CStr)
    (ec ea : ofdisk_hash_ent) (hf : ofdisk_hash_find s C = some q)
    (hq : deref s q = some ec) (hsh : ec.shortest = none)
    (hA : deref s pA = some ea) (hdev : ea.devpath = A) :
    ∃ s', reassign_shortest s (some pA) q A = some s' ∧ designee s' C = some A := by
  refine ⟨store s q (set_shortest ea), ?_, ?_⟩
  · simp [reassign_shortest, hq, hsh, hA]
  · unfold designee
    rw [find_store _ _ _ (set_shortest_devpath ea), hf]
    simp [deref_store_same, hq, hdev]

/-- The designee after `reassign_shortest` when the canonical entry already
has one. -/
theorem reassign_shortest_held (s : Registry) (pA q : EntPtr) (A C D : CStr)
    (ec ea : ofdisk_hash_ent) (hf : ofdisk_hash_find s C = some q)
    (hq : deref s q = some ec) (hsh : ec.shortest = some D)
    (hA : deref s pA = some ea) (hdev : ea.devpath = A) :
    ∃ s', reassign_shortest s (some pA) q A = some s' ∧
      designee s' C = some (if A.length < D.length then A else D) := by
  by_cases hlen : A.length < D.length
  · refine ⟨store s q (set_shortest ea), ?_, ?_⟩
    · simp [reassign_shortest, hq, hsh, hA, hlen]
    · unfold designee
      rw [find_store _ _ _ (set_shortest_devpath ea), hf]
      simp [deref_store_same, hq, hdev, hlen]
  · refine ⟨s, ?_, ?_⟩
    · simp [reassign_shortest, hq, hsh, hlen]
    · unfold designee
      simp [hf, hq, hsh, hlen]

/-- Marking an entry removable, or not, keeps what `ofdisk_hash_find` returns,
each entry's `devpath` and each entry's `shortest`. -/
theorem mark_keeps (s : Registry) (q : EntPtr) (removable : Bool) :
    (∀ devpath, ofdisk_hash_find (if removable = true then store s q mark_removable else s) devpath
        = ofdisk_hash_find s devpath) ∧
    (∀ p e, deref s p = some e →
        ∃ e', deref (if removable = true then store s q mark_removable else s) p = some e' ∧
          e'.devpath = e.devpath ∧ e'.shortest = e.shortest ∧
          e'.grub_devpath = e.grub_devpath) := by
  cases removable with
  | false => exact ⟨fun _ => rfl, fun p e h => ⟨e, h, rfl, rfl, rfl⟩⟩
  | true =>
    refine ⟨fun devpath => find_store _ _ _ mark_removable_devpath devpath, fun p e h => ?_⟩
    refine ⟨_, deref_store_keeps s q p mark_removable e h, ?_, ?_, ?_⟩ <;> split <;> rfl

theorem add_hint_found (no_partition_0 : Bool) (mem mem_can : Allocs) (s : Registry)
    (A C D : CStr) (hmem : mem.succeeds no_partition_0 = true)
    (hD : designee s C = some D) (hAC : A ≠ C) :
    ∃ s' r, ofdisk_hash_add no_partition_0 mem mem_can s A (some C) = some (s', r) ∧
      designee s' C = some (if A.length < D.length then A else D) := by
  unfold designee at hD
  cases hq : ofdisk_hash_find s C with
  | none => simp [hq] at hD
  | some q =>
    cases he : deref s q with
    | none => simp [hq, he] at hD
    | some e =>
      simp [hq, he] at hD
      have h1 := add_real_ok no_partition_0 mem s A hmem
      have hf1 : ofdisk_hash_find (link_head s (new_ent no_partition_0 A)) C = some q := by
        rw [find_link_head_ne s (new_ent no_partition_0 A) C hAC]; exact hq
      have hd1 : deref (link_head s (new_ent no_partition_0 A)) q = some e :=
        deref_link_head_old s _ q e he
      have hdA : deref (link_head s (new_ent no_partition_0 A))
          { bucket := ofdisk_hash_fn A,
            depth := (s.ofdisk_hash (ofdisk_hash_fn A)).length } =
          some (new_ent no_partition_0 A) := deref_link_head_new s (new_ent no_partition_0 A)
      obtain ⟨hk1, hk2⟩ := mark_keeps (link_head s (new_ent no_partition_0 A)) q
        (check_string_removable A || check_string_removable C)
      obtain ⟨e3, hd3, -, hsh3, -⟩ := hk2 q e hd1
      obtain ⟨a3, hda3, hdev3, -, -⟩ := hk2 _ _ hdA
      obtain ⟨s', hs', hdes⟩ := reassign_shortest_held _ _ q A C D e3 a3
        ((hk1 C).trans hf1) hd3 (hsh3.trans hD) hda3 hdev3
      refine ⟨s', some { bucket := ofdisk_hash_fn A,
                         depth := (s.ofdisk_hash (ofdisk_hash_fn A)).length }, ?_, hdes⟩
      unfold ofdisk_hash_add
      simp only [h1, hf1]
      show Option.map _ (reassign_shortest _ _ q A) = _
      rw [hs']
      rfl

theorem add_hint_fresh (no_partition_0 : Bool) (mem mem_can : Allocs) (s : Registry)
    (A C : CStr) (hmem : mem.succeeds no_partition_0 = true)
    (hcan : mem_can.succeeds no_partition_0 = true)
    (hC : ofdisk_hash_find s C = none) :
    ∃ s' r, ofdisk_hash_add no_partition_0 mem mem_can s A (some C) = some (s', r) ∧
      designee s' C = some A := by
  have h1 := add_real_ok no_partition_0 mem s A hmem
  have hdA : deref (link_head s (new_ent no_partition_0 A))
      { bucket := ofdisk_hash_fn A,
        depth := (s.ofdisk_hash (ofdisk_hash_fn A)).length } =
      some (new_ent no_partition_0 A) := deref_link_head_new s (new_ent no_partition_0 A)
  by_cases hAC : A = C
  · -- the hint is the path itself: the lookup finds the entry just linked in
    subst hAC
    have hf1 : ofdisk_hash_find (link_head s (new_ent no_partition_0 A)) A =
        some { bucket := ofdisk_hash_fn A,
               depth := (s.ofdisk_hash (ofdisk_hash_fn A)).length } :=
      find_link_head_same s (new_ent no_partition_0 A)
    obtain ⟨hk1, hk2⟩ := mark_keeps (link_head s (new_ent no_partition_0 A))
      { bucket := ofdisk_hash_fn A, depth := (s.ofdisk_hash (ofdisk_hash_fn A)).length }
      (check_string_removable A || check_string_removable A)
    obtain ⟨a3, hda3, hdev3, hsh3, -⟩ := hk2 _ _ hdA
    obtain ⟨s', hs', hdes⟩ := reassign_shortest_fresh _ _ _ A A a3 a3
      ((hk1 A).trans hf1) hda3 (hsh3.trans rfl) hda3 hdev3
    refine ⟨s', some { bucket := ofdisk_hash_fn A,
                       depth := (s.ofdisk_hash (ofdisk_hash_fn A)).length }, ?_, hdes⟩
    unfold ofdisk_hash_add
    simp only [h1, hf1]
    show Option.map _ (reassign_shortest _ _ _ A) = _
    rw [hs']
    rfl
  · have hf1 : ofdisk_hash_find (link_head s (new_ent no_partition_0 A)) C = none := by
      rw [find_link_head_ne s (new_ent no_partition_0 A) C hAC]; exact hC
    have h2 := add_real_ok no_partition_0 mem_can (link_head s (new_ent no_partition_0 A)) C hcan
    have hf2 : ofdisk_hash_find
        (link_head (link_head s (new_ent no_partition_0 A)) (new_ent no_partition_0 C)) C =
        some { bucket := ofdisk_hash_fn C,
               depth := ((link_head s (new_ent no_partition_0 A)).ofdisk_hash
                          (ofdisk_hash_fn C)).length } :=
      find_link_head_same _ (new_ent no_partition_0 C)
    have hdC : deref
        (link_head (link_head s (new_ent no_partition_0 A)) (new_ent no_partition_0 C))
        { bucket := ofdisk_hash_fn C,
          depth := ((link_head s (new_ent no_partition_0 A)).ofdisk_hash
                      (ofdisk_hash_fn C)).length } =
        some (new_ent no_partition_0 C) := deref_link_head_new _ (new_ent no_partition_0 C)
    have hdA2 := deref_link_head_old _ (new_ent no_partition_0 C) _ _ hdA
    obtain ⟨hk1, hk2⟩ := mark_keeps
      (link_head (link_head s (new_ent no_partition_0 A)) (new_ent no_partition_0 C))
      { bucket := ofdisk_hash_fn C,
        depth := ((link_head s (new_ent no_partition_0 A)).ofdisk_hash
                    (ofdisk_hash_fn C)).length }
      (check_string_removable A || check_string_removable C)
    obtain ⟨c3, hdc3, -, hsh3, -⟩ := hk2 _ _ hdC
    obtain ⟨a3, hda3, hdev3, -, -⟩ := hk2 _ _ hdA2
    obtain ⟨s', hs', hdes⟩ := reassign_shortest_fresh _ _ _ A C c3 a3
      ((hk1 C).trans hf2) hdc3 (hsh3.trans rfl) hda3 hdev3
    refine ⟨s', some { bucket := ofdisk_hash_fn A,
                       depth := (s.ofdisk_hash (ofdisk_hash_fn A)).length }, ?_, hdes⟩
    unfold ofdisk_hash_add
    simp only [h1, hf1, h2]
    show Option.map _ (reassign_shortest _ _ _ A) = _
    rw [hs']
    rfl

/-! ## Lemmas on escaping -/

theorem escape_loop_eq (devpath out : CStr) :
    escape_loop devpath out =
      out ++ devpath.flatMap (fun c => if c = ',' then ['\\', ','] else [c]) := by
  induction devpath generalizing out with
  | nil => simp [escape_loop]
  | cons c iptr ih =>
    simp only [escape_loop, ih, List.flatMap_cons]
    by_cases hc : c = ','
    · simp [hc]
    · simp [hc]

theorem make_grub_devpath_eq (devpath : CStr) :
    make_grub_devpath devpath = exposed_name_spec devpath := by
  simp [make_grub_devpath, exposed_name_spec, escape_loop_eq]

theorem unescape_loop_cons (c : Char) (name : CStr) (h : ∀ t, name ≠ ',' :: t) :
    unescape_loop (c :: name) = c :: unescape_loop name := by
  cases name with
  | nil => simp [unescape_loop]
  | cons d t =>
    have hd : d ≠ ',' := fun hd => h t (by rw [hd])
    simp [unescape_loop, hd]

theorem escaped_head (devpath : CStr) (t : CStr) :
    devpath.flatMap (fun c => if c = ',' then ['\\', ','] else [c]) ≠ ',' :: t := by
  cases devpath with
  | nil => simp
  | cons c rest =>
    by_cases hc : c = ','
    · simp [hc]
    · simp [hc]

theorem unescape_escaped (devpath : CStr) :
    unescape_loop (devpath.flatMap (fun c => if c = ',' then ['\\', ','] else [c])) =
      devpath := by
  induction devpath with
  | nil => simp [unescape_loop]
  | cons c rest ih =>
    by_cases hc : c = ','
    · simp [hc, unescape_loop, ih]
    · simp only [List.flatMap_cons, hc, if_false, List.singleton_append]
      rw [unescape_loop_cons c _ (escaped_head rest), ih]

/-! ## Lemmas on the handle cache -/

theorem open_handles_append (a b : List FwCall) :
    open_handles (a ++ b) = b.foldl track_handle (open_handles a) := by
  simp [open_handles, List.foldl_append]

theorem reopen_inv (st : CacheState) (target : Option StrPtr) (fw_result : Nat)
    (h : cache_inv st) :
    cache_inv { cache := (reopen st.cache target fw_result).1,
                calls := st.calls ++ (reopen st.cache target fw_result).2.1 } := by
  unfold cache_inv at *
  simp only [open_handles_append, h]
  unfold reopen
  by_cases h0 : st.cache.last_ihandle = 0 <;> by_cases hf : fw_result = 0 <;>
    simp [h0, hf, track_handle]

theorem prepare_ensure_inv (st : CacheState) (data : Option StrPtr) (fw_result : Nat)
    (h : cache_inv st) :
    cache_inv { cache := (prepare_ensure st.cache data fw_result).1,
                calls := st.calls ++ (prepare_ensure st.cache data fw_result).2.1 } := by
  unfold prepare_ensure
  split
  · exact reopen_inv st data fw_result h
  · simpa using h

theorem open_real_ensure_inv (st : CacheState) (p : StrPtr) (fw_result : Nat)
    (h : cache_inv st) :
    cache_inv { cache := (open_real_ensure st.cache p fw_result).1,
                calls := st.calls ++ (open_real_ensure st.cache p fw_result).2.1 } := by
  unfold open_real_ensure
  split
  · split
    · simpa using h
    · exact reopen_inv st (some p) fw_result h
  · exact reopen_inv st (some p) fw_result h

theorem cache_inv_snoc (c : HandleCache) (calls : List FwCall) (x : FwCall)
    (hx : ∀ live, track_handle live x = live)
    (h : cache_inv { cache := c, calls := calls }) :
    cache_inv { cache := c, calls := calls ++ [x] } := by
  unfold cache_inv at *
  simp only [open_handles_append, List.foldl_cons, List.foldl_nil, hx]
  exact h

theorem prepare_inv (st : CacheState) (data : Option StrPtr) (lss sector fw_result : Nat)
    (seek_status : Int) (h : cache_inv st) :
    cache_inv
      { cache := (grub_ofdisk_prepare st.cache data lss sector fw_result seek_status).1,
        calls := st.calls ++
          (grub_ofdisk_prepare st.cache data lss sector fw_result seek_status).2.1 } := by
  have hp := prepare_ensure_inv st data fw_result h
  unfold grub_ofdisk_prepare
  rcases hr : prepare_ensure st.cache data fw_result with ⟨c1, calls, step⟩
  rw [hr] at hp
  cases step with
  | error err => exact hp
  | hit =>
    simp only
    split <;>
    · rw [← List.append_assoc]
      exact cache_inv_snoc _ _ _ (fun _ => rfl) hp
  | opened =>
    simp only
    split <;>
    · rw [← List.append_assoc]
      exact cache_inv_snoc _ _ _ (fun _ => rfl) hp

theorem read_real_inv (size_bits : Nat) (st : CacheState) (data : Option StrPtr)
    (lss sector size fw_result : Nat) (seek_status actual : Int) (h : cache_inv st) :
    cache_inv
      { cache := (grub_ofdisk_read_real size_bits st.cache data lss sector size fw_result
          seek_status actual).1,
        calls := st.calls ++ (grub_ofdisk_read_real size_bits st.cache data lss sector size
          fw_result seek_status actual).2.1 } := by
  have hp := prepare_inv st data lss sector fw_result seek_status h
  unfold grub_ofdisk_read_real
  rcases hr : grub_ofdisk_prepare st.cache data lss sector fw_result seek_status with
    ⟨c1, calls, err⟩
  rw [hr] at hp
  cases err <;> first
    | exact hp
    | (simp only
       split <;>
       · rw [← List.append_assoc]
         exact cache_inv_snoc _ _ _ (fun _ => rfl) hp)

theorem write_inv (size_bits : Nat) (st : CacheState) (data : Option StrPtr)
    (lss sector size fw_result : Nat) (seek_status actual : Int) (h : cache_inv st) :
    cache_inv
      { cache := (grub_ofdisk_write size_bits st.cache data lss sector size fw_result
          seek_status actual).1,
        calls := st.calls ++ (grub_ofdisk_write size_bits st.cache data lss sector size
          fw_result seek_status actual).2.1 } := by
  have hp := prepare_inv st data lss sector fw_result seek_status h
  unfold grub_ofdisk_write
  rcases hr : grub_ofdisk_prepare st.cache data lss sector fw_result seek_status with
    ⟨c1, calls, err⟩
  rw [hr] at hp
  cases err <;> first
    | exact hp
    | (simp only
       split <;>
       · rw [← List.append_assoc]
         exact cache_inv_snoc _ _ _ (fun _ => rfl) hp)

theorem fini_inv (st : CacheState) (h : cache_inv st) :
    open_handles (st.calls ++ (grub_ofdisk_fini st.cache).2) = [] := by
  unfold cache_inv at h
  simp only [open_handles_append, h, grub_ofdisk_fini]
  by_cases h0 : st.cache.last_ihandle = 0 <;> simp [h0, track_handle]

theorem cache_step_inv (size_bits : Nat) (st : CacheState) (op : CacheOp)
    (h : cache_inv st) : cache_inv (cache_step size_bits st op) := by
  cases op with
  | open_real open_path fw_result =>
    cases open_path with
    | none => exact h
    | some p => exact open_real_ensure_inv st p fw_result h
  | read_real data lss sector size fw_result seek_status actual =>
    exact read_real_inv size_bits st data lss sector size fw_result seek_status actual h
  | write data lss sector size fw_result seek_status actual =>
    exact write_inv size_bits st data lss sector size fw_result seek_status actual h
  | close => exact h
  | fini =>
    show open_handles (st.calls ++ (grub_ofdisk_fini st.cache).2) =
      if (0 : Nat) = 0 then [] else [0]
    rw [fini_inv st h]
    rfl

theorem cache_run_inv (size_bits : Nat) (ops : List CacheOp) (st : CacheState)
    (h : cache_inv st) : cache_inv (cache_run size_bits st ops) := by
  induction ops generalizing st with
  | nil => exact h
  | cons op rest ih => exact ih _ (cache_step_inv size_bits st op h)

/-! ## Lemmas on the substring search -/

theorem grub_strstr_isSome (haystack needle : CStr) :
    (grub_strstr haystack needle).isSome = true ↔ needle <:+: haystack := by
  induction haystack with
  | nil =>
    by_cases hn : needle = []
    · simp [grub_strstr, hn]
    · simp [grub_strstr, hn]
  | cons c rest ih =>
    rw [grub_strstr, List.infix_cons_iff]
    by_cases hp : needle.isPrefixOf (c :: rest) = true
    · simp only [hp, if_true, Option.isSome_some, true_iff]
      exact Or.inl (List.isPrefixOf_iff_prefix.mp hp)
    · have hp' : ¬ needle <+: c :: rest := fun h => hp (List.isPrefixOf_iff_prefix.mpr h)
      have hpf : needle.isPrefixOf (c :: rest) = false := Bool.eq_false_iff.mpr hp
      rw [hpf]
      simp only [Bool.false_eq_true, if_false, ih]
      exact ⟨Or.inr, fun h => h.resolve_left hp'⟩

theorem disk_timeout_zero_iff (grub_strtoul : CStr → Strtoul) (env_timeout : Option CStr)
    (grub_errno : grub_err_t) (name : CStr) (h : ¬ retryable name) :
    grub_ofdisk_disk_timeout grub_strtoul env_timeout grub_errno name = (0, grub_errno) := by
  unfold retryable at h
  unfold grub_ofdisk_disk_timeout
  rw [if_pos]
  simp only [Bool.or_eq_true, Bool.not_eq_true', Bool.or_eq_false_iff, grub_strstr_isSome,
    ← Bool.not_eq_true]
  by_contra hc
  apply h
  push_neg at hc
  exact ⟨hc.1, hc.2⟩

theorem disk_timeout_retryable (grub_strtoul : CStr → Strtoul) (env_timeout : Option CStr)
    (grub_errno : grub_err_t) (name : CStr) (h : retryable name) :
    grub_ofdisk_disk_timeout grub_strtoul env_timeout grub_errno name =
      match env_timeout with
      | some timeout =>
        if (grub_strtoul timeout).errno grub_errno ≠ GRUB_ERR_NONE then
          (RETRY_DEFAULT_TIMEOUT, GRUB_ERR_NONE)
        else if (grub_strtoul timeout).ret ≠ 0 then
          ((grub_strtoul timeout).ret, (grub_strtoul timeout).errno grub_errno)
        else (RETRY_DEFAULT_TIMEOUT, (grub_strtoul timeout).errno grub_errno)
      | none => (RETRY_DEFAULT_TIMEOUT, grub_errno) := by
  unfold retryable at h
  unfold grub_ofdisk_disk_timeout
  rw [if_neg]
  simp only [Bool.or_eq_true, Bool.not_eq_true', Bool.or_eq_false_iff, grub_strstr_isSome,
    ← Bool.not_eq_true]
  push_neg
  exact ⟨h.1, h.2⟩

/-! ## Lemmas on the retry loop -/

theorem retry_deadline_le (now seconds : Nat) :
    retry_deadline now seconds ≤ now + seconds * 1000 := by
  unfold retry_deadline
  calc (now + seconds * 1000 % 2 ^ 64) % 2 ^ 64
      ≤ now + seconds * 1000 % 2 ^ 64 := Nat.mod_le _ _
    _ ≤ now + seconds * 1000 := Nat.add_le_add_left (Nat.mod_le _ _) _

theorem retry_deadline_exact (now seconds : Nat) (h : now + seconds * 1000 < 2 ^ 64) :
    retry_deadline now seconds = now + seconds * 1000 := by
  unfold retry_deadline
  have h1 : seconds * 1000 % 2 ^ 64 = seconds * 1000 := Nat.mod_eq_of_lt (by omega)
  rw [h1, Nat.mod_eq_of_lt h]

/-- The loop ends at a call that does not fail with
`GRUB_ERR_UNKNOWN_DEVICE` or that ends at or after the deadline. -/
theorem retry_loop_stop (op : Nat → grub_err_t → Attempt) (timeout fuel k now : Nat)
    (errno : grub_err_t)
    (h : ¬ ((op k errno).err = GRUB_ERR_UNKNOWN_DEVICE ∧ now + (op k errno).ms < timeout)) :
    retry_loop op timeout (fuel + 1) k now errno =
      some { err := (op k errno).err, grub_errno := (op k errno).errno, attempts := k + 1,
             sleeps := k, now := now + (op k errno).ms } := by
  simp only [retry_loop, decide_eq_true_eq, h, if_false]

/-- The loop goes on after a call that fails with `GRUB_ERR_UNKNOWN_DEVICE`
before the deadline: the error flag is cleared and a second is slept. -/
theorem retry_loop_again (op : Nat → grub_err_t → Attempt) (timeout fuel k now : Nat)
    (errno : grub_err_t) (herr : (op k errno).err = GRUB_ERR_UNKNOWN_DEVICE)
    (hc : now + (op k errno).ms < timeout) :
    retry_loop op timeout (fuel + 1) k now errno =
      retry_loop op timeout fuel (k + 1) (now + (op k errno).ms + 1000) GRUB_ERR_NONE := by
  simp only [retry_loop, decide_eq_true_eq, herr, hc, and_self, if_true]

/-- An operation that always fails with `GRUB_ERR_UNKNOWN_DEVICE`, started at
most `m` seconds before the deadline, is called at most `m + 1` more
times. -/
theorem retry_loop_bound (op : Nat → grub_err_t → Attempt) (timeout : Nat)
    (hop : ∀ k e, (op k e).err = GRUB_ERR_UNKNOWN_DEVICE) :
    ∀ (m fuel k now : Nat) (errno : grub_err_t),
      timeout ≤ now + m * 1000 → m + 1 ≤ fuel →
      ∃ r, retry_loop op timeout fuel k now errno = some r ∧
        r.err = GRUB_ERR_UNKNOWN_DEVICE ∧ k + 1 ≤ r.attempts ∧
        r.attempts ≤ k + 1 + m ∧ r.sleeps + 1 = r.attempts := by
  intro m
  induction m with
  | zero =>
    intro fuel k now errno ht hf
    obtain ⟨f, rfl⟩ : ∃ f, fuel = f + 1 := ⟨fuel - 1, by omega⟩
    have hc : ¬ (now + (op k errno).ms < timeout) := by omega
    exact ⟨_, retry_loop_stop op timeout f k now errno (fun h => hc h.2), hop k errno,
      Nat.le_refl _, Nat.le_add_right _ _, rfl⟩
  | succ m ih =>
    intro fuel k now errno ht hf
    obtain ⟨f, rfl⟩ : ∃ f, fuel = f + 1 := ⟨fuel - 1, by omega⟩
    by_cases hc : now + (op k errno).ms < timeout
    · obtain ⟨r, hr, herr, hlo, hhi, hsl⟩ :=
        ih f (k + 1) (now + (op k errno).ms + 1000) GRUB_ERR_NONE (by omega) (by omega)
      refine ⟨r, ?_, herr, by omega, by omega, hsl⟩
      rw [retry_loop_again op timeout f k now errno (hop k errno) hc]
      exact hr
    · exact ⟨_, retry_loop_stop op timeout f k now errno (fun h => hc h.2), hop k errno,
        Nat.le_refl _, Nat.le_add_right _ _, rfl⟩

/-- An operation that always fails with `GRUB_ERR_UNKNOWN_DEVICE` and takes
no time, started exactly `m` seconds before the deadline, is called exactly
`m + 1` more times. -/
theorem retry_loop_exact (op : Nat → grub_err_t → Attempt) (timeout : Nat)
    (hop : ∀ k e, (op k e).err = GRUB_ERR_UNKNOWN_DEVICE)
    (hms : ∀ k e, (op k e).ms = 0) :
    ∀ (m fuel k now : Nat) (errno : grub_err_t),
      timeout = now + m * 1000 → m + 1 ≤ fuel →
      ∃ r, retry_loop op timeout fuel k now errno = some r ∧ r.attempts = k + 1 + m := by
  intro m
  induction m with
  | zero =>
    intro fuel k now errno ht hf
    obtain ⟨f, rfl⟩ : ∃ f, fuel = f + 1 := ⟨fuel - 1, by omega⟩
    have hc : ¬ (now + (op k errno).ms < timeout) := by rw [hms]; omega
    exact ⟨_, retry_loop_stop op timeout f k now errno (fun h => hc h.2), rfl⟩
  | succ m ih =>
    intro fuel k now errno ht hf
    obtain ⟨f, rfl⟩ : ∃ f, fuel = f + 1 := ⟨fuel - 1, by omega⟩
    have hc : now + (op k errno).ms < timeout := by rw [hms]; omega
    obtain ⟨r, hr, hat⟩ :=
      ih f (k + 1) (now + (op k errno).ms + 1000) GRUB_ERR_NONE (by rw [hms]; omega) (by omega)
    refine ⟨r, ?_, by omega⟩
    rw [retry_loop_again op timeout f k now errno (hop k errno) hc]
    exact hr

/-- With two seconds to the deadline and calls that take less than a second,
an operation that always fails with `GRUB_ERR_UNKNOWN_DEVICE` is called two
or three times. -/
theorem retry_loop_two_seconds (op : Nat → grub_err_t → Attempt) (now : Nat)
    (hop : ∀ k e, (op k e).err = GRUB_ERR_UNKNOWN_DEVICE)
    (hms : ∀ k e, (op k e).ms < 1000) (fuel : Nat) (hf : 3 ≤ fuel) (errno : grub_err_t) :
    ∃ r, retry_loop op (now + 2 * 1000) fuel 0 now errno = some r ∧
      (r.attempts = 2 ∨ r.attempts = 3) := by
  obtain ⟨f, rfl⟩ : ∃ f, fuel = f + 3 := ⟨fuel - 3, by omega⟩
  have h0 := hms 0 errno
  have h1 := hms 1 GRUB_ERR_NONE
  have h2 := hms 2 GRUB_ERR_NONE
  have hc0 : now + (op 0 errno).ms < now + 2 * 1000 := by omega
  rw [show f + 3 = (f + 2) + 1 from rfl,
    retry_loop_again op _ (f + 2) 0 now errno (hop 0 errno) hc0]
  by_cases hc1 : now + (op 0 errno).ms + 1000 + (op (0 + 1) GRUB_ERR_NONE).ms < now + 2 * 1000
  · rw [show f + 2 = (f + 1) + 1 from rfl,
      retry_loop_again op _ (f + 1) (0 + 1) _ GRUB_ERR_NONE (hop _ _) hc1]
    have hc2 : ¬ (now + (op 0 errno).ms + 1000 + (op (0 + 1) GRUB_ERR_NONE).ms + 1000 +
        (op (0 + 1 + 1) GRUB_ERR_NONE).ms < now + 2 * 1000) := by omega
    exact ⟨_, retry_loop_stop op _ f (0 + 1 + 1) _ GRUB_ERR_NONE (fun h => hc2 h.2),
      Or.inr rfl⟩
  · exact ⟨_, retry_loop_stop op _ (f + 1) (0 + 1) _ GRUB_ERR_NONE (fun h => hc1 h.2),
      Or.inl rfl⟩

/-! ## Lemmas on the block-size probe -/

/-- The sizes the test of `grub_ofdisk_get_block_size` lets through, checked
on every value up to the upper bound. -/
theorem block_size_acceptable_table :
    (List.range 16385).all
      (fun n => block_size_acceptable n ==
        decide (n ∈ [512, 1024, 2048, 4096, 8192, 16384])) = true := by
  decide!

theorem block_size_acceptable_iff_mem (size1 : Nat) :
    block_size_acceptable size1 = true ↔ size1 ∈ [512, 1024, 2048, 4096, 8192, 16384] := by
  by_cases hle : size1 ≤ 16384
  · have h := List.all_eq_true.mp block_size_acceptable_table size1
      (List.mem_range.mpr (by omega))
    have h' := beq_iff_eq.mp h
    rw [h', decide_eq_true_iff]
  · constructor
    · intro h
      simp only [block_size_acceptable, Bool.and_eq_true, decide_eq_true_eq] at h
      exact absurd h.2 hle
    · intro h
      simp only [List.mem_cons, List.mem_singleton, List.not_mem_nil, or_false] at h
      omega

theorem block_size_acceptable_iff_valid (size1 : Nat) :
    block_size_acceptable size1 = true ↔ valid_block_size size1 := by
  rw [block_size_acceptable_iff_mem]
  unfold valid_block_size
  constructor
  · intro h
    simp only [List.mem_cons, List.mem_singleton, List.not_mem_nil, or_false] at h
    rcases h with h | h | h | h | h | h <;> subst h
    · exact ⟨⟨9, rfl⟩, by omega, by omega⟩
    · exact ⟨⟨10, rfl⟩, by omega, by omega⟩
    · exact ⟨⟨11, rfl⟩, by omega, by omega⟩
    · exact ⟨⟨12, rfl⟩, by omega, by omega⟩
    · exact ⟨⟨13, rfl⟩, by omega, by omega⟩
    · exact ⟨⟨14, rfl⟩, by omega, by omega⟩
  · rintro ⟨⟨k, rfl⟩, hlo, hhi⟩
    have hk9 : 9 ≤ k := by
      by_contra hlt
      have : 2 ^ k ≤ 2 ^ 8 := Nat.pow_le_pow_right (by omega) (by omega)
      omega
    have hk14 : k ≤ 14 := by
      by_contra hgt
      have : 2 ^ 15 ≤ 2 ^ k := Nat.pow_le_pow_right (by omega) (by omega)
      omega
    interval_cases k <;> simp

/-- A probe in which the call fails, made with the counter below 2, counts
the failure. -/
theorem probe_failed_call (op : ofdisk_hash_ent) (reply : BlockSizeReply)
    (hfail : reply.call_failed = true ∨ reply.result ≠ 0) :
    (grub_ofdisk_get_block_size op reply).ent.block_size_fails =
      if op.block_size_fails ≥ 2 then op.block_size_fails else op.block_size_fails + 1 := by
  unfold grub_ofdisk_get_block_size
  by_cases h2 : op.block_size_fails ≥ 2
  · simp [h2]
  · by_cases hc : reply.call_failed = true
    · simp [h2, hc]
    · have hr : reply.result ≠ 0 := hfail.resolve_left hc
      simp [h2, hc, hr]

theorem probe_skipped (op : ofdisk_hash_ent) (reply : BlockSizeReply)
    (h : 2 ≤ op.block_size_fails) :
    grub_ofdisk_get_block_size op reply =
      { err := GRUB_ERR_NONE, block_size := 0, ent := op, fw_called := false } := by
  simp [grub_ofdisk_get_block_size, h]

/-! ## Lemmas on the iteration -/

/-- Every call of the visitor made by the loops is for an entry of the list
that passed each of the filters, and passes its `grub_shortest`. -/
theorem iterate_entries_calls {σ : Type} (sdcard_only : Bool)
    (iconname : CStr → Option CStr) (pull : Nat) (hook : σ → Option CStr → σ × Bool) :
    ∀ (l : List ofdisk_hash_ent) (st : σ) (c : HookCall),
      c ∈ (iterate_entries sdcard_only iconname pull hook l st).2.2 →
      c.ent ∈ l ∧ c.name = c.ent.grub_shortest ∧ c.ent.shortest ≠ none ∧
      sdcard_filter_skips sdcard_only iconname c.ent = false ∧
      ¬ (c.ent.is_boot = false ∧ c.ent.is_removable = true) ∧
      (pull = GRUB_DISK_PULL_NONE → c.ent.is_boot = true) ∧
      (pull = GRUB_DISK_PULL_REMOVABLE → c.ent.is_boot = false) := by
  intro l
  induction l with
  | nil => intro st c hc; simp [iterate_entries] at hc
  | cons ent rest ih =>
    intro st c hc
    have hrest : ∀ st', c ∈ (iterate_entries sdcard_only iconname pull hook rest st').2.2 →
        c.ent ∈ ent :: rest ∧ c.name = c.ent.grub_shortest ∧ c.ent.shortest ≠ none ∧
        sdcard_filter_skips sdcard_only iconname c.ent = false ∧
        ¬ (c.ent.is_boot = false ∧ c.ent.is_removable = true) ∧
        (pull = GRUB_DISK_PULL_NONE → c.ent.is_boot = true) ∧
        (pull = GRUB_DISK_PULL_REMOVABLE → c.ent.is_boot = false) := by
      intro st' h
      obtain ⟨hm, hrestp⟩ := ih st' c h
      exact ⟨List.mem_cons_of_mem _ hm, hrestp⟩
    unfold iterate_entries at hc
    by_cases h1 : ent.shortest.isNone = true
    · rw [if_pos h1] at hc; exact hrest _ hc
    · rw [if_neg h1] at hc
      by_cases h2 : sdcard_filter_skips sdcard_only iconname ent = true
      · rw [if_pos h2] at hc; exact hrest _ hc
      · rw [if_neg h2] at hc
        by_cases h3 : (!ent.is_boot && ent.is_removable) = true
        · rw [if_pos h3] at hc; exact hrest _ hc
        · rw [if_neg h3] at hc
          by_cases h4 : (pull == GRUB_DISK_PULL_NONE && !ent.is_boot) = true
          · rw [if_pos h4] at hc; exact hrest _ hc
          · rw [if_neg h4] at hc
            by_cases h5 : (pull == GRUB_DISK_PULL_REMOVABLE && ent.is_boot) = true
            · rw [if_pos h5] at hc; exact hrest _ hc
            · rw [if_neg h5] at hc
              have hent : ent.shortest ≠ none ∧
                  sdcard_filter_skips sdcard_only iconname ent = false ∧
                  ¬ (ent.is_boot = false ∧ ent.is_removable = true) ∧
                  (pull = GRUB_DISK_PULL_NONE → ent.is_boot = true) ∧
                  (pull = GRUB_DISK_PULL_REMOVABLE → ent.is_boot = false) := by
                refine ⟨?_, ?_, ?_, ?_, ?_⟩
                · intro hn; apply h1; simp [hn]
                · simpa using h2
                · intro hb; apply h3; simp [hb.1, hb.2]
                · intro hp
                  cases hb : ent.is_boot with
                  | true => rfl
                  | false => exact absurd (by simp [hp, hb]) h4
                · intro hp
                  cases hb : ent.is_boot with
                  | false => rfl
                  | true => exact absurd (by simp [hp, hb]) h5
              by_cases h6 : (hook st ent.grub_shortest).2 = true
              · simp only [h6, if_true, List.mem_singleton] at hc
                subst hc
                exact ⟨List.mem_cons_self _ _, rfl, hent⟩
              · simp only [h6, Bool.false_eq_true, if_false, List.mem_cons] at hc
                rcases hc with hc | hc
                · subst hc
                  exact ⟨List.mem_cons_self _ _, rfl, hent⟩
                · exact hrest _ hc

/-- The value returned by the loops: 1 when the last call of the visitor
returned non-zero, no earlier one having done so, and 0 when none did. -/
theorem iterate_entries_ret {σ : Type} (sdcard_only : Bool)
    (iconname : CStr → Option CStr) (pull : Nat) (hook : σ → Option CStr → σ × Bool) :
    ∀ (l : List ofdisk_hash_ent) (st : σ),
      ((iterate_entries sdcard_only iconname pull hook l st).1 = 1 ∧
        ∃ init last, (iterate_entries sdcard_only iconname pull hook l st).2.2 =
            init ++ [last] ∧ last.stop = true ∧ ∀ c ∈ init, c.stop = false) ∨
      ((iterate_entries sdcard_only iconname pull hook l st).1 = 0 ∧
        ∀ c ∈ (iterate_entries sdcard_only iconname pull hook l st).2.2, c.stop = false) := by
  intro l
  induction l with
  | nil => intro st; right; simp [iterate_entries]
  | cons ent rest ih =>
    intro st
    unfold iterate_entries
    by_cases h1 : ent.shortest.isNone = true
    · rw [if_pos h1]; exact ih st
    · rw [if_neg h1]
      by_cases h2 : sdcard_filter_skips sdcard_only iconname ent = true
      · rw [if_pos h2]; exact ih st
      · rw [if_neg h2]
        by_cases h3 : (!ent.is_boot && ent.is_removable) = true
        · rw [if_pos h3]; exact ih st
        · rw [if_neg h3]
          by_cases h4 : (pull == GRUB_DISK_PULL_NONE && !ent.is_boot) = true
          · rw [if_pos h4]; exact ih st
          · rw [if_neg h4]
            by_cases h5 : (pull == GRUB_DISK_PULL_REMOVABLE && ent.is_boot) = true
            · rw [if_pos h5]; exact ih st
            · rw [if_neg h5]
              by_cases h6 : (hook st ent.grub_shortest).2 = true
              · left
                rw [if_pos h6]
                exact ⟨rfl, [], _, rfl, rfl, by simp⟩
              · rw [if_neg h6]
                rcases ih (hook st ent.grub_shortest).1 with
                  ⟨hr, init, last, hcalls, hlast, hinit⟩ | ⟨hr, hall⟩
                · left
                  refine ⟨hr, { ent := ent, name := ent.grub_shortest, stop := false } :: init,
                    last, ?_, hlast, ?_⟩
                  · show _ :: (iterate_entries sdcard_only iconname pull hook rest
                      (hook st ent.grub_shortest).1).2.2 = _
                    rw [hcalls]; rfl
                  · intro c hc
                    rcases List.mem_cons.mp hc with h | h
                    · subst h; rfl
                    · exact hinit c h
                · right
                  refine ⟨hr, ?_⟩
                  intro c hc
                  rcases List.mem_cons.mp hc with h | h
                  · subst h; rfl
                  · exact hall c h

/-! ## Lemmas on `check_string_removable` -/

theorem takeWhile_append_stop {α : Type} (p : α → Bool) (l rest : List α) (x : α)
    (hl : ∀ c ∈ l, p c = true) (hx : p x = false) :
    (l ++ x :: rest).takeWhile p = l := by
  induction l with
  | nil => simp [List.takeWhile, hx]
  | cons a t ih =>
    have ha : p a = true := hl a (List.mem_cons_self _ _)
    rw [List.cons_append, List.takeWhile_cons, ha, if_pos rfl,
      ih (fun c hc => hl c (List.mem_cons_of_mem _ hc))]

theorem last_segment_of_no_slash (str : CStr) (h : '/' ∉ str) : last_segment str = str := by
  unfold last_segment
  have : str.reverse.takeWhile (fun c => c != '/') = str.reverse := by
    rw [List.takeWhile_eq_self_iff]
    intro c hc
    have hc' : c ∈ str := List.mem_reverse.mp hc
    simp only [bne_iff_ne, ne_eq]
    intro hcs
    exact h (hcs ▸ hc')
  rw [this, List.reverse_reverse]

theorem last_segment_of_split (pre seg : CStr) (h : '/' ∉ seg) :
    last_segment (pre ++ '/' :: seg) = seg := by
  unfold last_segment
  have hrev : (pre ++ '/' :: seg).reverse = seg.reverse ++ '/' :: pre.reverse := by
    simp
  rw [hrev, takeWhile_append_stop _ _ _ _ _ (by simp), List.reverse_reverse]
  intro c hc
  have hc' : c ∈ seg := List.mem_reverse.mp hc
  simp only [bne_iff_ne, ne_eq]
  intro hcs
  exact h (hcs ▸ hc')

/-- What `grub_strrchr (str, '/')` returns: NULL when `str` has no slash,
and otherwise the slash that is followed by no other. -/
theorem grub_strrchr_slash (str : CStr) :
    (grub_strrchr str '/' = none ∧ '/' ∉ str) ∨
    (∃ pre seg, grub_strrchr str '/' = some ('/' :: seg) ∧ str = pre ++ '/' :: seg ∧
      '/' ∉ seg) := by
  induction str with
  | nil => left; simp [grub_strrchr]
  | cons x rest ih =>
    rcases ih with ⟨hn, hno⟩ | ⟨pre, seg, hs, hsplit, hno⟩
    · by_cases hx : x = '/'
      · right
        refine ⟨[], rest, ?_, ?_, hno⟩
        · simp [grub_strrchr, hn, hx]
        · simp [hx]
      · left
        refine ⟨?_, ?_⟩
        · simp [grub_strrchr, hn, hx]
        · simp only [List.mem_cons, not_or]
          exact ⟨fun h => hx h.symm, hno⟩
    · right
      refine ⟨x :: pre, seg, ?_, ?_, hno⟩
      · simp [grub_strrchr, hs]
      · simp [hsplit]

/-- The string `check_string_removable` compares is the last segment. -/
theorem removable_ptr_eq (str : CStr) :
    (match grub_strrchr str '/' with
      | some r => r.drop 1
      | none => str) = last_segment str := by
  rcases grub_strrchr_slash str with ⟨hn, hno⟩ | ⟨pre, seg, hs, hsplit, hno⟩
  · rw [hn, last_segment_of_no_slash str hno]
  · rw [hs]
    conv_rhs => rw [hsplit, last_segment_of_split pre seg hno]
    rfl

theorem grub_strncmp_eq_iff (ptr lit : CStr) :
    grub_strncmp_eq ptr lit lit.length = true ↔ lit <+: ptr := by
  unfold grub_strncmp_eq
  rw [List.take_length, beq_iff_eq, List.prefix_iff_eq_take]
  exact eq_comm

theorem check_string_removable_iff (str : CStr) :
    check_string_removable str = true ↔
      ("cdrom".toList <+: last_segment str ∨ "fd".toList <+: last_segment str) := by
  unfold check_string_removable
  simp only [removable_ptr_eq, Bool.or_eq_true]
  have h5 := grub_strncmp_eq_iff (last_segment str) "cdrom".toList
  have h2 := grub_strncmp_eq_iff (last_segment str) "fd".toList
  have l5 : "cdrom".toList.length = 5 := by decide
  have l2 : "fd".toList.length = 2 := by decide
  rw [l5] at h5
  rw [l2] at h2
  rw [h5, h2]

/-! ## Lemmas on the hinted add -/

/-- The lookup of the hint in `ofdisk_hash_add`, when it ends with an entry:
that entry is the one `ofdisk_hash_find` gives for the hint afterwards. -/
theorem hint_lookup_found (no_partition_0 : Bool) (mem_can : Allocs) (s1 s2 : Registry)
    (can : CStr) (q : EntPtr)
    (h : (match ofdisk_hash_find s1 can with
          | none => ofdisk_hash_add_real no_partition_0 mem_can s1 can
          | some q => (s1, some q)) = (s2, some q)) :
    ofdisk_hash_find s2 can = some q ∧ ∃ e, deref s2 q = some e := by
  cases hf : ofdisk_hash_find s1 can with
  | some q' =>
    rw [hf] at h
    simp only [Prod.mk.injEq, Option.some.injEq] at h
    obtain ⟨hs, hq⟩ := h
    subst hs hq
    obtain ⟨e, he, -⟩ := find_valid hf
    exact ⟨hf, e, he⟩
  | none =>
    rw [hf] at h
    cases hmem : mem_can.succeeds no_partition_0 with
    | false =>
      rw [add_real_fail no_partition_0 mem_can s1 can hmem] at h
      simp at h
    | true =>
      rw [add_real_ok no_partition_0 mem_can s1 can hmem] at h
      simp only [Prod.mk.injEq, Option.some.injEq] at h
      obtain ⟨hs, hq⟩ := h
      subst hs hq
      exact ⟨find_link_head_same s1 (new_ent no_partition_0 can), _,
        deref_link_head_new s1 (new_ent no_partition_0 can)⟩

/-- What `reassign_shortest` keeps: the lookups, and the `is_removable` flag
of the canonical entry. -/
theorem reassign_shortest_keeps (s s' : Registry) (p : Option EntPtr) (q : EntPtr)
    (devpath : CStr) (h : reassign_shortest s p q devpath = some s') :
    (∀ d, ofdisk_hash_find s' d = ofdisk_hash_find s d) ∧
    (∀ e, deref s q = some e →
      ∃ e', deref s' q = some e' ∧ e'.is_removable = e.is_removable) := by
  unfold reassign_shortest at h
  cases hq : deref s q with
  | none => simp [hq] at h
  | some ecan =>
    simp only [hq] at h
    split at h
    · cases hp : p.bind (deref s) with
      | none => simp [hp] at h
      | some e0 =>
        simp only [hp, Option.some.injEq] at h
        subst h
        refine ⟨fun d => find_store _ _ _ (set_shortest_devpath e0) d, ?_⟩
        intro e he
        cases he
        exact ⟨set_shortest e0 ecan, by rw [deref_store_same, hq]; rfl, rfl⟩
    · simp only [Option.some.injEq] at h
      subst h
      exact ⟨fun _ => rfl, fun e he => ⟨e, hq.trans he, rfl⟩⟩

/-! ## Lemmas on failed allocations in `ofdisk_hash_add` -/

/-- One path of `ofdisk_hash_add` that survives a failed allocation: when the
hint `C` is not registered and its entry cannot be allocated, while the
entry of the path `A` (different from `C`) was allocated and neither string
names a removable device, the function returns the entry of `A` with
`grub_errno` cleared; the registry is the old one with the entry of `A`
linked in, as `ofdisk_hash_add_real` filled it (no designee). -/
theorem add_hint_allocation_failure (no_partition_0 : Bool) (mem mem_can : Allocs)
    (s : Registry) (A C : CStr)
    (hmem : mem.succeeds no_partition_0 = true)
    (hcan : mem_can.succeeds no_partition_0 = false)
    (hAC : A ≠ C) (hC : ofdisk_hash_find s C = none)
    (hA : check_string_removable A = false) (hrem : check_string_removable C = false) :
    ofdisk_hash_add no_partition_0 mem mem_can s A (some C) =
      some ({ link_head s (new_ent no_partition_0 A) with grub_errno := GRUB_ERR_NONE },
            some { bucket := ofdisk_hash_fn A,
                   depth := (s.ofdisk_hash (ofdisk_hash_fn A)).length }) := by
  have hf : ofdisk_hash_find (link_head s (new_ent no_partition_0 A)) C = none := by
    rw [find_link_head_ne s (new_ent no_partition_0 A) C hAC]; exact hC
  unfold ofdisk_hash_add
  rw [add_real_ok no_partition_0 mem s A hmem]
  simp only [hf, add_real_fail no_partition_0 mem_can _ C hcan, hA, hrem, Bool.or_self,
    Bool.false_eq_true, if_false]

/-- The other path of `ofdisk_hash_add` that survives a failed allocation:
when neither the entry of `A` nor that of the unregistered hint `C` can be
allocated and neither string names a removable device, the function returns
NULL with `grub_errno` cleared and the table as it was. -/
theorem add_both_allocations_fail (no_partition_0 : Bool) (mem mem_can : Allocs)
    (s : Registry) (A C : CStr)
    (hmem : mem.succeeds no_partition_0 = false)
    (hcan : mem_can.succeeds no_partition_0 = false)
    (hC : ofdisk_hash_find s C = none)
    (hA : check_string_removable A = false) (hrem : check_string_removable C = false) :
    ofdisk_hash_add no_partition_0 mem mem_can s A (some C) =
      some ({ s with grub_errno := GRUB_ERR_NONE }, none) := by
  have hf : ofdisk_hash_find { s with grub_errno := GRUB_ERR_OUT_OF_MEMORY } C = none := hC
  unfold ofdisk_hash_add
  rw [add_real_fail no_partition_0 mem s A hmem]
  simp only [hf, add_real_fail no_partition_0 mem_can _ C hcan, hA, hrem, Bool.or_self,
    Bool.false_eq_true, if_false]

/-! ## Lemmas on lengths, probe sequences, the boot scope and scans -/

theorem escape_flatMap_length (l : CStr) :
    (l.flatMap (fun c => if c = ',' then ['\\', ','] else [c])).length =
      l.length + l.count ',' := by
  induction l with
  | nil => simp
  | cons c t ih =>
    simp only [List.flatMap_cons, List.length_append, ih, List.length_cons, List.count_cons]
    by_cases hc : c = ','
    · simp [hc]; omega
    · have hb : (c == ',') = false := by simpa using hc
      simp [hc, hb]; omega

theorem make_grub_devpath_length (devpath : CStr) :
    (make_grub_devpath devpath).length = 9 + devpath.length + devpath.count ',' := by
  rw [make_grub_devpath_eq, exposed_name_spec, List.length_append, escape_flatMap_length]
  simp [Nat.add_assoc]

theorem unescape_loop_length : ∀ name : CStr, (unescape_loop name).length ≤ name.length
  | [] => by simp [unescape_loop]
  | [c] => by simp [unescape_loop]
  | c :: d :: name => by
    rw [unescape_loop]
    have h1 := unescape_loop_length name
    have h2 := unescape_loop_length (d :: name)
    split_ifs
    · simp only [List.length_cons]; omega
    · simp only [List.length_cons] at h2 ⊢; omega

theorem probe_run_append (op : ofdisk_hash_ent) (a b : List BlockSizeReply) :
    probe_run op (a ++ b) =
      ((probe_run op a).1 ++ (probe_run (probe_run op a).2 b).1,
       (probe_run (probe_run op a).2 b).2) := by
  induction a generalizing op with
  | nil => simp [probe_run]
  | cons r rest ih => simp [probe_run, ih]

theorem probe_run_frozen (op : ofdisk_hash_ent) (h : 2 ≤ op.block_size_fails)
    (l : List BlockSizeReply) :
    probe_run op l =
      (l.map (fun _ => { err := GRUB_ERR_NONE, block_size := 0, ent := op,
                         fw_called := false }), op) := by
  induction l with
  | nil => simp [probe_run]
  | cons r rest ih =>
    have hp : grub_ofdisk_get_block_size op r =
        { err := GRUB_ERR_NONE, block_size := 0, ent := op, fw_called := false } := by
      unfold grub_ofdisk_get_block_size
      rw [if_pos h]
    simp [probe_run, hp, ih]

theorem probe_counter_le (op : ofdisk_hash_ent) (reply : BlockSizeReply)
    (h : op.block_size_fails ≤ 2) :
    (grub_ofdisk_get_block_size op reply).ent.block_size_fails ≤ 2 := by
  unfold grub_ofdisk_get_block_size
  split_ifs <;> simp <;> omega

theorem probe_run_counter_le (op : ofdisk_hash_ent) (l : List BlockSizeReply)
    (h : op.block_size_fails ≤ 2) :
    (∀ r ∈ (probe_run op l).1, r.ent.block_size_fails ≤ 2) ∧
      (probe_run op l).2.block_size_fails ≤ 2 := by
  induction l generalizing op with
  | nil => simp [probe_run, h]
  | cons r rest ih =>
    have h1 := probe_counter_le op r h
    obtain ⟨h2, h3⟩ := ih _ h1
    simp only [probe_run, List.mem_cons]
    refine ⟨?_, h3⟩
    intro x hx
    rcases hx with hx | hx
    · rw [hx]; exact h1
    · exact h2 x hx

theorem grub_strstr_split (h n suf : CStr) (hs : grub_strstr h n = some suf) :
    ∃ pre, h = pre ++ suf ∧ n <+: suf ∧
      ∀ pre1 post1, h = pre1 ++ n ++ post1 → pre.length ≤ pre1.length := by
  induction h with
  | nil =>
    rw [grub_strstr] at hs
    split_ifs at hs with hn
    cases hs
    exact ⟨[], rfl, by rw [hn], fun _ _ _ => Nat.zero_le _⟩
  | cons c rest ih =>
    rw [grub_strstr] at hs
    by_cases hp : n.isPrefixOf (c :: rest) = true
    · rw [if_pos hp] at hs
      cases hs
      exact ⟨[], rfl, List.isPrefixOf_iff_prefix.mp hp, fun _ _ _ => Nat.zero_le _⟩
    · rw [if_neg hp] at hs
      obtain ⟨pre, h1, h2, h3⟩ := ih hs
      refine ⟨c :: pre, by rw [h1]; rfl, h2, ?_⟩
      intro pre1 post1 he
      cases pre1 with
      | nil =>
        exfalso
        apply hp
        rw [List.isPrefixOf_iff_prefix]
        exact ⟨post1, by simpa using he.symm⟩
      | cons d pre2 =>
        simp only [List.cons_append, List.cons.injEq] at he
        have := h3 pre2 post1 (by simpa using he.2)
        simp only [List.length_cons]
        omega

theorem grub_strstr_take (h n suf : CStr) (hs : grub_strstr h n = some suf) :
    before_first n h (h.take (h.length - suf.length)) ∧
      h.take (h.length - suf.length) <+: h := by
  obtain ⟨pre, h1, ⟨post, h2⟩, h3⟩ := grub_strstr_split h n suf hs
  have ht : h.take (h.length - suf.length) = pre := by
    conv_lhs => rw [h1]
    simp
  rw [ht]
  refine ⟨⟨⟨post, ?_⟩, h3⟩, ⟨suf, h1.symm⟩⟩
  rw [h1, ← h2, List.append_assoc]

theorem grub_strstr_none (h n : CStr) : grub_strstr h n = none ↔ ¬ n <:+: h := by
  rw [← grub_strstr_isSome]
  cases grub_strstr h n <;> simp

theorem find_isSome_link_head (s : Registry) (e : ofdisk_hash_ent) (d : CStr)
    (h : (ofdisk_hash_find s d).isSome = true) :
    (ofdisk_hash_find (link_head s e) d).isSome = true := by
  by_cases he : e.devpath = d
  · rw [← he, find_link_head_same]; rfl
  · rw [find_link_head_ne s e d he]; exact h

theorem find_isSome_add_real (no_partition_0 : Bool) (mem : Allocs) (s : Registry)
    (devpath d : CStr) (h : (ofdisk_hash_find s d).isSome = true) :
    (ofdisk_hash_find (ofdisk_hash_add_real no_partition_0 mem s devpath).1 d).isSome = true := by
  cases hm : mem.succeeds no_partition_0 with
  | true => rw [add_real_ok _ _ _ _ hm]; exact find_isSome_link_head s _ d h
  | false => rw [add_real_fail _ _ _ _ hm]; exact h

/-- Whatever the allocations do, `ofdisk_hash_add` with a hint keeps every
registered path registered. -/
theorem find_isSome_add (no_partition_0 : Bool) (mem mem_can : Allocs) (s s' : Registry)
    (A C d : CStr) (r : Option EntPtr)
    (hadd : ofdisk_hash_add no_partition_0 mem mem_can s A (some C) = some (s', r))
    (h : (ofdisk_hash_find s d).isSome = true) :
    (ofdisk_hash_find s' d).isSome = true := by
  unfold ofdisk_hash_add at hadd
  have h1 := find_isSome_add_real no_partition_0 mem s A d h
  generalize ofdisk_hash_add_real no_partition_0 mem s A = r1 at hadd h1
  obtain ⟨s1, p⟩ := r1
  simp only at hadd h1
  have h2 : (ofdisk_hash_find (match ofdisk_hash_find s1 C with
      | none => ofdisk_hash_add_real no_partition_0 mem_can s1 C
      | some q => (s1, some q)).1 d).isSome = true := by
    cases hf : ofdisk_hash_find s1 C with
    | none => exact find_isSome_add_real no_partition_0 mem_can s1 C d h1
    | some q => exact h1
  generalize (match ofdisk_hash_find s1 C with
      | none => ofdisk_hash_add_real no_partition_0 mem_can s1 C
      | some q => (s1, some q)) = r2 at hadd h2
  obtain ⟨s2, pcan⟩ := r2
  simp only at hadd h2
  cases pcan with
  | none =>
    simp only at hadd
    split_ifs at hadd
    simp only [Option.some.injEq, Prod.mk.injEq] at hadd
    rw [← hadd.1]; exact h2
  | some q =>
    simp only [Option.map_eq_some'] at hadd
    obtain ⟨s4, hre, heq⟩ := hadd
    simp only [Prod.mk.injEq] at heq
    rw [← heq.1, (reassign_shortest_keeps _ _ _ _ _ hre).1 d,
      (mark_keeps s2 q _).1 d]
    exact h2

theorem dev_iterate_real_registered (no_partition_0 dup_name_ok dup_path_ok : Bool)
    (mem mem_can : Allocs) (s : Registry) (name path : CStr)
    (h : (ofdisk_hash_find s path).isSome = true) :
    dev_iterate_real no_partition_0 dup_name_ok dup_path_ok mem mem_can s name path = some s := by
  unfold dev_iterate_real
  cases hf : ofdisk_hash_find s path with
  | none => rw [hf] at h; cases h
  | some q => rfl

theorem dev_iterate_real_keeps (no_partition_0 dup_name_ok dup_path_ok : Bool)
    (mem mem_can : Allocs) (s s1 : Registry) (name path d : CStr)
    (hrun : dev_iterate_real no_partition_0 dup_name_ok dup_path_ok mem mem_can s name path
      = some s1)
    (h : (ofdisk_hash_find s d).isSome = true) :
    (ofdisk_hash_find s1 d).isSome = true := by
  unfold dev_iterate_real at hrun
  cases hf : ofdisk_hash_find s path with
  | some q =>
    simp only [hf, Option.some.injEq] at hrun
    rw [← hrun]; exact h
  | none =>
    simp only [hf] at hrun
    split_ifs at hrun
    · simp only [Option.some.injEq] at hrun
      rw [← hrun]; exact h
    · simp only [Option.map_eq_some'] at hrun
      obtain ⟨⟨s2, r⟩, hadd, heq⟩ := hrun
      simp only at heq
      rw [← heq]
      exact find_isSome_add _ _ _ _ _ _ _ _ _ hadd h

theorem dev_iterate_real_registers (no_partition_0 : Bool) (mem mem_can : Allocs)
    (hmem : mem.succeeds no_partition_0 = true) (hcan : mem_can.succeeds no_partition_0 = true)
    (s : Registry) (name path : CStr) :
    ∃ s1, dev_iterate_real no_partition_0 true true mem mem_can s name path = some s1 ∧
      (ofdisk_hash_find s1 path).isSome = true := by
  cases hf : ofdisk_hash_find s path with
  | some q =>
    refine ⟨s, dev_iterate_real_registered _ _ _ _ _ _ _ _ (by rw [hf]; rfl), by rw [hf]; rfl⟩
  | none =>
    obtain ⟨s', r, hadd, hdes⟩ := add_hint_fresh no_partition_0 mem mem_can s name path hmem hcan hf
    refine ⟨s', ?_, ?_⟩
    · unfold dev_iterate_real
      simp [hf, hadd]
    · unfold designee at hdes
      cases hq : ofdisk_hash_find s' path with
      | none => simp [hq] at hdes
      | some q => rfl

theorem allocs_ok_succeeds (no_partition_0 : Bool) :
    Allocs.ok.succeeds no_partition_0 = true := by
  cases no_partition_0 <;> rfl

/-- After a scan every path it offered is registered, and what was registered
before still is. -/
theorem scan_registrations_registered (no_partition_0 : Bool) (l : List (CStr × CStr)) :
    ∀ s, ∃ s1, scan_registrations no_partition_0 s l = some s1 ∧
      (∀ d, (ofdisk_hash_find s d).isSome = true → (ofdisk_hash_find s1 d).isSome = true) ∧
      ∀ x ∈ l, (ofdisk_hash_find s1 x.2).isSome = true := by
  induction l with
  | nil => intro s; exact ⟨s, rfl, fun _ h => h, by simp⟩
  | cons x rest ih =>
    intro s
    obtain ⟨name, path⟩ := x
    obtain ⟨s1, h1, h2⟩ := dev_iterate_real_registers no_partition_0 Allocs.ok Allocs.ok
      (allocs_ok_succeeds _) (allocs_ok_succeeds _) s name path
    obtain ⟨s2, h3, h4, h5⟩ := ih s1
    refine ⟨s2, ?_, ?_, ?_⟩
    · simp [scan_registrations, h1, h3]
    · intro d hd
      exact h4 d (dev_iterate_real_keeps _ _ _ _ _ _ _ _ _ _ h1 hd)
    · intro y hy
      rcases List.mem_cons.mp hy with hy | hy
      · rw [hy]; exact h4 path h2
      · exact h5 y hy

/-- A scan over paths that are all registered changes nothing. -/
theorem scan_registrations_noop (no_partition_0 : Bool) (l : List (CStr × CStr)) (s : Registry)
    (h : ∀ x ∈ l, (ofdisk_hash_find s x.2).isSome = true) :
    scan_registrations no_partition_0 s l = some s := by
  induction l with
  | nil => rfl
  | cons x rest ih =>
    obtain ⟨name, path⟩ := x
    have h1 := dev_iterate_real_registered no_partition_0 true true Allocs.ok Allocs.ok s name
      path (h (name, path) (List.mem_cons_self _ _))
    simp only [scan_registrations, h1, Option.some_bind]
    exact ih (fun y hy => h y (List.mem_cons_of_mem _ hy))

/-! ## Lemmas on the enumerators -/

theorem run_handles_append (live : List Nat) (a b : List ScanEvent) :
    run_handles live (a ++ b) = run_handles (run_handles live a) b := by
  simp [run_handles, scan_fw_calls, List.filterMap_append, List.foldl_append]

theorem run_handles_nil (live : List Nat) : run_handles live [] = live := rfl

theorem run_handles_register (live : List Nat) (name path : CStr) (rest : List ScanEvent) :
    run_handles live (ScanEvent.register name path :: rest) = run_handles live rest := by
  simp [run_handles, scan_fw_calls]

theorem run_handles_call_method (live : List Nat) (method : CStr) (h : Nat)
    (rest : List ScanEvent) :
    run_handles live (ScanEvent.call_method method h :: rest) = run_handles live rest := by
  simp [run_handles, scan_fw_calls]

theorem run_handles_failed_open (live : List Nat) (path : Option CStr)
    (rest : List ScanEvent) :
    run_handles live (ScanEvent.fw (FwCall.fw_open path 0) :: rest) = run_handles live rest := by
  simp [run_handles, scan_fw_calls, track_handle]

theorem run_handles_open (live : List Nat) (path : Option CStr) (h : Nat) (hh : h ≠ 0)
    (rest : List ScanEvent) :
    run_handles live (ScanEvent.fw (FwCall.fw_open path h) :: rest) =
      run_handles (h :: live) rest := by
  simp [run_handles, scan_fw_calls, track_handle, hh]

theorem run_handles_close (live : List Nat) (h : Nat) (rest : List ScanEvent) :
    run_handles (h :: live) (ScanEvent.fw (FwCall.fw_close h) :: rest) =
      run_handles live rest := by
  simp [run_handles, scan_fw_calls, track_handle]

/-- A run of registrations touches no handle. -/
theorem run_handles_registrations {α : Type} (live : List Nat) (l : List α)
    (f : α → CStr) :
    run_handles live (l.map (fun x => ScanEvent.register (f x) (f x))) = live := by
  induction l with
  | nil => rfl
  | cons x rest ih => rw [List.map_cons, run_handles_register, ih]

theorem nvmeof_namespaces_handles (live : List Nat) (base : CStr) :
    ∀ (namespaces : List Nat) (buf : CStr),
      run_handles live (nvmeof_namespaces base buf namespaces) = live
  | [], buf => by simp [nvmeof_namespaces, run_handles_register, run_handles_nil]
  | id :: rest, buf => by
    simp only [nvmeof_namespaces, run_handles_register]
    exact nvmeof_namespaces_handles live base rest _

theorem nvmeof_controllers_handles (fw : ScanFirmware) (path : CStr) (live : List Nat) :
    ∀ entries, run_handles live (nvmeof_controllers fw path entries) = live
  | [] => rfl
  | c :: rest => by
    rw [nvmeof_controllers, run_handles_append, nvmeof_controllers_handles fw path _ rest]
    by_cases hh : fw.ihandle_of (path ++ nvmeof_controller_suffix c.wwpn c.nqn) = 0
    · simp only [hh, if_true, run_handles_failed_open, run_handles_nil]
    · simp only [hh, if_false]
      cases fw.get_namespace_list (path ++ nvmeof_controller_suffix c.wwpn c.nqn) with
      | none =>
        simp only [run_handles_open _ _ _ hh, run_handles_call_method, run_handles_close,
          run_handles_nil]
      | some namespaces =>
        simp only [List.cons_append, List.nil_append, run_handles_open _ _ _ hh,
          run_handles_call_method, run_handles_close, nvmeof_namespaces_handles]

theorem nvmeof_discovery_handles (fw : ScanFirmware) (table_ok : Bool) (path : CStr)
    (live : List Nat) :
    ∀ table events, nvmeof_discovery fw table_ok path table = some events →
      run_handles live events = live
  | [], events, h => by
    simp only [nvmeof_discovery, Option.some.injEq] at h
    rw [← h]; rfl
  | id :: rest, events, h => by
    simp only [nvmeof_discovery, Option.bind_eq_some, Option.map_eq_some'] at h
    obtain ⟨here, h1, more, h2, h3⟩ := h
    rw [← h3, run_handles_append, nvmeof_discovery_handles fw table_ok path _ rest more h2]
    by_cases hh : fw.ihandle_of (path ++ nvmeof_discovery_suffix id) = 0
    · simp only [hh, if_true, Option.some.injEq] at h1
      rw [← h1, run_handles_failed_open, run_handles_nil]
    · simp only [hh, if_false] at h1
      cases hc : fw.nvme_controllers (path ++ nvmeof_discovery_suffix id) with
      | none =>
        simp only [hc, Option.some.injEq] at h1
        rw [← h1]
        simp only [run_handles_open _ _ _ hh, run_handles_call_method, run_handles_close,
          run_handles_nil]
      | some entries =>
        simp only [hc] at h1
        split_ifs at h1
        simp only [Option.some.injEq] at h1
        rw [← h1]
        simp only [List.cons_append, List.nil_append, run_handles_open _ _ _ hh,
          run_handles_call_method, run_handles_close, nvmeof_controllers_handles]

/-- When it returns, `dev_iterate_fcp_nvmeof` has closed every handle it
opened. -/
theorem fcp_nvmeof_handles (fw : ScanFirmware) (table_ok buf_ok : Bool) (stack_ihandle : Nat)
    (path : CStr) (events : List ScanEvent)
    (h : dev_iterate_fcp_nvmeof fw table_ok buf_ok stack_ihandle path = some events) :
    run_handles [] events = [] := by
  unfold dev_iterate_fcp_nvmeof at h
  cases buf_ok with
  | false =>
    simp only [Bool.not_false, if_true, Option.some.injEq] at h
    rw [← h]
    simp [run_handles, scan_fw_calls, track_handle]
  | true =>
    simp only [Bool.not_true, Bool.false_eq_true, if_false] at h
    by_cases hh : fw.ihandle_of (path ++ grub_snprintf 32 "/nvme-of".toList) = 0
    · simp only [hh, if_true, Option.some.injEq] at h
      rw [← h, run_handles_failed_open, run_handles_nil]
    · simp only [hh, if_false] at h
      cases hd : fw.nvme_discovery_controllers (path ++ grub_snprintf 32 "/nvme-of".toList) with
      | none =>
        simp only [hd, Option.some.injEq] at h
        rw [← h]
        simp only [run_handles_open _ _ _ hh, run_handles_call_method, run_handles_close,
          run_handles_nil]
      | some table =>
        simp only [hd, Option.map_eq_some'] at h
        obtain ⟨more, h1, h2⟩ := h
        rw [← h2]
        simp only [List.cons_append, List.nil_append, run_handles_open _ _ _ hh,
          run_handles_call_method, run_handles_close]
        exact nvmeof_discovery_handles fw table_ok path [] table more h1

theorem fcp_disks_targets_handles (fw : ScanFirmware) (path : CStr) (ihandle : Nat)
    (live : List Nat) :
    ∀ wwpns, run_handles (ihandle :: live)
      ((fcp_disks_targets fw path ihandle wwpns).1 ++
        (if (fcp_disks_targets fw path ihandle wwpns).2 = true then
          [ScanEvent.fw (FwCall.fw_close ihandle)] else [])) = live
  | [] => by
    simp only [fcp_disks_targets, if_true, List.nil_append, run_handles_close, run_handles_nil]
  | wwpn :: rest => by
    rw [fcp_disks_targets]
    cases fw.fcp_luns path (wwpn % 2 ^ 64) with
    | none =>
      simp only [Bool.false_eq_true, if_false, List.append_nil, run_handles_call_method,
        run_handles_close, run_handles_nil]
    | some luns_table =>
      simp only [List.cons_append, run_handles_call_method, List.append_assoc]
      rw [run_handles_append, run_handles_registrations]
      exact fcp_disks_targets_handles fw path ihandle live rest

/-- The function `dev_iterate_fcp_disks` closes the handle it opened on every path. -/
theorem fcp_disks_handles (fw : ScanFirmware) (buf_ok : Bool) (path : CStr) :
    run_handles [] (dev_iterate_fcp_disks fw buf_ok path) = [] := by
  unfold dev_iterate_fcp_disks
  by_cases hh : fw.ihandle_of path = 0
  · simp only [hh, if_true, run_handles_failed_open, run_handles_nil]
  · simp only [hh, if_false]
    cases fw.fcp_targets path with
    | none =>
      simp only [run_handles_open _ _ _ hh, run_handles_call_method, run_handles_close,
        run_handles_nil]
    | some targets_table =>
      cases buf_ok with
      | false =>
        simp only [Bool.not_false, if_true, run_handles_open _ _ _ hh, run_handles_call_method,
          run_handles_close, run_handles_nil]
      | true =>
        simp only [Bool.not_true, Bool.false_eq_true, if_false, List.cons_append,
          List.nil_append, List.append_assoc, run_handles_open _ _ _ hh,
          run_handles_call_method]
        exact fcp_disks_targets_handles fw path _ [] _

/-- The `sas_ioa` branch closes the handle it opened on every path. -/
theorem sas_ioa_handles (fw : ScanFirmware) (buf_ok table_ok : Bool) (path : CStr) :
    run_handles [] (dev_iterate_sas_ioa fw buf_ok table_ok path).1 = [] := by
  unfold dev_iterate_sas_ioa
  cases buf_ok <;> cases table_ok <;>
    simp only [Bool.not_false, Bool.not_true, if_true, Bool.false_eq_true, if_false,
      run_handles_nil]
  by_cases hh : fw.ihandle_of path = 0
  · simp only [hh, if_true, run_handles_failed_open, run_handles_nil]
  · simp only [hh, if_false]
    cases fw.get_sas_children path with
    | none =>
      simp only [run_handles_open _ _ _ hh, run_handles_call_method, run_handles_close,
        run_handles_nil]
    | some table =>
      simp only [List.cons_append, List.nil_append, List.append_assoc,
        run_handles_open _ _ _ hh, run_handles_call_method]
      rw [run_handles_append, run_handles_registrations, run_handles_close, run_handles_nil]

/-- What the namespace loop and the call after it register: one path per
namespace, then once more the content of the buffer, which is the path of
the last namespace when there is one. -/
theorem nvmeof_namespaces_registered (base : CStr) :
    ∀ (namespaces : List Nat) (buf : CStr),
      scan_registered (nvmeof_namespaces base buf namespaces) =
        (namespaces.map (fun id => (base ++ nvmeof_namespace_suffix id,
                                    base ++ nvmeof_namespace_suffix id))) ++
        [((namespaces.map (fun id => base ++ nvmeof_namespace_suffix id)).getLastD buf,
          (namespaces.map (fun id => base ++ nvmeof_namespace_suffix id)).getLastD buf)]
  | [], buf => by simp [nvmeof_namespaces, scan_registered]
  | id :: rest, buf => by
    have ih := nvmeof_namespaces_registered base rest (base ++ nvmeof_namespace_suffix id)
    simp only [nvmeof_namespaces, List.map_cons, List.getLastD_cons, List.cons_append]
    rw [← ih]
    simp [scan_registered]

/-! ## Lemmas on opening a disk -/

theorem chain_get_mem {l : List ofdisk_hash_ent} {d : Nat} {e : ofdisk_hash_ent}
    (h : chain_get l d = some e) : e ∈ l := by
  induction l with
  | nil => simp [chain_get] at h
  | cons p next ih =>
    simp only [chain_get] at h
    by_cases hd : d = next.length
    · simp only [hd, if_true, Option.some.injEq] at h
      rw [← h]; exact List.mem_cons_self _ _
    · simp only [hd, if_false] at h
      exact List.mem_cons_of_mem _ (ih h)

theorem chain_modify_mem (f : ofdisk_hash_ent → ofdisk_hash_ent) {l : List ofdisk_hash_ent}
    {d : Nat} {e : ofdisk_hash_ent} (h : e ∈ chain_modify f l d) :
    ∃ e0 ∈ l, e = e0 ∨ e = f e0 := by
  induction l with
  | nil => simp [chain_modify] at h
  | cons p next ih =>
    simp only [chain_modify] at h
    by_cases hd : d = next.length
    · simp only [hd, if_true, List.mem_cons] at h
      rcases h with h | h
      · exact ⟨p, List.mem_cons_self _ _, Or.inr h⟩
      · exact ⟨e, List.mem_cons_of_mem _ h, Or.inl rfl⟩
    · simp only [hd, if_false, List.mem_cons] at h
      rcases h with h | h
      · exact ⟨p, List.mem_cons_self _ _, Or.inl h⟩
      · obtain ⟨e0, h0, h1⟩ := ih h
        exact ⟨e0, List.mem_cons_of_mem _ h0, h1⟩

theorem store_bucket_mem (s : Registry) (q : EntPtr) (f : ofdisk_hash_ent → ofdisk_hash_ent)
    (b : Nat) (e : ofdisk_hash_ent) (h : e ∈ (store s q f).ofdisk_hash b) :
    ∃ e0 ∈ s.ofdisk_hash b, e = e0 ∨ e = f e0 := by
  unfold store at h
  by_cases hb : b = q.bucket
  · simp only [hb, if_true] at h
    rw [hb]
    exact chain_modify_mem f h
  · simp only [hb, if_false] at h
    exact ⟨e, h, Or.inl rfl⟩

/-- With the flag clear, reading the freed blocks changes no `open_path`. -/
theorem reread_freed_open_path (heap : EntPtr → CStr) (freed : List EntPtr) :
    ∀ (s : Registry) (b : Nat) (e : ofdisk_hash_ent),
      e ∈ (reread_freed false heap freed s).ofdisk_hash b →
      ∃ e0 ∈ s.ofdisk_hash b, e.open_path = e0.open_path := by
  induction freed with
  | nil => intro s b e h; exact ⟨e, h, rfl⟩
  | cons q rest ih =>
    intro s b e h
    have h1 : e ∈ (reread_freed false heap rest
        (store s q (reread_entry false (heap q)))).ofdisk_hash b := h
    obtain ⟨e1, he1, hp1⟩ := ih _ b e h1
    obtain ⟨e0, he0, hcase⟩ := store_bucket_mem s q _ b e1 he1
    refine ⟨e0, he0, ?_⟩
    rcases hcase with hcase | hcase
    · rw [hp1, hcase]
    · rw [hp1, hcase]; rfl

theorem reread_cache_clear (heap : EntPtr → CStr) (freed : List EntPtr) (c : HandleCache) :
    reread_cache false heap freed c = c := by
  unfold reread_cache
  cases c.last_devpath <;> rfl

theorem reread_cache_no_freed (no_partition_0 : Bool) (heap : EntPtr → CStr)
    (c : HandleCache) : reread_cache no_partition_0 heap [] c = c := by
  unfold reread_cache
  cases c.last_devpath <;> cases no_partition_0 <;> rfl

/-- With nothing freed, `grub_ofdisk_open_real` does not depend on the
contents of freed blocks. -/
theorem open_real_no_freed (no_partition_0 alloc_ok : Bool) (mem : Allocs)
    (heap heap_add heap' heap_add' : EntPtr → CStr) (st : OfdiskState) (name : CStr)
    (disk : grub_disk) (fw : OpenFirmware) (h : st.freed = []) :
    grub_ofdisk_open_real no_partition_0 alloc_ok mem heap heap_add st name disk fw =
      grub_ofdisk_open_real no_partition_0 alloc_ok mem heap' heap_add' st name disk fw := by
  unfold grub_ofdisk_open_real
  simp only [h, reread_freed, List.foldl_nil, reread_cache_no_freed]

theorem probe_err_none (e : ofdisk_hash_ent) (reply : BlockSizeReply) :
    (grub_ofdisk_get_block_size e reply).err = GRUB_ERR_NONE := by
  unfold grub_ofdisk_get_block_size
  split_ifs <;> rfl

theorem probe_block_size_call_failed (e : ofdisk_hash_ent) (reply : BlockSizeReply)
    (h : reply.call_failed = true) : (grub_ofdisk_get_block_size e reply).block_size = 0 := by
  unfold grub_ofdisk_get_block_size
  by_cases h2 : e.block_size_fails ≥ 2
  · rw [if_pos h2]
  · rw [if_neg h2, if_pos h]

/-- The probe never reports an error, so `finish` always sets a sector size;
it is 9 when the `block-size` request fails. -/
theorem open_real_sector_size_ok (e : ofdisk_hash_ent) (reply : BlockSizeReply) :
    ∃ lss, (open_real_sector_size e reply).1 = Except.ok lss ∧
      (reply.call_failed = true → lss = 9) := by
  unfold open_real_sector_size
  have herr := probe_err_none e reply
  have hne : ¬ (grub_ofdisk_get_block_size e reply).err ≠ GRUB_ERR_NONE := fun h => h herr
  simp only [if_neg hne]
  by_cases hbs : (grub_ofdisk_get_block_size e reply).block_size ≠ 0
  · rw [if_pos hbs]
    exact ⟨_, rfl, fun h => absurd (probe_block_size_call_failed e reply h) hbs⟩
  · rw [if_neg hbs]
    exact ⟨_, rfl, fun _ => rfl⟩

/-- With the flag clear, the lookup of `grub_ofdisk_open_real` yields an
entry whose `open_path` is `devpath` followed by `:0`, provided the entries
of the bucket of `devpath` all have that `open_path`. -/
theorem open_real_lookup_open_path (mem : Allocs) (s0 : Registry) (devpath : CStr)
    (hmem : mem.succeeds false = true)
    (hb : ∀ e ∈ s0.ofdisk_hash (ofdisk_hash_fn devpath),
      e.open_path = make_open_path false devpath) :
    ∃ s1 op e, open_real_lookup false mem s0 devpath = some (s1, some op) ∧
      deref s1 op = some e ∧ e.open_path = make_open_path false devpath := by
  unfold open_real_lookup
  cases hf : ofdisk_hash_find s0 devpath with
  | some op =>
    obtain ⟨e, he, _⟩ := find_valid hf
    refine ⟨s0, op, e, rfl, he, ?_⟩
    have hbk : op.bucket = ofdisk_hash_fn devpath := by
      unfold ofdisk_hash_find at hf
      cases hc : chain_find devpath (s0.ofdisk_hash (ofdisk_hash_fn devpath)) with
      | none => simp [hc] at hf
      | some d =>
        simp only [hc, Option.map_some', Option.some.injEq] at hf
        rw [← hf]
    unfold deref at he
    rw [hbk] at he
    exact hb e (chain_get_mem he)
  | none =>
    simp only
    unfold ofdisk_hash_add
    rw [add_real_ok false mem s0 devpath hmem]
    simp only
    have hnew := deref_link_head_new s0 (new_ent false devpath)
    have hd : (new_ent false devpath).devpath = devpath := rfl
    rw [hd] at hnew
    have h2 := deref_store_keeps (link_head s0 (new_ent false devpath))
      { bucket := ofdisk_hash_fn devpath,
        depth := (s0.ofdisk_hash (ofdisk_hash_fn devpath)).length }
      { bucket := ofdisk_hash_fn devpath,
        depth := (s0.ofdisk_hash (ofdisk_hash_fn devpath)).length }
      (fun e => set_shortest e e) (new_ent false devpath) hnew
    simp only [if_true] at h2
    by_cases hr : check_string_removable devpath = true
    · simp only [hr, if_true]
      have h3 := deref_store_keeps _
        { bucket := ofdisk_hash_fn devpath,
          depth := (s0.ofdisk_hash (ofdisk_hash_fn devpath)).length }
        { bucket := ofdisk_hash_fn devpath,
          depth := (s0.ofdisk_hash (ofdisk_hash_fn devpath)).length }
        mark_removable _ h2
      simp only [if_true] at h3
      exact ⟨_, _,
        mark_removable (set_shortest (new_ent false devpath) (new_ent false devpath)),
        rfl, h3, rfl⟩
    · simp only [hr, Bool.false_eq_true, if_false]
      exact ⟨_, _, _, rfl, h2, rfl⟩

/-- The cache hit of `grub_ofdisk_open_real`, with the flag clear: when
`last_devpath` reads as the open path of the name, the function returns
`GRUB_ERR_NONE` without any call on a handle, whatever the firmware would
answer for `device_type`, and whatever the freed blocks hold. -/
theorem open_real_cache_hit (mem : Allocs) (heap heap_add : EntPtr → CStr)
    (st : OfdiskState) (name : CStr) (disk : grub_disk) (fw : OpenFirmware) (last : StrPtr)
    (hname : grub_strncmp_eq name "ieee1275/".toList 9 = true)
    (hmem : mem.succeeds false = true)
    (hlast : st.cache.last_devpath = some last)
    (hstr : last.str = make_open_path false (unescape_loop (name.drop 9)))
    (hb : ∀ e ∈ st.registry.ofdisk_hash (ofdisk_hash_fn (unescape_loop (name.drop 9))),
      e.open_path = make_open_path false (unescape_loop (name.drop 9))) :
    ∃ r, grub_ofdisk_open_real false true mem heap heap_add st name disk fw = some r ∧
      r.err = GRUB_ERR_NONE ∧ r.calls = [] ∧ r.state.cache = st.cache ∧
      r.disk.data.map (fun p => p.str) =
        some (make_open_path false (unescape_loop (name.drop 9))) ∧
      (fw.reply.call_failed = true → r.disk.log_sector_size = 9) := by
  have hb0 : ∀ e ∈ (reread_freed false heap st.freed st.registry).ofdisk_hash
      (ofdisk_hash_fn (unescape_loop (name.drop 9))),
      e.open_path = make_open_path false (unescape_loop (name.drop 9)) := by
    intro e he
    obtain ⟨e0, he0, hp⟩ := reread_freed_open_path heap st.freed st.registry _ e he
    rw [hp]; exact hb e0 he0
  obtain ⟨s1, op, e, hl, he, hop⟩ := open_real_lookup_open_path mem _ _ hmem hb0
  obtain ⟨lss, hlss, h9⟩ := open_real_sector_size_ok e fw.reply
  have hens : ∀ fw_result, open_real_ensure st.cache (open_path_ptr op e) fw_result =
      (st.cache, [], CacheStep.hit) := by
    intro fw_result
    unfold open_real_ensure
    have : (open_path_ptr op e).str = last.str := by
      rw [hstr, ← hop]; rfl
    simp only [hlast, this, if_true]
  unfold grub_ofdisk_open_real
  simp only [hname, Bool.not_true, Bool.false_eq_true, if_false, compute_dev_path, if_true, hl,
    he, reread_cache_clear, hens]
  refine ⟨_, rfl, ?_⟩
  unfold open_real_finish
  simp only [hlss]
  refine ⟨trivial, trivial, trivial, ?_, h9⟩
  show some (open_path_ptr op e).str = _
  rw [← hop]; rfl

/-- The lookup of `grub_ofdisk_open_real` never yields NULL: it faults
before. -/
theorem open_real_lookup_ptr (no_partition_0 : Bool) (mem : Allocs) (s s1 : Registry)
    (devpath : CStr) (r : Option EntPtr)
    (h : open_real_lookup no_partition_0 mem s devpath = some (s1, r)) : r.isSome = true := by
  unfold open_real_lookup at h
  cases hf : ofdisk_hash_find s devpath with
  | some op =>
    simp only [hf, Option.some.injEq, Prod.mk.injEq] at h
    rw [← h.2]; rfl
  | none =>
    simp only [hf] at h
    unfold ofdisk_hash_add at h
    cases hm : mem.succeeds no_partition_0 with
    | false =>
      rw [add_real_fail _ _ _ _ hm] at h
      simp at h
    | true =>
      rw [add_real_ok _ _ _ _ hm] at h
      simp only [Option.some.injEq, Prod.mk.injEq] at h
      rw [← h.2]; rfl

/-- With nothing in the handle cache, `grub_ofdisk_open_real` returns
`GRUB_ERR_UNKNOWN_DEVICE` for a device whose `device_type` is not `block`,
when it returns and `compute_dev_path` could allocate. -/
theorem open_real_rejects_from_empty_cache (no_partition_0 : Bool) (mem : Allocs)
    (heap heap_add : EntPtr → CStr) (st : OfdiskState) (name : CStr) (disk : grub_disk)
    (fw : OpenFirmware) (r : OpenResult)
    (hcache : st.cache.last_devpath = none)
    (htype : fw.device_type ≠ some "block".toList)
    (h : grub_ofdisk_open_real no_partition_0 true mem heap heap_add st name disk fw = some r) :
    r.err = GRUB_ERR_UNKNOWN_DEVICE := by
  have hrc : ∀ hp : EntPtr → CStr, reread_cache no_partition_0 hp st.freed st.cache = st.cache := by
    intro hp
    unfold reread_cache
    rw [hcache]
  unfold grub_ofdisk_open_real at h
  by_cases hpre : (!grub_strncmp_eq name "ieee1275/".toList 9) = true
  · rw [if_pos hpre] at h
    simp only [Option.some.injEq] at h
    rw [← h]; rfl
  · rw [if_neg hpre] at h
    simp only [compute_dev_path, if_true] at h
    cases hl : open_real_lookup no_partition_0 mem
        (reread_freed no_partition_0 heap st.freed st.registry)
        (unescape_loop (name.drop 9)) with
    | none => simp [hl] at h
    | some res =>
      obtain ⟨s1, p⟩ := res
      have hp := open_real_lookup_ptr _ _ _ _ _ _ hl
      cases p with
      | none => cases hp
      | some op =>
        simp only [hl] at h
        cases he : deref s1 op with
        | none => simp [he] at h
        | some e =>
          simp only [he, hrc, open_real_ensure, hcache, reopen] at h
          by_cases hfw : fw.fw_result = 0
          · simp only [hfw, if_true, Option.some.injEq] at h
            rw [← h]; rfl
          · simp only [hfw, if_false] at h
            by_cases hfind : (!fw.finddevice_ok) = true
            · rw [if_pos hfind] at h
              simp only [Option.some.injEq] at h
              rw [← h]; rfl
            · rw [if_neg hfind] at h
              cases hd : fw.device_type with
              | none =>
                simp only [hd, Option.some.injEq] at h
                rw [← h]; rfl
              | some prop =>
                simp only [hd] at h
                have hne : prop ≠ "block".toList := fun hb => htype (by rw [hd, hb])
                rw [if_pos hne] at h
                simp only [Option.some.injEq] at h
                rw [← h]; rfl

/-- The freed `devpath` block at work: `/pci@0/disk@1` is opened, then
`/pci@0/disk@9`, whose path falls in the same bucket.  When the allocator
gives `compute_dev_path` the block the first call freed, the first entry
reads as `/pci@0/disk@9`, the lookup returns it, and the second disk is
served through the open path and the handle of the first, without any
open.  When the block still holds the first path, the second disk gets an
entry and a handle of its own. -/
theorem open_real_reused_block :
    open_two_disks "ieee1275//pci@0/disk@1".toList "ieee1275//pci@0/disk@9".toList
      (fun _ => "/pci@0/disk@9".toList) =
      some ((GRUB_ERR_NONE, 1), (GRUB_ERR_NONE, [], some "/pci@0/disk@1:0".toList)) ∧
    open_two_disks "ieee1275//pci@0/disk@1".toList "ieee1275//pci@0/disk@9".toList
      (fun _ => "/pci@0/disk@1".toList) =
      some ((GRUB_ERR_NONE, 1),
        (GRUB_ERR_NONE,
         [FwCall.fw_close 5, FwCall.fw_open (some "/pci@0/disk@9:0".toList) 6],
         some "/pci@0/disk@9:0".toList)) := by
  refine ⟨by decide, by decide⟩

/-! ## The claims -/

/-- C1 (as amended): with the hint `C` not registered yet and `B` different
from `C`, after `ofdisk_hash_add (A, C)` and `ofdisk_hash_add (B, C)`, all
allocations succeeding, both calls return and the designee of the group of
`C` is the first path of minimal length among `A` and `B`; the hint `C`
itself is not a candidate. -/
theorem designee_after_two_adds (no_partition_0 : Bool) (memA memC memB memX : Allocs)
    (s : Registry) (A B C : CStr)
    (hA : memA.succeeds no_partition_0 = true) (hcan : memC.succeeds no_partition_0 = true)
    (hB : memB.succeeds no_partition_0 = true)
    (hC : ofdisk_hash_find s C = none) (hBC : B ≠ C) :
    ∃ s1 r1 s2 r2,
      ofdisk_hash_add no_partition_0 memA memC s A (some C) = some (s1, r1) ∧
      ofdisk_hash_add no_partition_0 memB memX s1 B (some C) = some (s2, r2) ∧
      designee s2 C = first_shortest [A, B] := by
  obtain ⟨s1, r1, h1, hd1⟩ := add_hint_fresh no_partition_0 memA memC s A C hA hcan hC
  obtain ⟨s2, r2, h2, hd2⟩ := add_hint_found no_partition_0 memB memX s1 B C A hB hd1 hBC
  refine ⟨s1, r1, s2, r2, h1, h2, ?_⟩
  rw [hd2]
  simp only [first_shortest]
  split <;> rfl

/-- C1, an instance of the amended statement: two aliases of a shorter
hint. -/
theorem designee_after_two_adds_witness :
    Allocs.ok.succeeds false = true ∧
    ofdisk_hash_find Registry.empty "/pci@0".toList = none ∧
    "/pci@0/disk@0:b".toList ≠ "/pci@0".toList ∧
    ∃ s1 r1 s2 r2,
      ofdisk_hash_add false Allocs.ok Allocs.ok Registry.empty "/pci@0/disk@0:a".toList
        (some "/pci@0".toList) = some (s1, r1) ∧
      ofdisk_hash_add false Allocs.ok Allocs.ok s1 "/pci@0/disk@0:b".toList
        (some "/pci@0".toList) = some (s2, r2) ∧
      designee s2 "/pci@0".toList =
        first_shortest ["/pci@0/disk@0:a".toList, "/pci@0/disk@0:b".toList] :=
  ⟨by decide, by decide, by decide,
   designee_after_two_adds false Allocs.ok Allocs.ok Allocs.ok Allocs.ok Registry.empty
     "/pci@0/disk@0:a".toList "/pci@0/disk@0:b".toList "/pci@0".toList
     (by decide) (by decide) (by decide) (by decide) (by decide)⟩

/-- C1 as stated fails: with nothing registered, adding `/pci@0/disk@0:a` and
then `/pci@0/disk@0:b` under the hint `/pci@0` leaves `/pci@0/disk@0:a` as
designee, although the hint is the strictly shortest of the three paths. -/
theorem designee_ignores_shorter_hint :
    ofdisk_hash_find Registry.empty "/pci@0/disk@0:a".toList = none ∧
    ofdisk_hash_find Registry.empty "/pci@0/disk@0:b".toList = none ∧
    ofdisk_hash_find Registry.empty "/pci@0".toList = none ∧
    (add_two_under_hint false Registry.empty "/pci@0/disk@0:a".toList
        "/pci@0/disk@0:b".toList "/pci@0".toList).map
      (fun s => designee s "/pci@0".toList) = some (some "/pci@0/disk@0:a".toList) ∧
    first_shortest ["/pci@0/disk@0:a".toList, "/pci@0".toList, "/pci@0/disk@0:b".toList] =
      some "/pci@0".toList ∧
    (add_two_under_hint false Registry.empty "/pci@0/disk@0:a".toList
        "/pci@0/disk@0:b".toList "/pci@0".toList).map
      (fun s => designee s "/pci@0".toList) ≠
      some (first_shortest
        ["/pci@0/disk@0:a".toList, "/pci@0".toList, "/pci@0/disk@0:b".toList]) := by
  refine ⟨by decide, by decide, by decide, by decide, by decide, by decide⟩

/-- C2 (as amended): for a path `A` different from the hint `C`, whose entry
has the designee `D`, `ofdisk_hash_add (A, C)` returns and the designee of
the group of `C` is `A` if `A` is strictly shorter than `D` and stays `D`
otherwise.  And from the empty table, `/pci@0/fcp@0/disk@5005076` added
without hint and then the same path followed by `,0` added under it leave
exactly one entry with a designee, whose exposed name is `ieee1275/` followed
by the shorter path. -/
theorem add_under_registered_hint (no_partition_0 : Bool) (mem mem_can : Allocs)
    (s : Registry) (A C D : CStr) (hmem : mem.succeeds no_partition_0 = true)
    (hD : designee s C = some D) (hAC : A ≠ C) :
    (∃ s' r, ofdisk_hash_add no_partition_0 mem mem_can s A (some C) = some (s', r) ∧
      designee s' C = some (if A.length < D.length then A else D)) ∧
    (add_plain_then_alias no_partition_0 "/pci@0/fcp@0/disk@5005076".toList
        "/pci@0/fcp@0/disk@5005076,0".toList).map group_names =
      some [some "ieee1275//pci@0/fcp@0/disk@5005076".toList] := by
  refine ⟨add_hint_found no_partition_0 mem mem_can s A C D hmem hD hAC, ?_⟩
  cases no_partition_0 <;> decide

/-- C2, an instance of the amended statement: a short alias added under a
registered hint whose designee is longer. -/
theorem add_under_registered_hint_witness :
    Allocs.ok.succeeds false = true ∧
    designee (link_head Registry.empty (set_shortest (new_ent false "/pci@0/disk@1".toList)
        (new_ent false "/pci@0/disk@1".toList))) "/pci@0/disk@1".toList =
      some "/pci@0/disk@1".toList ∧
    "hd".toList ≠ "/pci@0/disk@1".toList ∧
    ((∃ s' r, ofdisk_hash_add false Allocs.ok Allocs.ok
        (link_head Registry.empty (set_shortest (new_ent false "/pci@0/disk@1".toList)
          (new_ent false "/pci@0/disk@1".toList)))
        "hd".toList (some "/pci@0/disk@1".toList) = some (s', r) ∧
      designee s' "/pci@0/disk@1".toList =
        some (if "hd".toList.length < "/pci@0/disk@1".toList.length then "hd".toList
              else "/pci@0/disk@1".toList)) ∧
    (add_plain_then_alias false "/pci@0/fcp@0/disk@5005076".toList
        "/pci@0/fcp@0/disk@5005076,0".toList).map group_names =
      some [some "ieee1275//pci@0/fcp@0/disk@5005076".toList]) :=
  ⟨by decide, by decide, by decide,
   add_under_registered_hint false Allocs.ok Allocs.ok _ "hd".toList
     "/pci@0/disk@1".toList "/pci@0/disk@1".toList (by decide) (by decide) (by decide)⟩

/-- C2 as stated fails when the added path is the hint itself: once `hd` has
been added under the hint `/pci@0/disk@1`, the designee of that group is
`hd`; adding `/pci@0/disk@1` under the hint `/pci@0/disk@1` then links a
second entry for that path in front of the first, and the lookup of the hint
gives the longer path as designee. -/
theorem add_hint_as_alias_replaces_designee :
    (ofdisk_hash_add false Allocs.ok Allocs.ok Registry.empty "hd".toList
        (some "/pci@0/disk@1".toList)).map
      (fun r => designee r.1 "/pci@0/disk@1".toList) = some (some "hd".toList) ∧
    ¬ ("/pci@0/disk@1".toList.length < "hd".toList.length) ∧
    (add_two_under_hint false Registry.empty "hd".toList "/pci@0/disk@1".toList
        "/pci@0/disk@1".toList).map
      (fun s => designee s "/pci@0/disk@1".toList) =
      some (some "/pci@0/disk@1".toList) := by
  refine ⟨by decide, by decide, by decide⟩

/-- C3: when `ofdisk_hash_add (A, NULL)` returns, `ofdisk_hash_find (A)` gives
the entry just made, and that entry is its own group: its `devpath` and its
`shortest` are `A`, its `grub_devpath` is the exposed name derived from `A`,
and its `grub_shortest` is that same exposed name. -/
theorem add_no_hint_self_canonical (no_partition_0 : Bool) (mem mem_can : Allocs)
    (s s' : Registry) (A : CStr) (r : Option EntPtr)
    (h : ofdisk_hash_add no_partition_0 mem mem_can s A none = some (s', r)) :
    ofdisk_hash_find s' A = r ∧
    ∃ p e, r = some p ∧ deref s' p = some e ∧ e.devpath = A ∧ e.shortest = some A ∧
      e.grub_devpath = make_grub_devpath A ∧ e.grub_shortest = some e.grub_devpath := by
  cases hmem : mem.succeeds no_partition_0 with
  | false =>
    rw [ofdisk_hash_add, add_real_fail no_partition_0 mem s A hmem] at h
    simp at h
  | true =>
    have hdA : deref (link_head s (new_ent no_partition_0 A))
        { bucket := ofdisk_hash_fn A,
          depth := (s.ofdisk_hash (ofdisk_hash_fn A)).length } =
        some (new_ent no_partition_0 A) := deref_link_head_new s (new_ent no_partition_0 A)
    have hf1 : ofdisk_hash_find (link_head s (new_ent no_partition_0 A)) A =
        some { bucket := ofdisk_hash_fn A,
               depth := (s.ofdisk_hash (ofdisk_hash_fn A)).length } :=
      find_link_head_same s (new_ent no_partition_0 A)
    rw [ofdisk_hash_add, add_real_ok no_partition_0 mem s A hmem] at h
    simp only [Option.some.injEq, Prod.mk.injEq] at h
    obtain ⟨hs, hr⟩ := h
    subst hs hr
    by_cases hrem : check_string_removable A = true
    · simp only [hrem, if_true]
      refine ⟨?_, _, mark_removable (set_shortest (new_ent no_partition_0 A)
        (new_ent no_partition_0 A)), rfl, ?_, rfl, rfl, rfl, rfl⟩
      · rw [find_store _ _ _ mark_removable_devpath,
          find_store _ _ _ (fun e => set_shortest_devpath e e), hf1]
      · rw [deref_store_same, deref_store_same, hdA]; rfl
    · simp only [hrem]
      refine ⟨?_, _, set_shortest (new_ent no_partition_0 A)
        (new_ent no_partition_0 A), rfl, ?_, rfl, rfl, rfl, rfl⟩
      · simp only [Bool.false_eq_true, if_false]
        rw [find_store _ _ _ (fun e => set_shortest_devpath e e), hf1]
      · simp only [Bool.false_eq_true, if_false]
        rw [deref_store_same, hdA]; rfl

/-- C3, an instance: a path with a comma added to the empty table. -/
theorem add_no_hint_self_canonical_witness :
    ∃ s' r, ofdisk_hash_add false Allocs.ok Allocs.ok Registry.empty
        "/pci@0/disk@1,0".toList none = some (s', r) ∧
      ofdisk_hash_find s' "/pci@0/disk@1,0".toList = r ∧
      ∃ p e, r = some p ∧ deref s' p = some e ∧ e.devpath = "/pci@0/disk@1,0".toList ∧
        e.shortest = some "/pci@0/disk@1,0".toList ∧
        e.grub_devpath = make_grub_devpath "/pci@0/disk@1,0".toList ∧
        e.grub_shortest = some e.grub_devpath :=
  ⟨_, _, rfl,
   add_no_hint_self_canonical false Allocs.ok Allocs.ok Registry.empty _
     "/pci@0/disk@1,0".toList _ rfl⟩

/-- C4: un-escaping (`compute_dev_path`) the part of `grub_devpath` after the
`ieee1275/` tag gives back the raw path, for every string, backslashes and
backslash-comma pairs included. -/
theorem compute_dev_path_roundtrip (devpath : CStr) :
    (make_grub_devpath devpath).take 9 = "ieee1275/".toList ∧
    compute_dev_path true ((make_grub_devpath devpath).drop 9) = some devpath := by
  have h9 : "ieee1275/".toList.length = 9 := by decide
  rw [make_grub_devpath_eq]
  unfold exposed_name_spec
  constructor
  · rw [List.take_append_of_le_length (by rw [h9])]
    rw [← h9, List.take_length]
  · rw [← h9, List.drop_left]
    simp [compute_dev_path, unescape_escaped]

/-- C5: the `grub_devpath` of the entry `ofdisk_hash_add_real` creates is
`ieee1275/` followed by `devpath` with every comma replaced by a backslash
and a comma and every other character copied, in order. -/
theorem grub_devpath_is_escaped (no_partition_0 : Bool) (mem : Allocs) (s s' : Registry)
    (devpath : CStr) (p : EntPtr)
    (h : ofdisk_hash_add_real no_partition_0 mem s devpath = (s', some p)) :
    ∃ e, deref s' p = some e ∧ e.devpath = devpath ∧
      e.grub_devpath = exposed_name_spec devpath := by
  cases hmem : mem.succeeds no_partition_0 with
  | false =>
    rw [add_real_fail no_partition_0 mem s devpath hmem] at h
    simp at h
  | true =>
    rw [add_real_ok no_partition_0 mem s devpath hmem] at h
    simp only [Prod.mk.injEq, Option.some.injEq] at h
    obtain ⟨hs, hp⟩ := h
    subst hs hp
    exact ⟨new_ent no_partition_0 devpath,
      deref_link_head_new s (new_ent no_partition_0 devpath), rfl,
      make_grub_devpath_eq devpath⟩

/-- C5, an instance: the entry made for a path with two commas. -/
theorem grub_devpath_is_escaped_witness :
    ofdisk_hash_add_real false Allocs.ok Registry.empty "/a,b,c".toList =
      (link_head Registry.empty (new_ent false "/a,b,c".toList),
       some { bucket := ofdisk_hash_fn "/a,b,c".toList, depth := 0 }) ∧
    ∃ e, deref (link_head Registry.empty (new_ent false "/a,b,c".toList))
        { bucket := ofdisk_hash_fn "/a,b,c".toList, depth := 0 } = some e ∧
      e.devpath = "/a,b,c".toList ∧
      e.grub_devpath = exposed_name_spec "/a,b,c".toList :=
  ⟨rfl, grub_devpath_is_escaped false Allocs.ok Registry.empty _ "/a,b,c".toList _ rfl⟩

/-- C6: in `grub_ofdisk_prepare` and in `grub_ofdisk_open_real`, a second
cache step for the same target right after one that did not fail issues no
firmware call at all, whatever the firmware would answer; and a cache step
for a target other than the cached one issues the close of the held handle,
if there is one, and then the open of the new target, in this order and
nothing else. -/
theorem ensure_same_target_silent_other_target_closes_first
    (c c1 : HandleCache) (data : Option StrPtr) (p : StrPtr) (fw fw2 : Nat)
    (calls : List FwCall) (st : CacheStep) :
    (prepare_ensure c data fw = (c1, calls, st) →
      (st = CacheStep.hit ∨ st = CacheStep.opened) →
      prepare_ensure c1 data fw2 = (c1, [], CacheStep.hit)) ∧
    (open_real_ensure c p fw = (c1, calls, st) →
      (st = CacheStep.hit ∨ st = CacheStep.opened) →
      open_real_ensure c1 p fw2 = (c1, [], CacheStep.hit)) ∧
    (same_pointer data c.last_devpath = false →
      (prepare_ensure c data fw).2.1 =
        (if c.last_ihandle ≠ 0 then [FwCall.fw_close c.last_ihandle] else []) ++
          [FwCall.fw_open (data.map (fun q => q.str)) fw]) ∧
    ((∀ last, c.last_devpath = some last → p.str ≠ last.str) →
      (open_real_ensure c p fw).2.1 =
        (if c.last_ihandle ≠ 0 then [FwCall.fw_close c.last_ihandle] else []) ++
          [FwCall.fw_open (some p.str) fw]) := by
  have hself : ∀ d : Option StrPtr, same_pointer d d = true := by
    intro d; simp [same_pointer]
  have hre : ∀ (t : Option StrPtr), reopen c t fw = (c1, calls, st) →
      (st = CacheStep.hit ∨ st = CacheStep.opened) → c1.last_devpath = t := by
    intro t h hst
    unfold reopen at h
    by_cases hf : fw = 0
    · simp only [hf, if_true, Prod.mk.injEq] at h
      rcases hst with hst | hst <;> rw [hst] at h <;> simp at h
    · simp only [hf, if_false, Prod.mk.injEq] at h
      rw [← h.1]
  refine ⟨?_, ?_, ?_, ?_⟩
  · intro h hst
    unfold prepare_ensure at h
    by_cases hs : same_pointer data c.last_devpath = true
    · simp only [hs, Bool.not_true, Bool.false_eq_true, if_false, Prod.mk.injEq] at h
      rw [← h.1]
      simp [prepare_ensure, hs]
    · simp only [hs, Bool.not_false, if_true] at h
      have := hre data h hst
      simp [prepare_ensure, this, hself]
  · intro h hst
    unfold open_real_ensure at h
    cases hl : c.last_devpath with
    | none =>
      simp only [hl] at h
      have := hre (some p) h hst
      simp [open_real_ensure, this]
    | some last =>
      simp only [hl] at h
      by_cases hp : p.str = last.str
      · simp only [hp, if_true, Prod.mk.injEq] at h
        rw [← h.1]
        simp [open_real_ensure, hl, hp]
      · simp only [hp, if_false] at h
        have := hre (some p) h hst
        simp [open_real_ensure, this]
  · intro hs
    simp only [prepare_ensure, hs, Bool.not_false, if_true, reopen]
    split <;> rfl
  · intro hne
    unfold open_real_ensure
    cases hl : c.last_devpath with
    | none =>
      simp only [reopen]
      split <;> rfl
    | some last =>
      simp only [hne last hl, if_false, reopen]
      split <;> rfl

/-- C6, an instance: a first open of `/pci@0/disk@1:0` into the empty cache,
then the same target again, and a switch from a held handle to another
target. -/
theorem ensure_same_target_silent_other_target_closes_first_witness :
    prepare_ensure { last_devpath := some { addr := 1, str := "/pci@0/disk@1:0".toList },
                     last_ihandle := 5 }
        (some { addr := 1, str := "/pci@0/disk@1:0".toList }) 9 =
      ({ last_devpath := some { addr := 1, str := "/pci@0/disk@1:0".toList },
         last_ihandle := 5 }, [], CacheStep.hit) ∧
    open_real_ensure { last_devpath := some { addr := 1, str := "/pci@0/disk@1:0".toList },
                       last_ihandle := 5 }
        { addr := 1, str := "/pci@0/disk@1:0".toList } 9 =
      ({ last_devpath := some { addr := 1, str := "/pci@0/disk@1:0".toList },
         last_ihandle := 5 }, [], CacheStep.hit) ∧
    (prepare_ensure { last_devpath := some { addr := 1, str := "/pci@0/disk@1:0".toList },
                      last_ihandle := 5 }
        (some { addr := 2, str := "/pci@0/disk@2:0".toList }) 9).2.1 =
      [FwCall.fw_close 5, FwCall.fw_open (some "/pci@0/disk@2:0".toList) 9] ∧
    (open_real_ensure { last_devpath := some { addr := 1, str := "/pci@0/disk@1:0".toList },
                        last_ihandle := 5 }
        { addr := 2, str := "/pci@0/disk@2:0".toList } 9).2.1 =
      [FwCall.fw_close 5, FwCall.fw_open (some "/pci@0/disk@2:0".toList) 9] :=
  ⟨(ensure_same_target_silent_other_target_closes_first HandleCache.empty
      { last_devpath := some { addr := 1, str := "/pci@0/disk@1:0".toList }, last_ihandle := 5 }
      (some { addr := 1, str := "/pci@0/disk@1:0".toList })
      { addr := 1, str := "/pci@0/disk@1:0".toList } 5 9
      [FwCall.fw_open (some "/pci@0/disk@1:0".toList) 5] CacheStep.opened).1
      (by decide) (Or.inr rfl),
   (ensure_same_target_silent_other_target_closes_first HandleCache.empty
      { last_devpath := some { addr := 1, str := "/pci@0/disk@1:0".toList }, last_ihandle := 5 }
      (some { addr := 1, str := "/pci@0/disk@1:0".toList })
      { addr := 1, str := "/pci@0/disk@1:0".toList } 5 9
      [FwCall.fw_open (some "/pci@0/disk@1:0".toList) 5] CacheStep.opened).2.1
      (by decide) (Or.inr rfl),
   (ensure_same_target_silent_other_target_closes_first
      { last_devpath := some { addr := 1, str := "/pci@0/disk@1:0".toList }, last_ihandle := 5 }
      HandleCache.empty (some { addr := 2, str := "/pci@0/disk@2:0".toList })
      { addr := 2, str := "/pci@0/disk@2:0".toList } 9 0 [] CacheStep.hit).2.2.1
      (by decide),
   (ensure_same_target_silent_other_target_closes_first
      { last_devpath := some { addr := 1, str := "/pci@0/disk@1:0".toList }, last_ihandle := 5 }
      HandleCache.empty (some { addr := 2, str := "/pci@0/disk@2:0".toList })
      { addr := 2, str := "/pci@0/disk@2:0".toList } 9 0 [] CacheStep.hit).2.2.2
      (by intro last hl; cases hl; decide)⟩

/-- C7: after any sequence of open, read, write, close and shutdown
operations from the empty cache, whatever the firmware answers, at most one
handle is open (opened by the cache and not closed since); after
`grub_ofdisk_fini` none is, and the cache is empty again. -/
theorem at_most_one_open_handle (size_bits : Nat) (ops : List CacheOp) :
    (open_handles (cache_run size_bits CacheState.init ops).calls).length ≤ 1 ∧
    open_handles
      (cache_step size_bits (cache_run size_bits CacheState.init ops) CacheOp.fini).calls
      = [] ∧
    (cache_step size_bits (cache_run size_bits CacheState.init ops) CacheOp.fini).cache
      = HandleCache.empty := by
  have hinit : cache_inv CacheState.init := by
    simp [cache_inv, CacheState.init, HandleCache.empty, open_handles]
  have hinv := cache_run_inv size_bits ops CacheState.init hinit
  refine ⟨?_, fini_inv _ hinv, rfl⟩
  unfold cache_inv at hinv
  rw [hinv]
  split <;> simp

/-- C8: when the open of a target other than the cached one fails (the
firmware stores no ihandle), the cache step of `grub_ofdisk_prepare` and of
`grub_ofdisk_open_real` ends with `GRUB_ERR_UNKNOWN_DEVICE`, the held handle,
if any, has been closed before the attempt, and `last_devpath` and
`last_ihandle` are both cleared. -/
theorem failed_open_leaves_cache_empty (c : HandleCache) (data : Option StrPtr)
    (p : StrPtr) (log_sector_size sector : Nat) (seek_status : Int) :
    (same_pointer data c.last_devpath = false →
      prepare_ensure c data 0 =
        (HandleCache.empty,
         (if c.last_ihandle ≠ 0 then [FwCall.fw_close c.last_ihandle] else []) ++
           [FwCall.fw_open (data.map (fun q => q.str)) 0],
         CacheStep.error GRUB_ERR_UNKNOWN_DEVICE) ∧
      grub_ofdisk_prepare c data log_sector_size sector 0 seek_status =
        (HandleCache.empty,
         (if c.last_ihandle ≠ 0 then [FwCall.fw_close c.last_ihandle] else []) ++
           [FwCall.fw_open (data.map (fun q => q.str)) 0],
         GRUB_ERR_UNKNOWN_DEVICE)) ∧
    ((∀ last, c.last_devpath = some last → p.str ≠ last.str) →
      open_real_ensure c p 0 =
        (HandleCache.empty,
         (if c.last_ihandle ≠ 0 then [FwCall.fw_close c.last_ihandle] else []) ++
           [FwCall.fw_open (some p.str) 0],
         CacheStep.error GRUB_ERR_UNKNOWN_DEVICE)) := by
  constructor
  · intro hs
    have h1 : prepare_ensure c data 0 =
        (HandleCache.empty,
         (if c.last_ihandle ≠ 0 then [FwCall.fw_close c.last_ihandle] else []) ++
           [FwCall.fw_open (data.map (fun q => q.str)) 0],
         CacheStep.error GRUB_ERR_UNKNOWN_DEVICE) := by
      simp only [prepare_ensure, hs, Bool.not_false, if_true, reopen, HandleCache.empty]
    refine ⟨h1, ?_⟩
    simp only [grub_ofdisk_prepare, h1]
  · intro hne
    unfold open_real_ensure
    cases hl : c.last_devpath with
    | none =>
      simp only [reopen, if_true, HandleCache.empty]
      rfl
    | some last =>
      simp only [hne last hl, if_false, reopen, if_true, HandleCache.empty]
      rfl

/-- C8, an instance: a failed open of a second disk while a handle on the
first is held. -/
theorem failed_open_leaves_cache_empty_witness :
    prepare_ensure { last_devpath := some { addr := 1, str := "/pci@0/disk@1:0".toList },
                     last_ihandle := 5 }
        (some { addr := 2, str := "/pci@0/disk@2:0".toList }) 0 =
      (HandleCache.empty,
       [FwCall.fw_close 5, FwCall.fw_open (some "/pci@0/disk@2:0".toList) 0],
       CacheStep.error GRUB_ERR_UNKNOWN_DEVICE) ∧
    open_real_ensure { last_devpath := some { addr := 1, str := "/pci@0/disk@1:0".toList },
                       last_ihandle := 5 }
        { addr := 2, str := "/pci@0/disk@2:0".toList } 0 =
      (HandleCache.empty,
       [FwCall.fw_close 5, FwCall.fw_open (some "/pci@0/disk@2:0".toList) 0],
       CacheStep.error GRUB_ERR_UNKNOWN_DEVICE) :=
  ⟨((failed_open_leaves_cache_empty
      { last_devpath := some { addr := 1, str := "/pci@0/disk@1:0".toList }, last_ihandle := 5 }
      (some { addr := 2, str := "/pci@0/disk@2:0".toList })
      { addr := 2, str := "/pci@0/disk@2:0".toList } 9 0 0).1 (by decide)).1,
   (failed_open_leaves_cache_empty
      { last_devpath := some { addr := 1, str := "/pci@0/disk@1:0".toList }, last_ihandle := 5 }
      (some { addr := 2, str := "/pci@0/disk@2:0".toList })
      { addr := 2, str := "/pci@0/disk@2:0".toList } 9 0 0).2
      (by intro last hl; cases hl; decide)⟩

/-- C9: `grub_ofdisk_disk_timeout` returns a non-zero timeout exactly for the
names that contain `fibre-channel@` or `vfc-client` and do not contain
`nvme-of`; for every other name it returns 0. -/
theorem disk_timeout_nonzero_iff_retryable (grub_strtoul : CStr → Strtoul)
    (env_timeout : Option CStr) (grub_errno : grub_err_t) (name : CStr) :
    ((grub_ofdisk_disk_timeout grub_strtoul env_timeout grub_errno name).1 ≠ 0 ↔
      retryable name) ∧
    ((grub_ofdisk_disk_timeout grub_strtoul env_timeout grub_errno name).1 = 0 ↔
      ¬ retryable name) := by
  by_cases h : retryable name
  · have hnz : (grub_ofdisk_disk_timeout grub_strtoul env_timeout grub_errno name).1 ≠ 0 := by
      rw [disk_timeout_retryable grub_strtoul env_timeout grub_errno name h]
      cases env_timeout with
      | none => simp [RETRY_DEFAULT_TIMEOUT]
      | some timeout =>
        simp only
        split
        · simp [RETRY_DEFAULT_TIMEOUT]
        · split
          · assumption
          · simp [RETRY_DEFAULT_TIMEOUT]
    exact ⟨⟨fun _ => h, fun _ => hnz⟩, ⟨fun h0 => absurd h0 hnz, fun hn => absurd h hn⟩⟩
  · have hz := disk_timeout_zero_iff grub_strtoul env_timeout grub_errno name h
    simp [hz, h]

/-- C10 (as amended): for a retryable name and with no error pending on
entry (`grub_errno` is `GRUB_ERR_NONE`), the timeout is 15 when the tunable
is unset, when `grub_strtoul` reports an error for it, or when it parses to
zero, and the parsed value otherwise. -/
theorem disk_timeout_value (grub_strtoul : CStr → Strtoul) (env_timeout : Option CStr)
    (name : CStr) (h : retryable name) :
    (grub_ofdisk_disk_timeout grub_strtoul env_timeout GRUB_ERR_NONE name).1 =
      match env_timeout with
      | none => 15
      | some timeout =>
        match grub_strtoul timeout with
        | Strtoul.value n => if n = 0 then 15 else n
        | Strtoul.bad_number => 15
        | Strtoul.out_of_range => 15 := by
  rw [disk_timeout_retryable grub_strtoul env_timeout GRUB_ERR_NONE name h]
  cases env_timeout with
  | none => rfl
  | some timeout =>
    simp only
    cases hr : grub_strtoul timeout with
    | value n =>
      by_cases hn : n = 0
      · simp [Strtoul.errno, Strtoul.ret, hn, RETRY_DEFAULT_TIMEOUT]
      · simp [Strtoul.errno, Strtoul.ret, hn]
    | bad_number => simp [Strtoul.errno, RETRY_DEFAULT_TIMEOUT]
    | out_of_range => simp [Strtoul.errno, RETRY_DEFAULT_TIMEOUT]

/-- C10, an instance: a virtual-FC disk with the tunable parsing to 30. -/
theorem disk_timeout_value_witness :
    retryable "ieee1275//vdevice/vfc-client@30000003/disk@1".toList ∧
    (grub_ofdisk_disk_timeout (fun _ => Strtoul.value 30) (some "30".toList) GRUB_ERR_NONE
      "ieee1275//vdevice/vfc-client@30000003/disk@1".toList).1 = 30 :=
  ⟨by decide,
   disk_timeout_value (fun _ => Strtoul.value 30) (some "30".toList)
     "ieee1275//vdevice/vfc-client@30000003/disk@1".toList (by decide)⟩

/-- C10 as stated fails when an error is pending on entry: the tunable parses
to 30, yet the function sees the stale `grub_errno`, clears it and returns
the default 15. -/
theorem disk_timeout_stale_errno :
    retryable "ieee1275//vdevice/vfc-client@30000003/disk@1".toList ∧
    grub_ofdisk_disk_timeout (fun _ => Strtoul.value 30) (some "30".toList)
      GRUB_ERR_READ_ERROR "ieee1275//vdevice/vfc-client@30000003/disk@1".toList =
      (15, GRUB_ERR_NONE) := by
  refine ⟨by decide, by decide⟩

/-- C11 (as amended): in `grub_ofdisk_open` and `grub_ofdisk_read`, with a
timeout of `T` seconds, a clock that each sleep advances by exactly 1000 ms
and an operation that always fails with `GRUB_ERR_UNKNOWN_DEVICE`, the loop
ends after at most `T + 1` calls and returns `GRUB_ERR_UNKNOWN_DEVICE`.  When
the deadline `now + 1000 * T` does not overflow 64 bits, the calls are
exactly `T + 1` if the operation takes no time, and 2 or 3 if `T = 2` and
each call takes less than a second. -/
theorem retry_unknown_device_attempts (grub_strtoul : CStr → Strtoul)
    (env_timeout : Option CStr) (name : CStr) (op : Nat → grub_err_t → Attempt)
    (now T fuel : Nat) (errno : grub_err_t)
    (hT : (grub_ofdisk_disk_timeout grub_strtoul env_timeout errno name).1 = T)
    (hop : ∀ k e, (op k e).err = GRUB_ERR_UNKNOWN_DEVICE)
    (hfuel : T + 1 ≤ fuel) :
    grub_ofdisk_read grub_strtoul env_timeout name op fuel now errno =
      grub_ofdisk_open grub_strtoul env_timeout name op fuel now errno ∧
    (∃ r, grub_ofdisk_open grub_strtoul env_timeout name op fuel now errno = some r ∧
      r.err = GRUB_ERR_UNKNOWN_DEVICE ∧ 1 ≤ r.attempts ∧ r.attempts ≤ T + 1 ∧
      r.sleeps + 1 = r.attempts) ∧
    (now + T * 1000 < 2 ^ 64 → (∀ k e, (op k e).ms = 0) →
      ∃ r, grub_ofdisk_open grub_strtoul env_timeout name op fuel now errno = some r ∧
        r.attempts = T + 1) ∧
    (now + T * 1000 < 2 ^ 64 → T = 2 → (∀ k e, (op k e).ms < 1000) →
      ∃ r, grub_ofdisk_open grub_strtoul env_timeout name op fuel now errno = some r ∧
        (r.attempts = 2 ∨ r.attempts = 3)) := by
  refine ⟨rfl, ?_, ?_, ?_⟩
  · obtain ⟨r, hr, herr, hlo, hhi, hsl⟩ := retry_loop_bound op (retry_deadline now T) hop T
      fuel 0 now (grub_ofdisk_disk_timeout grub_strtoul env_timeout errno name).2
      (retry_deadline_le now T) hfuel
    refine ⟨r, ?_, herr, by omega, by omega, hsl⟩
    simp only [grub_ofdisk_open, hT]
    exact hr
  · intro hov hms
    obtain ⟨r, hr, hat⟩ := retry_loop_exact op (retry_deadline now T) hop hms T
      fuel 0 now (grub_ofdisk_disk_timeout grub_strtoul env_timeout errno name).2
      (retry_deadline_exact now T hov) hfuel
    refine ⟨r, ?_, by omega⟩
    simp only [grub_ofdisk_open, hT]
    exact hr
  · intro hov h2 hms
    subst h2
    obtain ⟨r, hr, hat⟩ := retry_loop_two_seconds op now hop hms fuel hfuel
      (grub_ofdisk_disk_timeout grub_strtoul env_timeout errno name).2
    refine ⟨r, ?_, hat⟩
    simp only [grub_ofdisk_open, hT, retry_deadline_exact now 2 hov]
    exact hr

/-- C11, an instance: a virtual-FC disk with the tunable parsing to 2, the
clock at 5 ms, an operation that fails at once each time. -/
theorem retry_unknown_device_attempts_witness :
    (grub_ofdisk_disk_timeout (fun _ => Strtoul.value 2) (some "2".toList) GRUB_ERR_NONE
      "ieee1275//vdevice/vfc-client@30000003/disk@1".toList).1 = 2 ∧
    (∃ r, grub_ofdisk_open (fun _ => Strtoul.value 2) (some "2".toList)
        "ieee1275//vdevice/vfc-client@30000003/disk@1".toList
        (fun _ _ => { err := GRUB_ERR_UNKNOWN_DEVICE, errno := GRUB_ERR_UNKNOWN_DEVICE,
                      ms := 0 }) 3 5 GRUB_ERR_NONE = some r ∧
      r.attempts = 2 + 1) :=
  ⟨by decide,
   (retry_unknown_device_attempts (fun _ => Strtoul.value 2) (some "2".toList)
      "ieee1275//vdevice/vfc-client@30000003/disk@1".toList
      (fun _ _ => { err := GRUB_ERR_UNKNOWN_DEVICE, errno := GRUB_ERR_UNKNOWN_DEVICE,
                    ms := 0 }) 5 2 3 GRUB_ERR_NONE (by decide) (fun _ _ => rfl)
      (by decide)).2.2.1 (by decide) (fun _ _ => rfl)⟩

/-- C11 as stated fails when the deadline overflows: with the tunable parsing
to `2 ^ 61` seconds, `timeout * 1000` is 0 modulo `2 ^ 64`, the deadline is
the start time, and an operation that takes no time and always fails with
`GRUB_ERR_UNKNOWN_DEVICE` is called once, not `2 ^ 61 + 1` times. -/
theorem retry_deadline_overflow_single_attempt :
    retryable "ieee1275//vdevice/vfc-client@30000003/disk@1".toList ∧
    (grub_ofdisk_disk_timeout (fun _ => Strtoul.value (2 ^ 61))
      (some "2305843009213693952".toList) GRUB_ERR_NONE
      "ieee1275//vdevice/vfc-client@30000003/disk@1".toList).1 = 2 ^ 61 ∧
    (grub_ofdisk_open (fun _ => Strtoul.value (2 ^ 61))
        (some "2305843009213693952".toList)
        "ieee1275//vdevice/vfc-client@30000003/disk@1".toList
        (fun _ _ => { err := GRUB_ERR_UNKNOWN_DEVICE, errno := GRUB_ERR_UNKNOWN_DEVICE,
                      ms := 0 }) (2 ^ 61 + 1) 0 GRUB_ERR_NONE).map (fun r => r.attempts) =
      some 1 ∧
    (1 : Nat) ≠ 2 ^ 61 + 1 := by
  refine ⟨by decide, by decide, by decide, by decide⟩

/-- C12: in `grub_ofdisk_open` and `grub_ofdisk_read`, whatever the deadline,
a first call that succeeds or fails with an error other than
`GRUB_ERR_UNKNOWN_DEVICE` is the only call, no sleep occurs and its result is
returned; and for a name that is not retryable there is exactly one call and
no sleep, whatever it returns. -/
theorem retry_single_attempt (grub_strtoul : CStr → Strtoul)
    (env_timeout : Option CStr) (name : CStr) (op : Nat → grub_err_t → Attempt)
    (now fuel timeout : Nat) (errno : grub_err_t) :
    grub_ofdisk_read grub_strtoul env_timeout name op (fuel + 1) now errno =
      grub_ofdisk_open grub_strtoul env_timeout name op (fuel + 1) now errno ∧
    ((op 0 errno).err ≠ GRUB_ERR_UNKNOWN_DEVICE →
      retry_loop op timeout (fuel + 1) 0 now errno =
        some { err := (op 0 errno).err, grub_errno := (op 0 errno).errno, attempts := 1,
               sleeps := 0, now := now + (op 0 errno).ms }) ∧
    ((op 0 (grub_ofdisk_disk_timeout grub_strtoul env_timeout errno name).2).err ≠
        GRUB_ERR_UNKNOWN_DEVICE →
      ∃ r, grub_ofdisk_open grub_strtoul env_timeout name op (fuel + 1) now errno = some r ∧
        r.err = (op 0 (grub_ofdisk_disk_timeout grub_strtoul env_timeout errno name).2).err ∧
        r.attempts = 1 ∧ r.sleeps = 0) ∧
    (¬ retryable name →
      grub_ofdisk_open grub_strtoul env_timeout name op (fuel + 1) now errno =
        some { err := (op 0 errno).err, grub_errno := (op 0 errno).errno, attempts := 1,
               sleeps := 0, now := now + (op 0 errno).ms }) := by
  refine ⟨rfl, ?_, ?_, ?_⟩
  · intro h
    exact retry_loop_stop op timeout fuel 0 now errno (fun hc => h hc.1)
  · intro h
    exact ⟨_, retry_loop_stop op _ fuel 0 now _ (fun hc => h hc.1), rfl, rfl, rfl⟩
  · intro hn
    have hz := disk_timeout_zero_iff grub_strtoul env_timeout errno name hn
    simp only [grub_ofdisk_open, hz]
    have hd : retry_deadline now 0 ≤ now := by
      have := retry_deadline_le now 0
      omega
    exact retry_loop_stop op _ fuel 0 now errno (fun hc => by omega)

/-- C12, an instance: a read that fails with `GRUB_ERR_READ_ERROR` on a
virtual-FC disk, and any call on a plain SCSI disk. -/
theorem retry_single_attempt_witness :
    retry_loop (fun _ _ => { err := GRUB_ERR_READ_ERROR, errno := GRUB_ERR_READ_ERROR,
                             ms := 20 }) 15000 (0 + 1) 0 7 GRUB_ERR_NONE =
      some { err := GRUB_ERR_READ_ERROR, grub_errno := GRUB_ERR_READ_ERROR, attempts := 1,
             sleeps := 0, now := 7 + 20 } ∧
    grub_ofdisk_open (fun _ => Strtoul.value 30) (some "30".toList)
        "ieee1275//pci@0/scsi@1/disk@0".toList
        (fun _ _ => { err := GRUB_ERR_UNKNOWN_DEVICE, errno := GRUB_ERR_UNKNOWN_DEVICE,
                      ms := 20 }) (0 + 1) 7 GRUB_ERR_NONE =
      some { err := GRUB_ERR_UNKNOWN_DEVICE, grub_errno := GRUB_ERR_UNKNOWN_DEVICE,
             attempts := 1, sleeps := 0, now := 7 + 20 } :=
  ⟨(retry_single_attempt (fun _ => Strtoul.value 30) (some "30".toList)
      "ieee1275//vdevice/vfc-client@30000003/disk@1".toList
      (fun _ _ => { err := GRUB_ERR_READ_ERROR, errno := GRUB_ERR_READ_ERROR, ms := 20 })
      7 0 15000 GRUB_ERR_NONE).2.1 (by decide),
   (retry_single_attempt (fun _ => Strtoul.value 30) (some "30".toList)
      "ieee1275//pci@0/scsi@1/disk@0".toList
      (fun _ _ => { err := GRUB_ERR_UNKNOWN_DEVICE, errno := GRUB_ERR_UNKNOWN_DEVICE,
                    ms := 20 })
      7 0 0 GRUB_ERR_NONE).2.2.2 (by decide)⟩

/-- C13 (as amended): after two probes in a row in which the firmware call
fails (the call returns -1 or the catch result is not zero), a third probe
on that entry makes no firmware call and returns block size 0 without
error.  A probe made with the counter below 2 in which the call succeeds but
reports a size out of [512, 16384] or not a power of two calls the firmware,
returns block size 0 and leaves the counter as it was. -/
theorem probe_skipped_after_two_failed_calls (op : ofdisk_hash_ent)
    (r1 r2 r3 : BlockSizeReply)
    (h1 : r1.call_failed = true ∨ r1.result ≠ 0)
    (h2 : r2.call_failed = true ∨ r2.result ≠ 0) :
    ((probe_thrice op r1 r2 r3).2.2.fw_called = false ∧
      (probe_thrice op r1 r2 r3).2.2.block_size = 0 ∧
      (probe_thrice op r1 r2 r3).2.2.err = GRUB_ERR_NONE ∧
      (probe_thrice op r1 r2 r3).2.2.ent = (probe_thrice op r1 r2 r3).2.1.ent) ∧
    (op.block_size_fails < 2 → r3.call_failed = false → r3.result = 0 →
      ¬ valid_block_size r3.size1 →
      grub_ofdisk_get_block_size op r3 =
        { err := GRUB_ERR_NONE, block_size := 0, ent := op, fw_called := true }) := by
  constructor
  · have hf1 := probe_failed_call op r1 h1
    have hf2 := probe_failed_call (grub_ofdisk_get_block_size op r1).ent r2 h2
    have hge : 2 ≤ (grub_ofdisk_get_block_size
        (grub_ofdisk_get_block_size op r1).ent r2).ent.block_size_fails := by
      rw [hf2, hf1]
      split_ifs <;> omega
    have hs := probe_skipped _ r3 hge
    simp only [probe_thrice, hs, and_self]
  · intro hlt hc hr hv
    have hacc : block_size_acceptable r3.size1 = false := by
      rw [← Bool.not_eq_true, block_size_acceptable_iff_valid]
      exact hv
    have hn : ¬ (op.block_size_fails ≥ 2) := by omega
    simp [grub_ofdisk_get_block_size, hn, hc, hr, hacc]

/-- C13, an instance: two failed calls on a fresh entry, and a reported size
of 1000 bytes. -/
theorem probe_skipped_after_two_failed_calls_witness :
    ((probe_thrice (new_ent false "/pci@0/disk@1".toList)
        { call_failed := true, result := 1, size1 := 0 }
        { call_failed := false, result := 7, size1 := 0 }
        { call_failed := false, result := 0, size1 := 1000 }).2.2.fw_called = false ∧
      (probe_thrice (new_ent false "/pci@0/disk@1".toList)
        { call_failed := true, result := 1, size1 := 0 }
        { call_failed := false, result := 7, size1 := 0 }
        { call_failed := false, result := 0, size1 := 1000 }).2.2.block_size = 0) ∧
    grub_ofdisk_get_block_size (new_ent false "/pci@0/disk@1".toList)
        { call_failed := false, result := 0, size1 := 1000 } =
      { err := GRUB_ERR_NONE, block_size := 0, ent := new_ent false "/pci@0/disk@1".toList,
        fw_called := true } :=
  ⟨⟨((probe_skipped_after_two_failed_calls (new_ent false "/pci@0/disk@1".toList)
        { call_failed := true, result := 1, size1 := 0 }
        { call_failed := false, result := 7, size1 := 0 }
        { call_failed := false, result := 0, size1 := 1000 }
        (Or.inl rfl) (Or.inr (by decide))).1).1,
     ((probe_skipped_after_two_failed_calls (new_ent false "/pci@0/disk@1".toList)
        { call_failed := true, result := 1, size1 := 0 }
        { call_failed := false, result := 7, size1 := 0 }
        { call_failed := false, result := 0, size1 := 1000 }
        (Or.inl rfl) (Or.inr (by decide))).1).2.1⟩,
   (probe_skipped_after_two_failed_calls (new_ent false "/pci@0/disk@1".toList)
      { call_failed := true, result := 1, size1 := 0 }
      { call_failed := false, result := 7, size1 := 0 }
      { call_failed := false, result := 0, size1 := 1000 }
      (Or.inl rfl) (Or.inr (by decide))).2 (by decide) rfl rfl
      (fun h => absurd ((block_size_acceptable_iff_valid 1000).mpr h) (by decide))⟩

/-- C13 as stated fails: after two probes in which the call succeeds and
reports 1000 bytes, then 0 bytes, the counter is still 0, and the third probe
calls the firmware and returns the 4096 bytes it reports. -/
theorem probe_not_cached_after_bad_sizes :
    ¬ valid_block_size 1000 ∧ ¬ valid_block_size 0 ∧
    (probe_thrice (new_ent false "/pci@0/disk@1".toList)
        { call_failed := false, result := 0, size1 := 1000 }
        { call_failed := false, result := 0, size1 := 0 }
        { call_failed := false, result := 0, size1 := 4096 }).2.1.ent.block_size_fails = 0 ∧
    (probe_thrice (new_ent false "/pci@0/disk@1".toList)
        { call_failed := false, result := 0, size1 := 1000 }
        { call_failed := false, result := 0, size1 := 0 }
        { call_failed := false, result := 0, size1 := 4096 }).2.2.fw_called = true ∧
    (probe_thrice (new_ent false "/pci@0/disk@1".toList)
        { call_failed := false, result := 0, size1 := 1000 }
        { call_failed := false, result := 0, size1 := 0 }
        { call_failed := false, result := 0, size1 := 4096 }).2.2.block_size = 4096 := by
  refine ⟨?_, ?_, by decide, by decide, by decide⟩
  · exact fun h => absurd ((block_size_acceptable_iff_valid 1000).mpr h) (by decide)
  · exact fun h => absurd ((block_size_acceptable_iff_valid 0).mpr h) (by decide)

/-- C14: for an entry whose counter is below 2 the probe calls the firmware,
and it returns a size other than 0 exactly when the call did not fail, the
catch result is zero and the reported size is a power of two within
[512, 16384], that is one of 512, 1024, 2048, 4096, 8192, 16384; the size
returned is then the reported one and the counter is reset to 0. -/
theorem probe_accepts_exactly_valid_sizes (op : ofdisk_hash_ent) (reply : BlockSizeReply)
    (h : op.block_size_fails < 2) :
    (grub_ofdisk_get_block_size op reply).fw_called = true ∧
    ((grub_ofdisk_get_block_size op reply).block_size ≠ 0 ↔
      (reply.call_failed = false ∧ reply.result = 0 ∧ valid_block_size reply.size1)) ∧
    (valid_block_size reply.size1 ↔
      reply.size1 ∈ [512, 1024, 2048, 4096, 8192, 16384]) ∧
    ((grub_ofdisk_get_block_size op reply).block_size ≠ 0 →
      (grub_ofdisk_get_block_size op reply).block_size = reply.size1 ∧
      (grub_ofdisk_get_block_size op reply).ent.block_size_fails = 0 ∧
      (grub_ofdisk_get_block_size op reply).err = GRUB_ERR_NONE) := by
  have hn : ¬ (op.block_size_fails ≥ 2) := by omega
  have hv := block_size_acceptable_iff_valid reply.size1
  refine ⟨?_, ?_, ?_, ?_⟩
  · unfold grub_ofdisk_get_block_size
    simp only [hn, if_false]
    split
    · rfl
    · split
      · rfl
      · split <;> rfl
  · unfold grub_ofdisk_get_block_size
    by_cases hc : reply.call_failed = true
    · simp [hn, hc]
    · by_cases hr : reply.result = 0
      · by_cases ha : block_size_acceptable reply.size1 = true
        · have hpos : reply.size1 ≠ 0 := by
            have := (hv.mp ha).2.1
            omega
          simp [hn, hc, hr, ha, hpos, hv.mp ha]
        · have hnv : ¬ valid_block_size reply.size1 := fun hh => ha (hv.mpr hh)
          simp [hn, hc, hr, ha, hnv]
      · simp [hn, hc, hr]
  · rw [← hv, block_size_acceptable_iff_mem]
  · unfold grub_ofdisk_get_block_size
    by_cases hc : reply.call_failed = true
    · simp [hn, hc]
    · by_cases hr : reply.result = 0
      · by_cases ha : block_size_acceptable reply.size1 = true
        · simp [hn, hc, hr, ha]
        · simp [hn, hc, hr, ha]
      · simp [hn, hc, hr]

/-- C14, an instance: a fresh entry and a firmware that reports 4096 bytes. -/
theorem probe_accepts_exactly_valid_sizes_witness :
    (new_ent false "/pci@0/disk@1".toList).block_size_fails < 2 ∧
    (grub_ofdisk_get_block_size (new_ent false "/pci@0/disk@1".toList)
        { call_failed := false, result := 0, size1 := 4096 }).block_size ≠ 0 ∧
    (grub_ofdisk_get_block_size (new_ent false "/pci@0/disk@1".toList)
        { call_failed := false, result := 0, size1 := 4096 }).block_size = 4096 ∧
    (grub_ofdisk_get_block_size (new_ent false "/pci@0/disk@1".toList)
        { call_failed := false, result := 0, size1 := 4096 }).ent.block_size_fails = 0 :=
  ⟨by decide, by decide,
   ((probe_accepts_exactly_valid_sizes (new_ent false "/pci@0/disk@1".toList)
      { call_failed := false, result := 0, size1 := 4096 } (by decide)).2.2.2
      (by decide)).1,
   ((probe_accepts_exactly_valid_sizes (new_ent false "/pci@0/disk@1".toList)
      { call_failed := false, result := 0, size1 := 4096 } (by decide)).2.2.2
      (by decide)).2.1⟩

/-- C15: for an entry whose counter is at least 2 the probe makes no firmware
call, returns block size 0 with `GRUB_ERR_NONE` and leaves the entry, counter
included, as it was; `grub_ofdisk_open_real` then sets `log_sector_size`
to 9, that is 512 bytes. -/
theorem probe_negative_cache (op : ofdisk_hash_ent) (reply : BlockSizeReply)
    (h : 2 ≤ op.block_size_fails) :
    grub_ofdisk_get_block_size op reply =
      { err := GRUB_ERR_NONE, block_size := 0, ent := op, fw_called := false } ∧
    (open_real_sector_size op reply).1 = Except.ok 9 ∧
    (open_real_sector_size op reply).2.ent.block_size_fails = op.block_size_fails ∧
    2 ^ 9 = 512 := by
  have hs := probe_skipped op reply h
  refine ⟨hs, ?_, ?_, by decide⟩
  · simp [open_real_sector_size, hs]
  · simp [open_real_sector_size, hs]

/-- C15, an instance: an entry whose probe failed twice. -/
theorem probe_negative_cache_witness :
    2 ≤ ({ new_ent false "/pci@0/disk@1".toList with block_size_fails := 2 } :
          ofdisk_hash_ent).block_size_fails ∧
    (open_real_sector_size
        { new_ent false "/pci@0/disk@1".toList with block_size_fails := 2 }
        { call_failed := false, result := 0, size1 := 4096 }).1 = Except.ok 9 :=
  ⟨by decide,
   (probe_negative_cache { new_ent false "/pci@0/disk@1".toList with block_size_fails := 2 }
      { call_failed := false, result := 0, size1 := 4096 } (by decide)).2.1⟩

/-- C16: every call of the visitor made by `grub_ofdisk_iterate` is for an
entry of the registry (as it is after the scan, on a "removable" pull) that
has a designee, and passes that entry's `grub_shortest`; on a "none" pull the
entry has `is_boot` set, on a "removable" pull it has `is_boot` clear, and an
entry that is removable and not the boot entry is never passed by the
iteration. -/
theorem iterate_yields_by_pull {σ : Type} (scan : Registry → Registry)
    (sdcard_only : Bool) (iconname : CStr → Option CStr)
    (hook : σ → Option CStr → σ × Bool) (st : σ) (pull : Nat) (s : Registry)
    (c : HookCall)
    (hc : c ∈ (grub_ofdisk_iterate scan sdcard_only iconname hook st pull s).calls) :
    c.ent ∈ all_entries (grub_ofdisk_iterate scan sdcard_only iconname hook st pull s).registry ∧
    c.name = c.ent.grub_shortest ∧ c.ent.shortest ≠ none ∧
    (pull = GRUB_DISK_PULL_NONE → c.ent.is_boot = true) ∧
    (pull = GRUB_DISK_PULL_REMOVABLE → c.ent.is_boot = false) ∧
    ¬ (c.ent.is_removable = true ∧ c.ent.is_boot = false) := by
  unfold grub_ofdisk_iterate at hc ⊢
  by_cases hp : pull > GRUB_DISK_PULL_REMOVABLE
  · simp [hp] at hc
  · simp only [hp, if_false] at hc ⊢
    obtain ⟨hm, hn, hs, -, hrb, hnone, hrem⟩ :=
      iterate_entries_calls sdcard_only iconname pull hook _ st c hc
    exact ⟨hm, hn, hs, hnone, hrem, fun h => hrb ⟨h.2, h.1⟩⟩

/-- C16, an instance: a "none" pull over a registry that holds the boot disk
`hd`; the visitor is called once, with `ieee1275/hd`. -/
theorem iterate_yields_by_pull_witness :
    ({ ent := { set_shortest (new_ent false "hd".toList) (new_ent false "hd".toList) with
                is_boot := true },
       name := some "ieee1275/hd".toList, stop := false } : HookCall) ∈
      (grub_ofdisk_iterate id false (fun _ => none) (fun (n : Nat) _ => (n + 1, false)) 0
        GRUB_DISK_PULL_NONE
        (link_head Registry.empty
          { set_shortest (new_ent false "hd".toList) (new_ent false "hd".toList) with
            is_boot := true })).calls ∧
    ({ set_shortest (new_ent false "hd".toList) (new_ent false "hd".toList) with
       is_boot := true } : ofdisk_hash_ent).is_boot = true :=
  ⟨by decide,
   (iterate_yields_by_pull id false (fun _ => none) (fun (n : Nat) _ => (n + 1, false)) 0
      GRUB_DISK_PULL_NONE
      (link_head Registry.empty
        { set_shortest (new_ent false "hd".toList) (new_ent false "hd".toList) with
          is_boot := true })
      { ent := { set_shortest (new_ent false "hd".toList) (new_ent false "hd".toList) with
                 is_boot := true },
        name := some "ieee1275/hd".toList, stop := false }
      (by decide)).2.2.2.1 rfl⟩

/-- C17: `grub_ofdisk_iterate` returns 1 exactly when a call of the visitor
returned non-zero, and that call is then the last one made; it returns 0
exactly when no call of the visitor returned non-zero; and for a pull class
above "removable" it returns 0 with no call of the visitor, without running
the scan and with the registry untouched.  The scan runs exactly on a
"removable" pull. -/
theorem iterate_return_value {σ : Type} (scan : Registry → Registry)
    (sdcard_only : Bool) (iconname : CStr → Option CStr)
    (hook : σ → Option CStr → σ × Bool) (st : σ) (pull : Nat) (s : Registry) :
    ((grub_ofdisk_iterate scan sdcard_only iconname hook st pull s).ret = 1 ↔
      ∃ c ∈ (grub_ofdisk_iterate scan sdcard_only iconname hook st pull s).calls,
        c.stop = true) ∧
    ((grub_ofdisk_iterate scan sdcard_only iconname hook st pull s).ret = 0 ↔
      ∀ c ∈ (grub_ofdisk_iterate scan sdcard_only iconname hook st pull s).calls,
        c.stop = false) ∧
    (∀ c ∈ (grub_ofdisk_iterate scan sdcard_only iconname hook st pull s).calls.dropLast,
      c.stop = false) ∧
    (pull > GRUB_DISK_PULL_REMOVABLE →
      (grub_ofdisk_iterate scan sdcard_only iconname hook st pull s).ret = 0 ∧
      (grub_ofdisk_iterate scan sdcard_only iconname hook st pull s).calls = [] ∧
      (grub_ofdisk_iterate scan sdcard_only iconname hook st pull s).scanned = false ∧
      (grub_ofdisk_iterate scan sdcard_only iconname hook st pull s).registry = s) ∧
    ((grub_ofdisk_iterate scan sdcard_only iconname hook st pull s).scanned = true ↔
      pull = GRUB_DISK_PULL_REMOVABLE) := by
  by_cases hp : pull > GRUB_DISK_PULL_REMOVABLE
  · have hne : pull ≠ GRUB_DISK_PULL_REMOVABLE := by omega
    simp [grub_ofdisk_iterate, hp, hne]
  · have hcase := iterate_entries_ret sdcard_only iconname pull hook
      (all_entries (if pull = GRUB_DISK_PULL_REMOVABLE then scan s else s)) st
    simp only [grub_ofdisk_iterate, hp, if_false, decide_eq_true_eq, false_implies,
      true_and, and_true]
    rcases hcase with ⟨hr, init, last, hcalls, hlast, hinit⟩ | ⟨hr, hall⟩
    · rw [hr, hcalls]
      refine ⟨?_, ?_, ?_⟩
      · simp only [true_iff]
        exact ⟨last, by simp, hlast⟩
      · constructor
        · intro h; omega
        · intro h
          have := h last (by simp)
          rw [hlast] at this
          exact absurd this (by decide)
      · rw [List.dropLast_concat]
        exact hinit
    · rw [hr]
      refine ⟨?_, ?_, ?_⟩
      · constructor
        · intro h; omega
        · rintro ⟨c, hc, hstop⟩
          have := hall c hc
          rw [hstop] at this
          exact absurd this (by decide)
      · simp only [true_iff]
        exact hall
      · intro c hc
        exact hall c (List.mem_of_mem_dropLast hc)

/-- C17, an instance: a pull class above "removable", with a scan that would
register a disk and a visitor that would stop at once. -/
theorem iterate_return_value_witness :
    (2 : Nat) > GRUB_DISK_PULL_REMOVABLE ∧
    (grub_ofdisk_iterate
        (fun s => link_head s (set_shortest (new_ent false "hd".toList)
          (new_ent false "hd".toList)))
        false (fun _ => none) (fun (n : Nat) _ => (n + 1, true)) 0 2
        (link_head Registry.empty (set_shortest (new_ent false "cd".toList)
          (new_ent false "cd".toList)))).ret = 0 ∧
    (grub_ofdisk_iterate
        (fun s => link_head s (set_shortest (new_ent false "hd".toList)
          (new_ent false "hd".toList)))
        false (fun _ => none) (fun (n : Nat) _ => (n + 1, true)) 0 2
        (link_head Registry.empty (set_shortest (new_ent false "cd".toList)
          (new_ent false "cd".toList)))).calls = [] :=
  ⟨by decide,
   ((iterate_return_value
      (fun s => link_head s (set_shortest (new_ent false "hd".toList)
        (new_ent false "hd".toList)))
      false (fun _ => none) (fun (n : Nat) _ => (n + 1, true)) 0 2
      (link_head Registry.empty (set_shortest (new_ent false "cd".toList)
        (new_ent false "cd".toList)))).2.2.2.1 (by decide)).1,
   ((iterate_return_value
      (fun s => link_head s (set_shortest (new_ent false "hd".toList)
        (new_ent false "hd".toList)))
      false (fun _ => none) (fun (n : Nat) _ => (n + 1, true)) 0 2
      (link_head Registry.empty (set_shortest (new_ent false "cd".toList)
        (new_ent false "cd".toList)))).2.2.2.1 (by decide)).2.1⟩

/-- C18: the `open_path` of the entry `ofdisk_hash_add_real` creates is
`devpath` followed by `:0` when the flag `NO_PARTITION_0` is clear, and
`devpath` itself when it is set. -/
theorem open_path_by_flag (no_partition_0 : Bool) (mem : Allocs) (s s' : Registry)
    (devpath : CStr) (p : EntPtr)
    (h : ofdisk_hash_add_real no_partition_0 mem s devpath = (s', some p)) :
    ∃ e, deref s' p = some e ∧ e.devpath = devpath ∧
      (no_partition_0 = false → e.open_path = devpath ++ ":0".toList) ∧
      (no_partition_0 = true → e.open_path = devpath) ∧
      (e.open_path = devpath ++ ":0".toList ∨ e.open_path = devpath) := by
  cases hmem : mem.succeeds no_partition_0 with
  | false =>
    rw [add_real_fail no_partition_0 mem s devpath hmem] at h
    simp at h
  | true =>
    rw [add_real_ok no_partition_0 mem s devpath hmem] at h
    simp only [Prod.mk.injEq, Option.some.injEq] at h
    obtain ⟨hs, hp⟩ := h
    subst hs hp
    refine ⟨new_ent no_partition_0 devpath,
      deref_link_head_new s (new_ent no_partition_0 devpath), rfl, ?_, ?_, ?_⟩
    · intro hf; subst hf; rfl
    · intro hf; subst hf; rfl
    · cases no_partition_0
      · exact Or.inl rfl
      · exact Or.inr rfl

/-- C18, an instance: with the flag clear, the entry for `/pci@0/disk@1`. -/
theorem open_path_by_flag_witness :
    ∃ e, deref (link_head Registry.empty (new_ent false "/pci@0/disk@1".toList))
        { bucket := ofdisk_hash_fn "/pci@0/disk@1".toList, depth := 0 } = some e ∧
      e.open_path = "/pci@0/disk@1:0".toList := by
  obtain ⟨e, he, -, hf, -, -⟩ := open_path_by_flag false Allocs.ok Registry.empty
    (link_head Registry.empty (new_ent false "/pci@0/disk@1".toList))
    "/pci@0/disk@1".toList
    { bucket := ofdisk_hash_fn "/pci@0/disk@1".toList, depth := 0 } rfl
  exact ⟨e, he, hf rfl⟩

/-- C19: `check_string_removable (s)` holds exactly when the part of `s`
after its last slash (all of `s` when it has none) begins with `cdrom` or
with `fd`.  When `ofdisk_hash_add (A, NULL)` returns, the entry of `A` is
marked removable exactly when this holds for `A`; when
`ofdisk_hash_add (A, C)` returns and it holds for `A` or for `C`, the entry
`ofdisk_hash_find` gives for `C` is marked removable. -/
theorem removable_marking (no_partition_0 : Bool) (mem mem_can : Allocs)
    (s s' : Registry) (str A C : CStr) (r : Option EntPtr) :
    (check_string_removable str = true ↔
      ("cdrom".toList <+: last_segment str ∨ "fd".toList <+: last_segment str)) ∧
    (ofdisk_hash_add no_partition_0 mem mem_can s A none = some (s', r) →
      ∃ p e, ofdisk_hash_find s' A = some p ∧ deref s' p = some e ∧
        (e.is_removable = true ↔ check_string_removable A = true)) ∧
    (ofdisk_hash_add no_partition_0 mem mem_can s A (some C) = some (s', r) →
      (check_string_removable A = true ∨ check_string_removable C = true) →
      ∃ q e, ofdisk_hash_find s' C = some q ∧ deref s' q = some e ∧
        e.is_removable = true) := by
  refine ⟨check_string_removable_iff str, ?_, ?_⟩
  · intro h
    cases hmem : mem.succeeds no_partition_0 with
    | false =>
      rw [ofdisk_hash_add, add_real_fail no_partition_0 mem s A hmem] at h
      simp at h
    | true =>
      have hdA : deref (link_head s (new_ent no_partition_0 A))
          { bucket := ofdisk_hash_fn A,
            depth := (s.ofdisk_hash (ofdisk_hash_fn A)).length } =
          some (new_ent no_partition_0 A) := deref_link_head_new s (new_ent no_partition_0 A)
      have hf1 : ofdisk_hash_find (link_head s (new_ent no_partition_0 A)) A =
          some { bucket := ofdisk_hash_fn A,
                 depth := (s.ofdisk_hash (ofdisk_hash_fn A)).length } :=
        find_link_head_same s (new_ent no_partition_0 A)
      rw [ofdisk_hash_add, add_real_ok no_partition_0 mem s A hmem] at h
      simp only [Option.some.injEq, Prod.mk.injEq] at h
      obtain ⟨hs, -⟩ := h
      subst hs
      by_cases hrem : check_string_removable A = true
      · simp only [hrem, if_true]
        refine ⟨{ bucket := ofdisk_hash_fn A,
                  depth := (s.ofdisk_hash (ofdisk_hash_fn A)).length },
          mark_removable (set_shortest (new_ent no_partition_0 A)
            (new_ent no_partition_0 A)), ?_, ?_, ?_⟩
        · rw [find_store _ _ _ mark_removable_devpath,
            find_store _ _ _ (fun e => set_shortest_devpath e e), hf1]
        · rw [deref_store_same, deref_store_same, hdA]; rfl
        · exact ⟨fun _ => trivial, fun _ => rfl⟩
      · simp only [hrem]
        refine ⟨{ bucket := ofdisk_hash_fn A,
                  depth := (s.ofdisk_hash (ofdisk_hash_fn A)).length },
          set_shortest (new_ent no_partition_0 A) (new_ent no_partition_0 A), ?_, ?_, ?_⟩
        · simp only [Bool.false_eq_true, if_false]
          rw [find_store _ _ _ (fun e => set_shortest_devpath e e), hf1]
        · simp only [Bool.false_eq_true, if_false]
          rw [deref_store_same, hdA]; rfl
        · constructor
          · intro hc; exact absurd hc (by simp [set_shortest, new_ent])
          · intro hc; exact absurd hc (by simp)
  · intro h hrem
    have hremb : (check_string_removable A || check_string_removable C) = true := by
      simpa using hrem
    unfold ofdisk_hash_add at h
    generalize ofdisk_hash_add_real no_partition_0 mem s A = r1 at h
    obtain ⟨s1, p⟩ := r1
    simp only at h
    generalize hL : (match ofdisk_hash_find s1 C with
      | none => ofdisk_hash_add_real no_partition_0 mem_can s1 C
      | some q => (s1, some q)) = r2 at h
    obtain ⟨s2, pcan⟩ := r2
    simp only [hremb, if_true] at h
    cases pcan with
    | none => simp at h
    | some q =>
      simp only [Option.map_eq_some', Prod.mk.injEq] at h
      obtain ⟨s4, hs4, hs', -⟩ := h
      subst hs'
      obtain ⟨hfind, e2, he2⟩ := hint_lookup_found no_partition_0 mem_can s1 s2 C q hL
      obtain ⟨hk1, hk2⟩ := reassign_shortest_keeps _ _ p q A hs4
      have hd3 : deref (store s2 q mark_removable) q = some (mark_removable e2) := by
        rw [deref_store_same, he2]; rfl
      obtain ⟨e', he', hrm⟩ := hk2 _ hd3
      refine ⟨q, e', ?_, he', ?_⟩
      · rw [hk1, find_store _ _ _ mark_removable_devpath, hfind]
      · rw [hrm]; rfl

/-- C19, an instance: the CD-ROM drive added without hint, and the alias
`cdrom` added under its path. -/
theorem removable_marking_witness :
    (∃ s' r, ofdisk_hash_add false Allocs.ok Allocs.ok Registry.empty
        "/pci@0/ide@1/cdrom@0".toList none = some (s', r) ∧
      ∃ p e, ofdisk_hash_find s' "/pci@0/ide@1/cdrom@0".toList = some p ∧
        deref s' p = some e ∧
        (e.is_removable = true ↔
          check_string_removable "/pci@0/ide@1/cdrom@0".toList = true)) ∧
    (∃ s' r, ofdisk_hash_add false Allocs.ok Allocs.ok Registry.empty
        "cdrom".toList (some "/pci@0/ide@1/disk@0".toList) = some (s', r) ∧
      ∃ q e, ofdisk_hash_find s' "/pci@0/ide@1/disk@0".toList = some q ∧
        deref s' q = some e ∧ e.is_removable = true) :=
  ⟨⟨_, _, rfl,
    (removable_marking false Allocs.ok Allocs.ok Registry.empty _ []
      "/pci@0/ide@1/cdrom@0".toList [] _).2.1 rfl⟩,
   ⟨_, _, rfl,
    (removable_marking false Allocs.ok Allocs.ok Registry.empty _ []
      "cdrom".toList "/pci@0/ide@1/disk@0".toList _).2.2 rfl (Or.inl (by decide))⟩⟩

/-- C20, the code at the failing input: the boot device is inserted under its
alias name `hd`, then the scanner registers the alias `hd` of
`/pci@0/scsi@1/disk@0`.  The lookup of the path finds nothing, so
`ofdisk_hash_add` links a second entry with `devpath` `hd`; the table then
holds `hd` twice, and the lookup of `hd` gives the new entry, not the boot
entry. -/
theorem devpath_duplicated_by_boot_alias :
    (boot_then_alias false "hd".toList "hd".toList "/pci@0/scsi@1/disk@0".toList).map
      (fun s => (all_entries s).map (fun e => (e.devpath, e.is_boot))) =
      some [("/pci@0/scsi@1/disk@0".toList, false), ("hd".toList, false),
            ("hd".toList, true)] ∧
    (boot_then_alias false "hd".toList "hd".toList "/pci@0/scsi@1/disk@0".toList).map
      (fun s => ((all_entries s).map (fun e => e.devpath)).count "hd".toList) = some 2 ∧
    (boot_then_alias false "hd".toList "hd".toList "/pci@0/scsi@1/disk@0".toList).map
      (fun s => ((ofdisk_hash_find s "hd".toList).bind (deref s)).map (fun e => e.is_boot)) =
      some (some false) := by
  refine ⟨by decide, by decide, by decide⟩

/-- C21, the code at the failing input: `ofdisk_hash_add` on the empty
registry with an allocation failing.  (1) Without hint, when the entry
cannot be allocated, `ofdisk_hash_add_real` returns NULL and line 172 reads
`p->devpath`: a NULL pointer is dereferenced.  (2) With a hint whose entry
cannot be allocated and a removable path, line 186 writes
`pcan->is_removable` through NULL.  (3) With a hint whose entry cannot be
allocated and no removable path, the function returns with the error
cleared, but the entry of the alias stays linked.  (4) When the alias cannot
be allocated and the hint is registered with a designee that is not longer,
the function returns NULL with `grub_errno` still
`GRUB_ERR_OUT_OF_MEMORY`. -/
theorem add_alloc_failure_not_a_noop :
    (ofdisk_hash_add false { ent := false, grub_devpath := true, open_path := true } Allocs.ok
      Registry.empty "/pci@0/disk@1".toList none).isNone = true ∧
    (ofdisk_hash_add false Allocs.ok { ent := false, grub_devpath := true, open_path := true }
      Registry.empty "cdrom".toList (some "/pci@0/ide@1/cdrom@0".toList)).isNone = true ∧
    (ofdisk_hash_add false Allocs.ok { ent := false, grub_devpath := true, open_path := true }
      Registry.empty "disk".toList (some "/pci@0/disk@1".toList)).map
      (fun r => (r.1.grub_errno, (all_entries r.1).map (fun e => e.devpath), r.2.isSome)) =
      some (GRUB_ERR_NONE, ["disk".toList], true) ∧
    ((ofdisk_hash_add false Allocs.ok Allocs.ok Registry.empty "/d@1".toList none).bind
      (fun r => ofdisk_hash_add false { ent := true, grub_devpath := false, open_path := true }
        Allocs.ok r.1 "disk0".toList (some "/d@1".toList))).map
      (fun r => (r.1.grub_errno, (all_entries r.1).map (fun e => e.devpath), r.2.isSome)) =
      some (GRUB_ERR_OUT_OF_MEMORY, ["/d@1".toList], false) := by
  refine ⟨by decide, by decide, by decide, by decide⟩

/-- C22: `get_parent_devname` on a path `p` (the copy being allocated).  If
`p` contains `/disk@`, the result is the part of `p` before its first
occurrence and `is_nvmeof` is 0; if it contains `/nvme-of/controller@` but
not `/disk@`, the result is the part before the first occurrence of that and
`is_nvmeof` is 1; otherwise the result is `p` and `is_nvmeof` is 0.  In every
case the result is a prefix of `p`. -/
theorem parent_devname_derivation (p : CStr) :
    ("/disk@".toList <:+: p →
      ∃ r, get_parent_devname true p = (some r, 0) ∧ before_first "/disk@".toList p r) ∧
    (¬ "/disk@".toList <:+: p → "/nvme-of/controller@".toList <:+: p →
      ∃ r, get_parent_devname true p = (some r, 1) ∧
        before_first "/nvme-of/controller@".toList p r) ∧
    (¬ "/disk@".toList <:+: p → ¬ "/nvme-of/controller@".toList <:+: p →
      get_parent_devname true p = (some p, 0)) ∧
    (∃ r, (get_parent_devname true p).1 = some r ∧ r <+: p) := by
  unfold get_parent_devname
  simp only [Bool.not_true, Bool.false_eq_true, if_false]
  cases hd : grub_strstr p "/disk@".toList with
  | some suf =>
    have hin : "/disk@".toList <:+: p := by
      rw [← grub_strstr_isSome, hd]; rfl
    obtain ⟨h1, h2⟩ := grub_strstr_take p _ suf hd
    exact ⟨fun _ => ⟨_, rfl, h1⟩, fun h => absurd hin h, fun h => absurd hin h, ⟨_, rfl, h2⟩⟩
  | none =>
    have hnd : ¬ "/disk@".toList <:+: p := (grub_strstr_none p _).mp hd
    cases hn : grub_strstr p "/nvme-of/controller@".toList with
    | some suf =>
      have hin : "/nvme-of/controller@".toList <:+: p := by
        rw [← grub_strstr_isSome, hn]; rfl
      obtain ⟨h1, h2⟩ := grub_strstr_take p _ suf hn
      exact ⟨fun h => absurd h hnd, fun _ _ => ⟨_, rfl, h1⟩, fun _ h => absurd hin h,
        ⟨_, rfl, h2⟩⟩
    | none =>
      have hnn : ¬ "/nvme-of/controller@".toList <:+: p := (grub_strstr_none p _).mp hn
      exact ⟨fun h => absurd h hnd, fun _ h => absurd h hnn, fun _ _ => rfl,
        ⟨_, rfl, List.prefix_refl _⟩⟩

/-- C22, an instance: a legacy disk path, a fabric path and a plain path. -/
theorem parent_devname_derivation_witness :
    (∃ r, get_parent_devname true "/vdevice/v-scsi@1/disk@81".toList = (some r, 0) ∧
      before_first "/disk@".toList "/vdevice/v-scsi@1/disk@81".toList r) ∧
    (∃ r, get_parent_devname true "/pci/fc@0/nvme-of/controller@a,ffff".toList = (some r, 1) ∧
      before_first "/nvme-of/controller@".toList "/pci/fc@0/nvme-of/controller@a,ffff".toList
        r) ∧
    get_parent_devname true "/pci/ethernet@1".toList = (some "/pci/ethernet@1".toList, 0) :=
  ⟨(parent_devname_derivation "/vdevice/v-scsi@1/disk@81".toList).1
      ⟨"/vdevice/v-scsi@1".toList, "81".toList, by decide⟩,
   (parent_devname_derivation "/pci/fc@0/nvme-of/controller@a,ffff".toList).2.1
      (by rw [← grub_strstr_isSome]; decide)
      ⟨"/pci/fc@0".toList, "a,ffff".toList, by decide⟩,
   (parent_devname_derivation "/pci/ethernet@1".toList).2.2.1
      (by rw [← grub_strstr_isSome]; decide) (by rw [← grub_strstr_isSome]; decide)⟩

/-- C23, the code at the failing input: a `vscsi` node that opens with handle
7 and answers `vscsi-report-luns`, the `grub_malloc` of `buf` failing.  The
branch returns at line 617 after the open and the request, without
`grub_ieee1275_close`: handle 7 is still open when the enumerator returns.
With the allocation succeeding the handle is closed. -/
theorem vscsi_handle_left_open_when_buf_allocation_fails :
    dev_iterate_vscsi vscsi_test_firmware false "/vdevice/v-scsi@1".toList =
      [ScanEvent.fw (FwCall.fw_open (some "/vdevice/v-scsi@1".toList) 7),
       ScanEvent.call_method "vscsi-report-luns".toList 7] ∧
    run_handles [] (dev_iterate_vscsi vscsi_test_firmware false "/vdevice/v-scsi@1".toList)
      = [7] ∧
    run_handles [] (dev_iterate_vscsi vscsi_test_firmware true "/vdevice/v-scsi@1".toList)
      = [] := by
  refine ⟨by decide, by decide, by decide⟩

/-- C24, the code at the failing input: one controller (address `abcd`, NQN
`nqn.test`) under the node `/fc`.  With the namespaces 1 and 0x2a the
enumerator registers the two namespace paths and then the path of the last
namespace a second time, because `buf` still holds it at line 536; the bare
controller path is not registered.  It is registered only when the
controller has no namespace. -/
theorem nvmeof_controller_path_registered_only_without_namespaces :
    (dev_iterate_fcp_nvmeof (nvme_test_firmware [1, 42]) true true 0 "/fc".toList).map
      (fun events => (scan_registered events).map (fun x => x.2)) =
      some ["/fc/nvme-of/controller@abcd,ffff:nqn=nqn.test/namespace@1".toList,
            "/fc/nvme-of/controller@abcd,ffff:nqn=nqn.test/namespace@2a".toList,
            "/fc/nvme-of/controller@abcd,ffff:nqn=nqn.test/namespace@2a".toList] ∧
    (dev_iterate_fcp_nvmeof (nvme_test_firmware [1, 42]) true true 0 "/fc".toList).map
      (fun events => decide (("/fc/nvme-of/controller@abcd,ffff:nqn=nqn.test".toList,
        "/fc/nvme-of/controller@abcd,ffff:nqn=nqn.test".toList) ∈ scan_registered events)) =
      some false ∧
    (dev_iterate_fcp_nvmeof (nvme_test_firmware []) true true 0 "/fc".toList).map
      (fun events => (scan_registered events).map (fun x => x.2)) =
      some ["/fc/nvme-of/controller@abcd,ffff:nqn=nqn.test".toList] := by
  refine ⟨by decide, by decide, by decide⟩

/-- C26: `dev_iterate` on a node of type `fcp`, whatever the enumerators do.
With a boot scope that differs from the node path, no enumerator runs and
`iter_children` is reached; with no boot scope, the NVMe-oF enumerator runs,
then the legacy FCP one; with the scope equal to the node path, only the
NVMe-oF enumerator runs when the boot is over fabric and only the legacy FCP
one otherwise.  In each case `iter_children` is reached when the enumerators
return. -/
theorem fcp_dispatch (boot_parent : Option CStr) (is_boot_nvmeof no_tree_scanning : Bool)
    (fcp_nvmeof : CStr → Option (List ScanEvent)) (fcp_disks vscsi : CStr → List ScanEvent)
    (sas_ioa : CStr → List ScanEvent × Bool) (path : CStr) :
    (∀ parent, boot_parent = some parent → parent ≠ path →
      dev_iterate_node boot_parent is_boot_nvmeof no_tree_scanning fcp_nvmeof fcp_disks vscsi
        sas_ioa "fcp".toList path = some ([], true)) ∧
    (boot_parent = none →
      dev_iterate_node boot_parent is_boot_nvmeof no_tree_scanning fcp_nvmeof fcp_disks vscsi
        sas_ioa "fcp".toList path =
        (fcp_nvmeof path).map (fun events => (events ++ fcp_disks path, true))) ∧
    (boot_parent = some path → is_boot_nvmeof = true →
      dev_iterate_node boot_parent is_boot_nvmeof no_tree_scanning fcp_nvmeof fcp_disks vscsi
        sas_ioa "fcp".toList path = (fcp_nvmeof path).map (fun events => (events, true))) ∧
    (boot_parent = some path → is_boot_nvmeof = false →
      dev_iterate_node boot_parent is_boot_nvmeof no_tree_scanning fcp_nvmeof fcp_disks vscsi
        sas_ioa "fcp".toList path = some (fcp_disks path, true)) := by
  refine ⟨?_, ?_, ?_, ?_⟩
  · intro parent hp hne
    subst hp
    simp [dev_iterate_node, hne]
  · intro hp
    subst hp
    simp [dev_iterate_node]
  · intro hp hb
    subst hp hb
    simp [dev_iterate_node]
  · intro hp hb
    subst hp hb
    simp [dev_iterate_node]

/-- C26, an instance: the enumerators of the source on a firmware that
answers nothing to them; a node outside the boot scope, a node with no boot
scope, and the boot node when the boot is over fabric and when it is not. -/
theorem fcp_dispatch_witness :
    dev_iterate_node (some "/pci/fc@0".toList) false false
      (dev_iterate_fcp_nvmeof vscsi_test_firmware true true 0)
      (dev_iterate_fcp_disks vscsi_test_firmware true)
      (dev_iterate_vscsi vscsi_test_firmware true)
      (dev_iterate_sas_ioa vscsi_test_firmware true true) "fcp".toList "/pci/fc@1".toList =
      some ([], true) ∧
    dev_iterate_node none false false
      (dev_iterate_fcp_nvmeof vscsi_test_firmware true true 0)
      (dev_iterate_fcp_disks vscsi_test_firmware true)
      (dev_iterate_vscsi vscsi_test_firmware true)
      (dev_iterate_sas_ioa vscsi_test_firmware true true) "fcp".toList "/pci/fc@1".toList =
      (dev_iterate_fcp_nvmeof vscsi_test_firmware true true 0 "/pci/fc@1".toList).map
        (fun events =>
          (events ++ dev_iterate_fcp_disks vscsi_test_firmware true "/pci/fc@1".toList, true)) ∧
    dev_iterate_node (some "/pci/fc@1".toList) true false
      (dev_iterate_fcp_nvmeof vscsi_test_firmware true true 0)
      (dev_iterate_fcp_disks vscsi_test_firmware true)
      (dev_iterate_vscsi vscsi_test_firmware true)
      (dev_iterate_sas_ioa vscsi_test_firmware true true) "fcp".toList "/pci/fc@1".toList =
      (dev_iterate_fcp_nvmeof vscsi_test_firmware true true 0 "/pci/fc@1".toList).map
        (fun events => (events, true)) ∧
    dev_iterate_node (some "/pci/fc@1".toList) false false
      (dev_iterate_fcp_nvmeof vscsi_test_firmware true true 0)
      (dev_iterate_fcp_disks vscsi_test_firmware true)
      (dev_iterate_vscsi vscsi_test_firmware true)
      (dev_iterate_sas_ioa vscsi_test_firmware true true) "fcp".toList "/pci/fc@1".toList =
      some (dev_iterate_fcp_disks vscsi_test_firmware true "/pci/fc@1".toList, true) :=
  ⟨(fcp_dispatch (some "/pci/fc@0".toList) false false _ _ _ _ "/pci/fc@1".toList).1
      "/pci/fc@0".toList rfl (by decide),
   (fcp_dispatch none false false _ _ _ _ "/pci/fc@1".toList).2.1 rfl,
   (fcp_dispatch (some "/pci/fc@1".toList) true false _ _ _ _ "/pci/fc@1".toList).2.2.1 rfl rfl,
   (fcp_dispatch (some "/pci/fc@1".toList) false false _ _ _ _ "/pci/fc@1".toList).2.2.2 rfl
      rfl⟩

/-- C27, the code at the failing input: the name `ieee1275//pci@0/ethernet@1`
of a device whose `device_type` is `network`, opened twice from the empty
state.  The first call opens the handle, stores the path in `last_devpath`
and then rejects the device with `GRUB_ERR_UNKNOWN_DEVICE`.  The second call
finds the path in the cache, jumps to `finish` past the `device_type` test
and returns `GRUB_ERR_NONE` with the disk filled in, without any firmware
call on a handle.  (The `block-size` request is taken to fail on such a
device.)  This holds whatever the freed `devpath` block of the entry of the
first call holds during the second. -/
theorem second_open_of_non_block_device_succeeds
    (heap1 heap_add1 heap2 heap_add2 : EntPtr → CStr) :
    open_real_twice false heap1 heap_add1 heap2 heap_add2 OfdiskState.init
      "ieee1275//pci@0/ethernet@1".toList
      { fw_result := 5, finddevice_ok := true, device_type := some "network".toList,
        reply := { call_failed := true, result := 0, size1 := 0 } }
      { fw_result := 6, finddevice_ok := true, device_type := some "network".toList,
        reply := { call_failed := true, result := 0, size1 := 0 } } =
      some ((GRUB_ERR_UNKNOWN_DEVICE,
             [FwCall.fw_open (some "/pci@0/ethernet@1:0".toList) 5]),
            (GRUB_ERR_NONE, [])) ∧
    ((grub_ofdisk_open_real false true Allocs.ok heap1 heap_add1 OfdiskState.init
        "ieee1275//pci@0/ethernet@1".toList grub_disk.zero
        { fw_result := 5, finddevice_ok := true, device_type := some "network".toList,
          reply := { call_failed := true, result := 0, size1 := 0 } }).bind
      (fun r1 => grub_ofdisk_open_real false true Allocs.ok heap2 heap_add2 r1.state
        "ieee1275//pci@0/ethernet@1".toList grub_disk.zero
        { fw_result := 6, finddevice_ok := true, device_type := some "network".toList,
          reply := { call_failed := true, result := 0, size1 := 0 } })).map
      (fun r2 => (r2.err, r2.disk.data.map (fun p => p.str), r2.disk.log_sector_size,
                  r2.state.cache.last_ihandle)) =
      some (GRUB_ERR_NONE, some "/pci@0/ethernet@1:0".toList, 9, 5) := by
  -- the first call, evaluated: nothing is freed yet, so the blocks do not matter
  have hfirst := open_real_no_freed false true Allocs.ok heap1 heap_add1 (fun _ => [])
    (fun _ => []) OfdiskState.init "ieee1275//pci@0/ethernet@1".toList grub_disk.zero
    { fw_result := 5, finddevice_ok := true, device_type := some "network".toList,
      reply := { call_failed := true, result := 0, size1 := 0 } } rfl
  have heval1 : (grub_ofdisk_open_real false true Allocs.ok (fun _ => []) (fun _ => [])
      OfdiskState.init "ieee1275//pci@0/ethernet@1".toList grub_disk.zero
      { fw_result := 5, finddevice_ok := true, device_type := some "network".toList,
        reply := { call_failed := true, result := 0, size1 := 0 } }).map
      (fun r => (r.err, r.calls)) =
      some (GRUB_ERR_UNKNOWN_DEVICE,
        [FwCall.fw_open (some "/pci@0/ethernet@1:0".toList) 5]) := by
    decide
  have heval2 : (grub_ofdisk_open_real false true Allocs.ok (fun _ => []) (fun _ => [])
      OfdiskState.init "ieee1275//pci@0/ethernet@1".toList grub_disk.zero
      { fw_result := 5, finddevice_ok := true, device_type := some "network".toList,
        reply := { call_failed := true, result := 0, size1 := 0 } }).map
      (fun r => (r.state.cache.last_devpath.map (fun p => p.str),
        r.state.cache.last_ihandle)) =
      some (some "/pci@0/ethernet@1:0".toList, 5) := by
    decide
  have heval3 : (grub_ofdisk_open_real false true Allocs.ok (fun _ => []) (fun _ => [])
      OfdiskState.init "ieee1275//pci@0/ethernet@1".toList grub_disk.zero
      { fw_result := 5, finddevice_ok := true, device_type := some "network".toList,
        reply := { call_failed := true, result := 0, size1 := 0 } }).map
      (fun r => (r.state.registry.ofdisk_hash
        (ofdisk_hash_fn "/pci@0/ethernet@1".toList)).map (fun e => e.open_path)) =
      some ["/pci@0/ethernet@1:0".toList] := by
    decide
  rw [← hfirst] at heval1 heval2 heval3
  cases h1 : grub_ofdisk_open_real false true Allocs.ok heap1 heap_add1 OfdiskState.init
      "ieee1275//pci@0/ethernet@1".toList grub_disk.zero
      { fw_result := 5, finddevice_ok := true, device_type := some "network".toList,
        reply := { call_failed := true, result := 0, size1 := 0 } } with
  | none => rw [h1] at heval1; cases heval1
  | some r1 =>
    rw [h1] at heval1 heval2 heval3
    simp only [Option.map_some', Option.some.injEq, Prod.mk.injEq] at heval1 heval2 heval3
    obtain ⟨herr1, hcalls1⟩ := heval1
    obtain ⟨hlast1, hih1⟩ := heval2
    have hbucket1 := heval3
    have hd : unescape_loop (("ieee1275//pci@0/ethernet@1".toList).drop 9) =
        "/pci@0/ethernet@1".toList := by decide
    have hop : make_open_path false "/pci@0/ethernet@1".toList =
        "/pci@0/ethernet@1:0".toList := by decide
    cases hl : r1.state.cache.last_devpath with
    | none => rw [hl] at hlast1; cases hlast1
    | some last =>
      rw [hl] at hlast1
      simp only [Option.map_some', Option.some.injEq] at hlast1
      -- the second call hits the cache
      obtain ⟨r2, h2, herr2, hcalls2, hcache2, hdata2, hlss2⟩ :=
        open_real_cache_hit Allocs.ok heap2 heap_add2 r1.state
          "ieee1275//pci@0/ethernet@1".toList grub_disk.zero
          { fw_result := 6, finddevice_ok := true, device_type := some "network".toList,
            reply := { call_failed := true, result := 0, size1 := 0 } } last
          (by decide) rfl hl (by rw [hd, hop]; exact hlast1)
          (by
            intro e he
            rw [hd] at he
            rw [hd, hop]
            have hm : e.open_path ∈ (r1.state.registry.ofdisk_hash
                (ofdisk_hash_fn "/pci@0/ethernet@1".toList)).map (fun e => e.open_path) :=
              List.mem_map.mpr ⟨e, he, rfl⟩
            rw [hbucket1] at hm
            exact List.mem_singleton.mp hm)
      rw [hd, hop] at hdata2
      constructor
      · unfold open_real_twice
        rw [h1]
        simp only [Option.some_bind, h2, Option.map_some', herr1, hcalls1, herr2, hcalls2]
      · simp only [Option.some_bind, h2, Option.map_some', herr2, hdata2, hlss2 rfl, hcache2,
          hih1]

/-- C28: on an entry whose failure counter is 0, after any sequence `pre` of
probes with arbitrary firmware answers the counter is at most 2, as it is
after each probe of the sequence; and if it is 2 after `pre`, every probe of
any continuation `post` returns no block size without calling the firmware
and leaves the entry as it is. -/
theorem failure_counter_bounded_and_permanent (op : ofdisk_hash_ent)
    (pre post : List BlockSizeReply) (h0 : op.block_size_fails = 0) :
    (∀ r ∈ (probe_run op pre).1, r.ent.block_size_fails ≤ 2) ∧
    (probe_run op pre).2.block_size_fails ≤ 2 ∧
    ((probe_run op pre).2.block_size_fails = 2 →
      probe_run op (pre ++ post) =
        ((probe_run op pre).1 ++
          post.map (fun _ => { err := GRUB_ERR_NONE, block_size := 0,
                               ent := (probe_run op pre).2, fw_called := false }),
         (probe_run op pre).2)) := by
  obtain ⟨h1, h2⟩ := probe_run_counter_le op pre (by omega)
  refine ⟨h1, h2, fun h => ?_⟩
  rw [probe_run_append, probe_run_frozen _ (by omega) post]

/-- C28, an instance: on a fresh entry, two failed calls, then a probe the firmware would
answer with 512. -/
theorem failure_counter_bounded_and_permanent_witness :
    (probe_run (new_ent false "/d".toList)
      [{ call_failed := true, result := 0, size1 := 0 },
       { call_failed := false, result := 1, size1 := 0 }]).2.block_size_fails = 2 ∧
    (probe_run (new_ent false "/d".toList)
      ([{ call_failed := true, result := 0, size1 := 0 },
        { call_failed := false, result := 1, size1 := 0 }] ++
       [{ call_failed := false, result := 0, size1 := 512 }])).1.map
      (fun r => (r.block_size, r.fw_called, r.ent.block_size_fails)) =
      [(0, true, 1), (0, true, 2), (0, false, 2)] :=
  ⟨by decide, by
    rw [(failure_counter_bounded_and_permanent (new_ent false "/d".toList)
      [{ call_failed := true, result := 0, size1 := 0 },
       { call_failed := false, result := 1, size1 := 0 }]
      [{ call_failed := false, result := 0, size1 := 512 }] rfl).2.2 (by decide)]
    decide⟩

/-- C29: with the allocations succeeding, `dev_iterate_real (name, path)`
returns, and a second call leaves the registry exactly as the first call
left it; whatever the allocations do, the call changes nothing when `path`
is registered; and a scan, repeated with the same calls, leaves the registry
exactly as the first scan left it. -/
theorem scanner_registration_idempotent (no_partition_0 : Bool) (mem mem_can : Allocs)
    (s : Registry) (name path : CStr) (l : List (CStr × CStr))
    (hmem : mem.succeeds no_partition_0 = true)
    (hcan : mem_can.succeeds no_partition_0 = true) :
    (∃ s1, dev_iterate_real no_partition_0 true true mem mem_can s name path = some s1 ∧
      dev_iterate_real no_partition_0 true true mem mem_can s1 name path = some s1) ∧
    (∀ dup_name_ok dup_path_ok mem1 mem2, (ofdisk_hash_find s path).isSome = true →
      dev_iterate_real no_partition_0 dup_name_ok dup_path_ok mem1 mem2 s name path = some s) ∧
    (∃ s1, scan_registrations no_partition_0 s l = some s1 ∧
      scan_registrations no_partition_0 s1 l = some s1) := by
  refine ⟨?_, ?_, ?_⟩
  · obtain ⟨s1, h1, h2⟩ := dev_iterate_real_registers no_partition_0 mem mem_can hmem hcan s
      name path
    exact ⟨s1, h1, dev_iterate_real_registered _ _ _ _ _ _ _ _ h2⟩
  · intro d1 d2 m1 m2 h
    exact dev_iterate_real_registered _ _ _ _ _ _ _ _ h
  · obtain ⟨s1, h1, _, h3⟩ := scan_registrations_registered no_partition_0 l s
    exact ⟨s1, h1, scan_registrations_noop _ _ _ h3⟩

/-- C29, an instance: on the empty registry, an alias `hd` of a disk and a scan that
offers it along with a second disk. -/
theorem scanner_registration_idempotent_witness :
    (∃ s1, dev_iterate_real false true true Allocs.ok Allocs.ok Registry.empty "hd".toList
        "/pci@0/disk@1".toList = some s1 ∧
      dev_iterate_real false true true Allocs.ok Allocs.ok s1 "hd".toList
        "/pci@0/disk@1".toList = some s1) ∧
    (∃ s1, scan_registrations false Registry.empty
        [("hd".toList, "/pci@0/disk@1".toList), ("/pci@0/disk@2".toList, "/pci@0/disk@2".toList)]
        = some s1 ∧
      scan_registrations false s1
        [("hd".toList, "/pci@0/disk@1".toList), ("/pci@0/disk@2".toList, "/pci@0/disk@2".toList)]
        = some s1) :=
  ⟨(scanner_registration_idempotent false Allocs.ok Allocs.ok Registry.empty "hd".toList
      "/pci@0/disk@1".toList [] rfl rfl).1,
   (scanner_registration_idempotent false Allocs.ok Allocs.ok Registry.empty "hd".toList
      "/pci@0/disk@1".toList
      [("hd".toList, "/pci@0/disk@1".toList), ("/pci@0/disk@2".toList, "/pci@0/disk@2".toList)]
      rfl rfl).2.2⟩

/-- C30: when `ofdisk_hash_add_real` returns an entry for a path of length
`n` with `c` commas, the exposed name it wrote has length `9 + n + c`, which
with the terminator is at most the `10 + 2 * n` bytes allocated; and what
`compute_dev_path` returns is never longer than its input, so with the
terminator it is within the `strlen (name) + 3` bytes allocated. -/
theorem exposed_name_and_dev_path_fit (no_partition_0 : Bool) (mem : Allocs) (s s1 : Registry)
    (devpath : CStr) (p : EntPtr)
    (h : ofdisk_hash_add_real no_partition_0 mem s devpath = (s1, some p)) :
    (∃ e, deref s1 p = some e ∧
      e.grub_devpath.length = 9 + devpath.length + devpath.count ',' ∧
      e.grub_devpath.length + 1 ≤ 10 + 2 * devpath.length) ∧
    (∀ alloc_ok name out, compute_dev_path alloc_ok name = some out →
      out.length ≤ name.length ∧ out.length + 1 ≤ name.length + 3) := by
  constructor
  · cases hm : mem.succeeds no_partition_0 with
    | false => rw [add_real_fail _ _ _ _ hm] at h; simp at h
    | true =>
      rw [add_real_ok _ _ _ _ hm] at h
      simp only [Prod.mk.injEq, Option.some.injEq] at h
      obtain ⟨hs, hp⟩ := h
      refine ⟨new_ent no_partition_0 devpath, ?_, ?_, ?_⟩
      · rw [← hs, ← hp]
        exact deref_link_head_new s (new_ent no_partition_0 devpath)
      · exact make_grub_devpath_length devpath
      · have h1 := make_grub_devpath_length devpath
        have h2 : devpath.count ',' ≤ devpath.length := List.count_le_length _ _
        show (make_grub_devpath devpath).length + 1 ≤ _
        omega
  · intro alloc_ok name out ho
    unfold compute_dev_path at ho
    split_ifs at ho
    simp only [Option.some.injEq] at ho
    have := unescape_loop_length name
    rw [← ho]
    omega

/-- C30, an instance: the path `/a,b,c` added to the empty registry, and on the exposed
form of it given to `compute_dev_path`. -/
theorem exposed_name_and_dev_path_fit_witness :
    (∃ e, deref (link_head Registry.empty (new_ent false "/a,b,c".toList))
        { bucket := ofdisk_hash_fn "/a,b,c".toList, depth := 0 } = some e ∧
      e.grub_devpath.length = 9 + 6 + 2 ∧ e.grub_devpath.length + 1 ≤ 10 + 2 * 6) ∧
    (∀ out, compute_dev_path true "/a\\,b\\,c".toList = some out →
      out.length ≤ 8 ∧ out.length + 1 ≤ 8 + 3) :=
  ⟨(exposed_name_and_dev_path_fit false Allocs.ok Registry.empty _ "/a,b,c".toList _ rfl).1,
   fun out => (exposed_name_and_dev_path_fit false Allocs.ok Registry.empty _ "/a,b,c".toList
      { bucket := ofdisk_hash_fn "/a,b,c".toList, depth := 0 } rfl).2 true
      "/a\\,b\\,c".toList out⟩

end Ofdisk
